import Mathlib

/-! ## TGUI `Group`: container operations and the scene loader

A shallow embedding of `src/TGUI/Group.cpp`.

* Widgets are referred to by address (`ObjPtr`); a `Group` holds the widget
  sequence `m_EventManager.m_Objects`, the parallel name sequence `m_ObjName`
  and the 1-based focus index `m_EventManager.m_FocusedObject` (0 = none).
* `std::string` / `sf::String` values are lists of characters (`Str`).
* `delete` and the calls forwarded to the event manager are recorded in a
  ghost `trace`, so that their order can be stated.
* `loadObjectsFromFile` is a state machine over the lines of the file: `lexLine`
  normalises a line, `applyDefines` substitutes the defines, `dispatch` is the
  `switch (objectID)`. Widgets created and calls made on widgets are recorded
  in a `World`; helpers that are not in `Group.cpp` are taken from an `Env`.
-/

namespace TGUI

/-- The address of a widget (`OBJECT*`). -/
abbrev ObjPtr := Nat

/-- A `std::string` / `sf::String`: a sequence of characters. -/
abbrev Str := List Char

/-- Observable actions of the container operations, in the order they happen
(`initialise p` stands for the call `p->initialize()`). -/
inductive Effect where
  | delete (p : ObjPtr)
  | unfocusObject (p : ObjPtr)
  | focusObject (p : ObjPtr)
  | clone (source result : ObjPtr)
  | setParent (p : ObjPtr) (parent : Nat)
  | initialise (p : ObjPtr)
  deriving DecidableEq, Repr

/-- The part of `EventManager` that `Group.cpp` reads and writes. -/
structure EventManager where
  m_Objects : List ObjPtr
  m_FocusedObject : Nat
  deriving DecidableEq, Repr

/-- The state of a `Group`. -/
structure Group where
  m_EventManager : EventManager
  m_ObjName : List Str
  trace : List Effect := []
  deriving DecidableEq, Repr

/-- Index found by `for (i = 0; i < v.size(); ++i) if (test v[i]) { ...; break; }`:
the first index whose element passes the test. -/
def firstIndex {α : Type} (test : α → Bool) : List α → Option Nat
  | [] => none
  | x :: xs => if test x then some 0 else (firstIndex test xs).map (· + 1)

/-- Modelled from the spec: `EventManager::unfocusObject` is declared outside the
sources at hand; the spec says that removal by pointer "must first explicitly
unfocus the widget if it is the focused one". The stored focus index is cleared
when it designates `object`, and is left alone otherwise. -/
def EventManager.unfocusObject (em : EventManager) (object : ObjPtr) : EventManager :=
  if em.m_FocusedObject ≠ 0 ∧ em.m_Objects[em.m_FocusedObject - 1]? = some object then
    { em with m_FocusedObject := 0 }
  else em

/-- The `Group::remove(const sf::String objectName)` overload. -/
def Group.remove (g : Group) (objectName : Str) : Group :=
  match firstIndex (fun n => n == objectName) g.m_ObjName with
  | none => g
  | some i =>
    { m_EventManager :=
        { g.m_EventManager with m_Objects := g.m_EventManager.m_Objects.eraseIdx i }
      m_ObjName := g.m_ObjName.eraseIdx i
      trace := g.trace ++ (g.m_EventManager.m_Objects[i]?.toList.map Effect.delete) }

/-- The `Group::remove(OBJECT* object)` overload. -/
def Group.removeObject (g : Group) (object : ObjPtr) : Group :=
  match firstIndex (fun o => o == object) g.m_EventManager.m_Objects with
  | none => g
  | some i =>
    let em := g.m_EventManager.unfocusObject object
    { m_EventManager := { em with m_Objects := em.m_Objects.eraseIdx i }
      m_ObjName := g.m_ObjName.eraseIdx i
      trace := g.trace ++ Effect.unfocusObject object ::
        (em.m_Objects[i]?.toList.map Effect.delete) }

/-- `Group::removeAllObjects`. -/
def Group.removeAllObjects (g : Group) : Group :=
  { m_EventManager := { m_Objects := [], m_FocusedObject := 0 }
    m_ObjName := []
    trace := g.trace ++ g.m_EventManager.m_Objects.map Effect.delete }

/-- `Group::moveObjectToFront`. -/
def Group.moveObjectToFront (g : Group) (object : ObjPtr) : Group :=
  match firstIndex (fun o => o == object) g.m_EventManager.m_Objects with
  | none => g
  | some i =>
    let objects := g.m_EventManager.m_Objects ++ g.m_EventManager.m_Objects[i]?.toList
    let names := g.m_ObjName ++ g.m_ObjName[i]?.toList
    let focused :=
      if g.m_EventManager.m_FocusedObject = 0 ∨ g.m_EventManager.m_FocusedObject = i + 1 then
        objects.length - 1
      else if g.m_EventManager.m_FocusedObject > i + 1 then
        g.m_EventManager.m_FocusedObject - 1
      else g.m_EventManager.m_FocusedObject
    { g with
      m_EventManager := { m_Objects := objects.eraseIdx i, m_FocusedObject := focused }
      m_ObjName := names.eraseIdx i }

/-- `Group::moveObjectToBack`. -/
def Group.moveObjectToBack (g : Group) (object : ObjPtr) : Group :=
  match firstIndex (fun o => o == object) g.m_EventManager.m_Objects with
  | none => g
  | some i =>
    let objects := g.m_EventManager.m_Objects[i]?.toList ++ g.m_EventManager.m_Objects
    let names := g.m_ObjName[i]?.toList ++ g.m_ObjName
    let focused :=
      if g.m_EventManager.m_FocusedObject = i + 1 then 1
      else if g.m_EventManager.m_FocusedObject ≠ 0 then g.m_EventManager.m_FocusedObject + 1
      else g.m_EventManager.m_FocusedObject
    { g with
      m_EventManager := { m_Objects := objects.eraseIdx (i + 1), m_FocusedObject := focused }
      m_ObjName := names.eraseIdx (i + 1) }

/-- The two parallel sequences have the same length. -/
def Group.aligned (g : Group) : Prop :=
  g.m_EventManager.m_Objects.length = g.m_ObjName.length

instance (g : Group) : Decidable g.aligned := by unfold Group.aligned; infer_instance

/-- The stored focus index is 0 or a 1-based index of a present widget. -/
def Group.focusValid (g : Group) : Prop :=
  g.m_EventManager.m_FocusedObject ≤ g.m_EventManager.m_Objects.length

instance (g : Group) : Decidable g.focusValid := by unfold Group.focusValid; infer_instance

/-- The widget designated by the stored focus index, if any. -/
def Group.focusedWidget (g : Group) : Option ObjPtr :=
  if g.m_EventManager.m_FocusedObject = 0 then none
  else g.m_EventManager.m_Objects[g.m_EventManager.m_FocusedObject - 1]?

/-! ## The scene loader: lexing of one line -/

/-- `std::string::find(c)`: the position of the first `c`. -/
def findChar (c : Char) (s : Str) : Option Nat :=
  firstIndex (fun x => x == c) s

/-- `std::string::find(c, pos)`. -/
def findCharFrom (c : Char) (s : Str) (pos : Nat) : Option Nat :=
  (findChar c (s.drop pos)).map (· + pos)

/-- `std::string::find(token)`: the position of the first occurrence of `token`. -/
def findStr (token : Str) : Str → Option Nat
  | [] => if token = [] then some 0 else none
  | x :: xs =>
    if token.isPrefixOf (x :: xs) then some 0 else (findStr token xs).map (· + 1)

/-- One step of the lowercase loops: `if ((c > 64) && (c < 91)) c += 32`. -/
def lowerChar (c : Char) : Char :=
  if 64 < c.toNat ∧ c.toNat < 91 then Char.ofNat (c.toNat + 32) else c

/-- The statement `line.erase(std::remove(line.begin(), line.end(), c), line.end())`. -/
def removeChar (c : Char) (s : Str) : Str :=
  s.filter (fun x => x != c)

/-- The result of looking at a comment start found at `commentPos`:
`none` is `goto LoadingFailed`, otherwise the cut line and the new comment flag. -/
def cutComment (line : Str) (commentPos : Nat) (multilineComment : Bool) :
    Option (Str × Bool) :=
  if line.get? (commentPos + 1) = some '/' then some (line.take commentPos, multilineComment)
  else if line.get? (commentPos + 1) = some '*' then some (line.take commentPos, true)
  else none

/-- The loop `while (backslashPos < quotePos2)` that decodes the escape
sequences between the quotes. `backslashPos = none` stands for `npos`.
The outer `Option` is `none` when the fuel runs out (it never does when the
fuel is at least the length of the line, see `unescape_fuel`); the inner one is
`none` for `goto LoadingFailed`. -/
def unescape : Nat → Str → Option Nat → Nat → Option (Option (Str × Nat))
  | 0, _, _, _ => none
  | fuel + 1, line, backslashPos, quotePos2 =>
    match backslashPos with
    | none => some (some (line, quotePos2))
    | some b =>
      if b < quotePos2 then
        if line.get? (b + 1) = some 'n' then
          let line1 := (line.set b '\n').eraseIdx (b + 1)
          unescape fuel line1 (findCharFrom '\\' line1 (b + 1)) (quotePos2 - 1)
        else if line.get? (b + 1) = some 't' then
          let line1 := (line.set b '\t').eraseIdx (b + 1)
          unescape fuel line1 (findCharFrom '\\' line1 (b + 1)) (quotePos2 - 1)
        else if line.get? (b + 1) = some '\\' then
          let line1 := line.eraseIdx (b + 1)
          unescape fuel line1 (findCharFrom '\\' line1 (b + 1)) (quotePos2 - 1)
        else if line.get? (b + 1) = some '"' then
          let line1 := (line.set b '"').eraseIdx (b + 1)
          match findCharFrom '"' line1 (b + 1) with
          | none => some none
          | some q => unescape fuel line1 (findCharFrom '\\' line1 (b + 1)) q
        else
          unescape fuel line (findCharFrom '\\' line (b + 1)) quotePos2
      else some (some (line, quotePos2))

/-- The part of the lexer after the second quote has been found at `quotePos2`
(the first one is at `quotePos1`, the text before it is already normalised). -/
def lexAfterSecondQuote (line : Str) (quotePos1 quotePos2 : Nat) (multilineComment : Bool) :
    Option (Str × Bool) :=
  -- Remove all spaces and tabs after the quote
  let line1 := line.take quotePos2 ++
    removeChar '\r' (removeChar '\t' (removeChar ' ' (line.drop quotePos2)))
  -- Search for comments
  let cut : Option (Str × Bool) :=
    match findCharFrom '/' line1 (quotePos2 + 1) with
    | some commentPos =>
      if line1.length > commentPos + 1 then cutComment line1 commentPos multilineComment
      else none
    | none => some (line1, multilineComment)
  match cut with
  | none => none
  | some (line2, mlc) =>
    -- Search for the quote again (it is still there: the cut was behind it)
    match findCharFrom '"' line2 (quotePos1 + 1) with
    | none => none
    | some q2 =>
      match unescape (line2.length + 1) line2 (findCharFrom '\\' line2 quotePos1) q2 with
      | none => none
      | some none => none
      | some (some (line3, q3)) =>
        -- There may never be more than two quotes
        if findCharFrom '"' line3 (q3 + 1) ≠ none then none
        else some (line3.take q3 ++ (line3.drop q3).map lowerChar, mlc)

/-- The lexer for a line read outside a multi-line comment (the code from the
label `multilineCommentProcessed` on). `none` is `goto LoadingFailed`;
otherwise the normalised line and the new value of `multilineComment`. -/
def lexNormal (line : Str) : Option (Str × Bool) :=
  match findChar '"' line with
  | none =>
    -- Remove all spaces and tabs from the whole line
    let line1 := removeChar '\r' (removeChar '\t' (removeChar ' ' line))
    let cut : Option (Str × Bool) :=
      match findChar '/' line1 with
      | some commentPos =>
        if line1.length > commentPos + 1 then cutComment line1 commentPos false else none
      | none => some (line1, false)
    match cut with
    | none => none
    | some (line2, mlc) => some (line2.map lowerChar, mlc)
  | some quotePos1 =>
    -- Only remove spaces until the quote
    let line1 := removeChar ' ' (line.take quotePos1) ++ line.drop quotePos1
    let quotePos1a := (findChar '"' line1).getD line1.length
    -- Only remove tabs until the quote
    let line2 := removeChar '\t' (line1.take quotePos1a) ++ line1.drop quotePos1a
    let quotePos1b := (findChar '"' line2).getD line2.length
    -- Search for comments
    let cut : Option (Str × Bool) :=
      match findChar '/' (line2.take quotePos1b) with
      | some commentPos => cutComment line2 commentPos false
      | none => some (line2, false)
    match cut with
    | none => none
    | some (line3, mlc) =>
      -- The quote might have been behind the comment
      match findChar '"' line3 with
      | none => some (line3, mlc)
      | some q1 =>
        let line4 := (line3.take q1).map lowerChar ++ line3.drop q1
        -- There must always be a second quote
        match findCharFrom '"' line4 (q1 + 1) with
        | none => none
        | some q2 => lexAfterSecondQuote line4 q1 q2 mlc

/-- The lexer for one line of the file: the multi-line comment test followed
by `lexNormal`. `none` is `goto LoadingFailed`. -/
def lexLine (multilineComment : Bool) (line : Str) : Option (Str × Bool) :=
  if multilineComment then
    match findChar '*' line with
    | some commentPos =>
      if line.length > commentPos + 1 then
        if line.get? (commentPos + 1) = some '/' then lexNormal (line.drop (commentPos + 2))
        else some ([], true)
      else some ([], true)
    | none => some ([], true)
  else lexNormal line

/-- The define loop: every registered token, in registration order, has its
first occurrence in the current line replaced by its value. -/
def applyDefines : List Str → List Str → Str → Str
  | token :: tokens, value :: values, line =>
    match findStr token line with
    | some tokenPos =>
      applyDefines tokens values
        (line.take tokenPos ++ value ++ line.drop (tokenPos + token.length))
    | none => applyDefines tokens values line
  | _, _, line => line

/-! ## The scene loader: widgets, calls and the parser state -/

/-- Modelled from the spec: the declaration of the enumeration
`tgui::ObjectTypes` is not among the sources; the spec speaks of a "fixed
vocabulary of type keywords" and of a "numeric type id". The enumerators are
those that `Group.cpp` names; they are pairwise different, as the `case`
labels built from them must be. -/
inductive ObjectTypes where
  | window | panel | label | button | slider | picture | listbox | editBox | textBox
  | checkbox | comboBox | scrollbar | loadingBar | spinButton | radioButton | childWindow
  | spriteSheet | animatedButton | animatedPicture
  deriving DecidableEq, Repr

/-- The values taken by the variable `objectID`: `0`, or `t + 1` for an
enumerator `t` (the `case` labels of the `switch`, pairwise different). -/
inductive ObjectID where
  | zero
  | succ (t : ObjectTypes)
  deriving DecidableEq, Repr

/-- The pointers handled by the loader: `NULL`, `this`, or a widget address. -/
inductive Ptr where
  | null
  | this
  | object (p : ObjPtr)
  deriving DecidableEq, Repr

/-- An argument of a call made on a widget. `float v` is a `float` whose value
is the integer `v`. Values computed by functions that are not in `Group.cpp`
are recorded by the text they are computed from. -/
inductive Arg where
  | int (i : Int)
  | str (s : Str)
  | bool (b : Bool)
  | char (c : Char)
  | float (value : Int)
  | atof (text : Str)
  | color (text : Str)
  | vector (text : Str)
  | get (getter : String)
  | const (enumerator : String)
  deriving DecidableEq, Repr

/-- A member call `target->method(args)`; an assignment to a public member
`target->field = v` is recorded as the call `field(v)`. -/
structure Call where
  target : Ptr
  method : String
  args : List Arg
  deriving DecidableEq, Repr

/-- A widget created by `parent->add<kind>(name)`. -/
structure Created where
  ptr : ObjPtr
  parent : Ptr
  kind : ObjectTypes
  name : Str
  deriving DecidableEq, Repr

/-- What the loader acts on: the `Group` being loaded (`this`), the widgets
created so far, the calls made on widgets so far, and the next free address. -/
structure World where
  self : Group
  created : List Created := []
  calls : List Call := []
  nextPtr : ObjPtr := 0
  deriving DecidableEq, Repr

/-- What the loader takes from outside `Group.cpp`: whether the `extract...`
helpers accept a text, and the boolean result of a call whose result the
loader tests (given the calls made before it). -/
structure Env where
  extractVector2f : Str → Bool
  extractVector2u : Str → Bool
  extractVector4u : Str → Bool
  returns : List Call → Call → Bool

/-- Modelled from the spec: `Group::add<T>` is declared in a header that is not
among the sources; the spec describes it as "`add(name)` -> pointer to new owned
widget of given concrete kind", the container holding an "ordered sequence of
owned Widget" with a "parallel ordered sequence of widget names". The new
widget gets the next free address; when the receiver is `this`, the widget and
its name are appended to the sequences of the `Group` being loaded; for every
receiver the creation is recorded with the receiver as parent. -/
def World.add (w : World) (parent : Ptr) (kind : ObjectTypes) (name : Str) : World × ObjPtr :=
  let self' : Group :=
    if parent = Ptr.this then
      { w.self with
        m_EventManager :=
          { w.self.m_EventManager with
            m_Objects := w.self.m_EventManager.m_Objects ++ [w.nextPtr] }
        m_ObjName := w.self.m_ObjName ++ [name] }
    else w.self
  ({ w with
      self := self'
      created := w.created ++ [{ ptr := w.nextPtr, parent := parent, kind := kind, name := name }]
      nextPtr := w.nextPtr + 1 },
   w.nextPtr)

/-- The local variables of `loadObjectsFromFile` (stacks have their top at the
head of the list), together with the world. -/
structure Loader where
  parentPtr : List Ptr := []
  parentID : List ObjectID := []
  progress : List Nat := []
  objectID : ObjectID := ObjectID.zero
  extraPtr : Ptr := Ptr.null
  multilineComment : Bool := false
  defineTokens : List Str := []
  defineValues : List Str := []
  world : World
  deriving DecidableEq, Repr

/-- How the processing of a line ends: the loop goes on, the function returns
(`goto LoadingSucceeded` / `goto LoadingFailed`), or the behaviour is not
defined by the source (an uncaught `std::out_of_range`, or `top()`/`pop()`
on an empty stack). -/
inductive Outcome where
  | running (st : Loader)
  | returned (result : Bool) (w : World)
  | crashed
  deriving DecidableEq, Repr

/-! ## The scene loader: values -/

/-- The C library's `isspace` in the "C" locale. -/
def isSpace (c : Char) : Bool :=
  c == ' ' || c == '\t' || c == '\n' || c == '\x0b' || c == '\x0c' || c == '\r'

/-- The value of the leading decimal digits of a text, continuing from `acc`. -/
def digitsValue : Str → Nat → Nat
  | [], acc => acc
  | c :: cs, acc =>
    if 48 ≤ c.toNat ∧ c.toNat ≤ 57 then digitsValue cs (acc * 10 + (c.toNat - 48)) else acc

/-- The number at the start of a text as the C library reads it: white space,
an optional sign, the leading decimal digits. -/
def leadingNumber (s : Str) : Int :=
  match s.dropWhile isSpace with
  | '-' :: rest => - (digitsValue rest 0 : Int)
  | '+' :: rest => (digitsValue rest 0 : Int)
  | rest => (digitsValue rest 0 : Int)

/-- The C library's `strtol(s, NULL, 10)` with a `long` of 64 bits: a value
outside the range of `long` gives `LONG_MAX` or `LONG_MIN`. -/
def strtol (s : Str) : Int :=
  if leadingNumber s > 9223372036854775807 then 9223372036854775807
  else if leadingNumber s < -9223372036854775808 then -9223372036854775808
  else leadingNumber s

/-- The conversion of an integer to `int` (32 bits, two's complement): the
value modulo 2^32 in the range of `int`. -/
def toInt32 (v : Int) : Int :=
  (v + 2147483648) % 4294967296 - 2147483648

/-- The C library's `atoi`, which is `(int) strtol(s, NULL, 10)`: beyond the
range of `int` the low 32 bits of the `long` are kept. -/
def atoi (s : Str) : Int :=
  toInt32 (strtol s)

/-- `static_cast<float>(i)` for an `int` `i`: the nearest number with a
significand of 24 bits, a tie going to the even significand (IEEE 754 single
precision, round to nearest even). For an `int` the result is an integer;
`drop` is the number of low bits that do not fit into the significand. -/
def floatOfInt (i : Int) : Int :=
  let m := i.natAbs
  let drop := ((List.range 8).filter (fun j => decide (2 ^ (24 + j) ≤ m))).length
  let q := m / 2 ^ drop
  let r := m % 2 ^ drop
  let up := decide (2 * r > 2 ^ drop) || (decide (2 * r = 2 ^ drop) && decide (q % 2 = 1))
  let rounded := (if up then q + 1 else q) * 2 ^ drop
  if i < 0 then - (rounded : Int) else (rounded : Int)

/-- `line.substr(0, key.length()).compare(key) == 0`; in every test of the
source the length written is the length of the key. -/
def startsWith (key : String) (line : Str) : Bool :=
  line.take key.length == key.toList

/-- The result of the `CHECK_FOR_QUOTES` block. -/
inductive Quoted where
  | failed
  | threw
  | ok (inner : Str)
  deriving DecidableEq, Repr

/-- The `CHECK_FOR_QUOTES` block: an empty line fails; a line that starts and
ends with a quote loses both; `erase(length()-1, 1)` throws when the line is
the single character `"` (the same character is first and last). -/
def checkForQuotes (line : Str) : Quoted :=
  if line = [] then Quoted.failed
  else if line.head? = some '"' ∧ line.getLast? = some '"' then
    if line.drop 1 = [] then Quoted.threw else Quoted.ok (line.drop 1).dropLast
  else Quoted.failed

/-- The `CHECK_BOOL` block. -/
def checkBool (line : Str) : Bool :=
  if line = "true".toList then true
  else if line = "false".toList then false
  else if atoi line ≠ 0 then true else false

/-- What a property line asks for. -/
inductive Action where
  | fail
  | throw
  | nothing
  | call (method : String) (args : List Arg)
  | callChecked (method : String) (args : List Arg)
  deriving DecidableEq, Repr

/-- `CHECK_FOR_QUOTES` followed by the use of the unquoted text. -/
def quoted (rest : Str) (k : Str → Action) : Action :=
  match checkForQuotes rest with
  | Quoted.failed => Action.fail
  | Quoted.threw => Action.throw
  | Quoted.ok inner => k inner

/-- A property of a widget section: the key tested and what is done with the
rest of the line (`line.erase(0, key.length())`). -/
abbrev Property := String × (Env → Str → Action)

/-- The `CHECK_SHARED_PROPERTIES` block. -/
def sharedProperties : List Property :=
  [ ("size=", fun env r =>
      if env.extractVector2f r then Action.call "setSize" [Arg.vector r] else Action.fail),
    ("width=", fun _ r =>
      Action.call "setSize" [Arg.float (floatOfInt (atoi r)), Arg.get "getScaledSize().y"]),
    ("height=", fun _ r =>
      Action.call "setSize" [Arg.get "getScaledSize().x", Arg.float (floatOfInt (atoi r))]),
    ("scale=", fun env r =>
      if env.extractVector2f r then Action.call "setScale" [Arg.vector r] else Action.fail),
    ("position=", fun env r =>
      if env.extractVector2f r then Action.call "setPosition" [Arg.vector r] else Action.fail),
    ("left=", fun _ r =>
      Action.call "setPosition" [Arg.float (floatOfInt (atoi r)), Arg.get "getPosition().y"]),
    ("top=", fun _ r =>
      Action.call "setPosition" [Arg.get "getPosition().x", Arg.float (floatOfInt (atoi r))]),
    ("callbackid=", fun _ r => Action.call "callbackID" [Arg.int (atoi r)]) ]

/-- The `selecteditem=` property of list boxes and combo boxes; `convert` is
the conversion of the result of `atoi` to the type of the parameter. -/
def selectedItem (convert : Int → Int) (r : Str) : Action :=
  if r = [] then Action.fail
  else if r.head? = some '"' ∧ r.getLast? = some '"' then
    if r.drop 1 = [] then Action.throw
    else Action.call "setSelectedItem" [Arg.str (r.drop 1).dropLast]
  else Action.call "setSelectedItem" [Arg.int (convert (atoi r))]

/-- The `borders=` property. -/
def borders (env : Env) (r : Str) : Action :=
  if env.extractVector4u r then Action.call "setBorders" [Arg.vector r] else Action.fail

/-- The `frame=` property of animated pictures. -/
def frame (r : Str) : Action :=
  if r = [] then Action.fail
  else if r.head? = some '(' ∧ r.getLast? = some ')' then
    let inner := (r.drop 1).dropLast
    match findChar ',' inner with
    | some commaPos =>
      let duration := atoi (inner.drop (commaPos + 1))
      quoted (inner.take commaPos) fun s =>
        Action.callChecked "addFrame" [Arg.str s, Arg.int duration]
    | none => Action.fail
  else Action.fail

/-- The property `key=` handled by `w->method(atoi(rest))`. -/
def atoiCall (method : String) : Env → Str → Action :=
  fun _ r => Action.call method [Arg.int (atoi r)]

/-- The property `key=` handled by `w->method(atoi(rest))` where the parameter
is declared `unsigned int` (`Listbox.hpp`, `RadioButton.hpp`): the `int` is
converted modulo 2^32. -/
def unsignedCall (method : String) : Env → Str → Action :=
  fun _ r => Action.call method [Arg.int (atoi r % 4294967296)]

/-- The property `key=` handled by `w->method(extractColor(rest))`. -/
def colorCall (method : String) : Env → Str → Action :=
  fun _ r => Action.call method [Arg.color r]

/-- The property `key=` handled by `CHECK_FOR_QUOTES` and `w->method(rest)`,
the result of the call being ignored. -/
def quotedCall (method : String) : Env → Str → Action :=
  fun _ r => quoted r fun s => Action.call method [Arg.str s]

/-- The property `key=` handled by `CHECK_BOOL` and `w->field = value`. -/
def boolCall (method : String) : Env → Str → Action :=
  fun _ r => Action.call method [Arg.bool (checkBool r)]

/-- The `checked=` property of check boxes and radio buttons. -/
def checkedProperty : Env → Str → Action :=
  fun _ r => if checkBool r then Action.call "check" [] else Action.call "uncheck" []

/-- The `key=` tests of each `case` of the `switch`, in the order of the source. -/
def properties : ObjectTypes → List Property
  | ObjectTypes.window => []
  | ObjectTypes.panel =>
    sharedProperties ++
    [ ("backgroundcolor=", colorCall "backgroundColor"),
      ("backgroundimage=", quotedCall "setBackgroundImage") ]
  | ObjectTypes.label =>
    [ ("autosize=", fun _ r => Action.call "setAutoSize" [Arg.bool (atoi r != 0)]),
      ("text=", quotedCall "setText"),
      ("textsize=", atoiCall "setTextSize"),
      ("textcolor=", colorCall "setTextColor"),
      ("backgroundcolor=", colorCall "backgroundColor") ] ++ sharedProperties
  | ObjectTypes.button =>
    [ ("pathname=", quotedCall "load"),
      ("text=", quotedCall "setText"),
      ("textsize=", atoiCall "setTextSize"),
      ("textcolor=", colorCall "setTextColor") ] ++ sharedProperties
  | ObjectTypes.slider =>
    [ ("pathname=", quotedCall "load"),
      ("value=", atoiCall "setValue"),
      ("minimum=", atoiCall "setMinimum"),
      ("maximum=", atoiCall "setMaximum"),
      ("verticalscroll=", boolCall "verticalScroll") ] ++ sharedProperties
  | ObjectTypes.picture =>
    [ ("filename=", quotedCall "load") ] ++ sharedProperties
  | ObjectTypes.listbox =>
    [ ("width=", fun _ r => Action.call "setSize" [Arg.atof r, Arg.get "getSize().y"]),
      ("height=", fun _ r => Action.call "setSize" [Arg.get "getSize().x", Arg.atof r]),
      ("itemheight=", unsignedCall "setItemHeight"),
      ("scrollbarpathname=", quotedCall "setScrollbar"),
      ("borders=", borders),
      ("backgroundcolor=", colorCall "setBackgroundColor"),
      ("textcolor=", colorCall "setTextColor"),
      ("selectedbackgroundcolor=", colorCall "setSelectedBackgroundColor"),
      ("selectedtextcolor=", colorCall "setSelectedTextColor"),
      ("bordercolor=", colorCall "setBorderColor"),
      ("maximumitems=", unsignedCall "setMaximumItems"),
      ("item=", quotedCall "addItem"),
      ("selecteditem=", fun _ r => selectedItem (fun i => i % 4294967296) r) ]
      ++ sharedProperties
  | ObjectTypes.editBox =>
    [ ("pathname=", quotedCall "load"),
      ("borders=", borders),
      ("text=", quotedCall "setText"),
      ("textsize=", atoiCall "setTextSize"),
      ("textcolor=", colorCall "setTextColor"),
      ("selectedtextcolor=", colorCall "setSelectedTextColor"),
      ("selectedtextbackgroundcolor=", colorCall "setSelectedTextBackgroundColor"),
      ("unfocusedselectedtextbackgroundcolor=", fun _ _ => Action.nothing),
      ("selectionpointcolor=", colorCall "selectionPointColor"),
      ("passwordchar=", fun _ r => quoted r fun s =>
        Action.call "setPasswordChar" [Arg.char (s.head?.getD '\x00')]),
      ("selectionpointwidth=", atoiCall "selectionPointWidth"),
      ("maximumcharacters=", atoiCall "setMaximumCharacters") ] ++ sharedProperties
  | ObjectTypes.textBox =>
    [ ("width=", fun _ r => Action.call "setSize" [Arg.atof r, Arg.get "getSize().y"]),
      ("height=", fun _ r => Action.call "setSize" [Arg.get "getSize().x", Arg.atof r]),
      ("scrollbarpathname=", quotedCall "setScrollbar"),
      ("borders=", borders),
      ("text=", quotedCall "setText"),
      ("textsize=", atoiCall "setTextSize"),
      ("backgroundcolor=", colorCall "setBackgroundColor"),
      ("textcolor=", colorCall "setTextColor"),
      ("selectedtextcolor=", colorCall "setSelectedTextColor"),
      ("selectedtextbackgroundcolor=", colorCall "setSelectedTextBackgroundColor"),
      ("unfocusedselectedtextbackgroundcolor=", fun _ _ => Action.nothing),
      ("bordercolor=", colorCall "setBorderColor"),
      ("selectionpointcolor=", colorCall "selectionPointColor"),
      ("selectionpointwidth=", atoiCall "selectionPointWidth"),
      ("maximumcharacters=", atoiCall "setMaximumCharacters") ] ++ sharedProperties
  | ObjectTypes.checkbox =>
    [ ("pathname=", quotedCall "load"),
      ("text=", quotedCall "setText"),
      ("checked=", checkedProperty),
      ("textsize=", atoiCall "setTextSize"),
      ("textcolor=", colorCall "setTextColor") ] ++ sharedProperties
  | ObjectTypes.comboBox =>
    [ ("pathname=", fun _ r => quoted r fun s =>
        Action.call "load" [Arg.str s, Arg.get "getSize().x", Arg.get "getSize().y"]),
      ("width=", fun _ r =>
        Action.call "setSize" [Arg.float (floatOfInt (atoi r)), Arg.get "getSize().y"]),
      ("scrollbarpathname=", quotedCall "setScrollbar"),
      ("borders=", borders),
      ("backgroundcolor=", colorCall "setBackgroundColor"),
      ("textcolor=", colorCall "setTextColor"),
      ("selectedbackgroundcolor=", colorCall "setSelectedBackgroundColor"),
      ("selectedtextcolor=", colorCall "setSelectedTextColor"),
      ("bordercolor=", colorCall "setBorderColor"),
      ("itemstodisplay=", atoiCall "setItemsToDisplay"),
      ("item=", quotedCall "addItem"),
      ("selecteditem=", fun _ r => selectedItem id r) ] ++ sharedProperties
  | ObjectTypes.scrollbar =>
    [ ("pathname=", quotedCall "load"),
      ("value=", atoiCall "setValue"),
      ("maximum=", atoiCall "setMaximum"),
      ("lowvalue=", atoiCall "setLowValue"),
      ("verticalscroll=", boolCall "verticalScroll") ] ++ sharedProperties
  | ObjectTypes.loadingBar =>
    [ ("pathname=", quotedCall "load"),
      ("value=", atoiCall "setValue"),
      ("minimum=", atoiCall "setMinimum"),
      ("maximum=", atoiCall "setMaximum") ] ++ sharedProperties
  | ObjectTypes.spinButton =>
    [ ("pathname=", quotedCall "load"),
      ("value=", atoiCall "setValue"),
      ("minimum=", atoiCall "setMinimum"),
      ("maximum=", atoiCall "setMaximum"),
      ("verticalscroll=", boolCall "verticalScroll") ] ++ sharedProperties
  | ObjectTypes.radioButton =>
    [ ("pathname=", quotedCall "load"),
      ("text=", quotedCall "setText"),
      ("checked=", checkedProperty),
      ("textsize=", unsignedCall "setTextSize"),
      ("textcolor=", colorCall "setTextColor") ] ++ sharedProperties
  | ObjectTypes.childWindow =>
    sharedProperties ++
    [ ("pathname=", fun _ r => quoted r fun s =>
        Action.callChecked "load"
          [Arg.get "getSize().x", Arg.get "getSize().y", Arg.get "backgroundColor", Arg.str s]),
      ("backgroundcolor=", colorCall "backgroundColor"),
      ("backgroundimage=", quotedCall "setBackgroundImage"),
      ("borders=", borders),
      ("transparency=", fun _ r => Action.call "setTransparency" [Arg.int (atoi r % 256)]),
      ("titlebarheight=", atoiCall "setTitlebarHeight"),
      ("layout=", fun _ r =>
        if r = "left".toList then Action.call "layout" [Arg.const "ChildWindow::LayoutLeft"]
        else if r = "right".toList then Action.call "layout" [Arg.const "ChildWindow::LayoutRight"]
        else Action.fail) ]
  | ObjectTypes.spriteSheet =>
    [ ("filename=", quotedCall "load"),
      ("rows=", atoiCall "setRows"),
      ("columns=", atoiCall "setColumns"),
      ("cells=", fun env r =>
        if env.extractVector2u r then Action.call "setCells" [Arg.vector r] else Action.fail),
      ("visiblecell=", fun env r =>
        if env.extractVector2u r then Action.call "setVisibleCell" [Arg.vector r]
        else Action.fail) ] ++ sharedProperties
  | ObjectTypes.animatedButton =>
    [ ("pathname=", fun _ r => quoted r fun s => Action.callChecked "load" [Arg.str s]),
      ("text=", quotedCall "setText"),
      ("textsize=", atoiCall "setTextSize"),
      ("textcolor=", colorCall "setTextColor"),
      ("currentframe=", fun _ r => Action.call "setFrame" [Arg.int (atoi r % 4294967296)]) ]
      ++ sharedProperties
  | ObjectTypes.animatedPicture =>
    [ ("frame=", fun _ r => frame r),
      ("loop=", boolCall "loop"),
      ("playing=", fun _ r => if checkBool r then Action.call "play" [] else Action.nothing),
      ("currentframe=", fun _ r => Action.call "setFrame" [Arg.int (atoi r % 4294967296)]) ]
      ++ sharedProperties

/-- The `COMPARE_OBJECT` chain (the same in its three places): the header
keyword tested and the type of the widget created. -/
def objectHeaders : List (String × ObjectTypes) :=
  [ ("panel:", ObjectTypes.panel), ("label:", ObjectTypes.label),
    ("button:", ObjectTypes.button), ("slider:", ObjectTypes.slider),
    ("picture:", ObjectTypes.picture), ("listbox:", ObjectTypes.listbox),
    ("editbox:", ObjectTypes.editBox), ("textbox:", ObjectTypes.textBox),
    ("checkbox:", ObjectTypes.checkbox), ("combobox:", ObjectTypes.comboBox),
    ("scrollbar:", ObjectTypes.scrollbar), ("loadingbar:", ObjectTypes.loadingBar),
    ("spinbutton:", ObjectTypes.spinButton), ("radiobutton:", ObjectTypes.radioButton),
    ("childwindow:", ObjectTypes.childWindow), ("spritesheet:", ObjectTypes.spriteSheet),
    ("animatedbutton:", ObjectTypes.animatedButton),
    ("animatedpicture:", ObjectTypes.animatedPicture) ]

/-! ## The scene loader: the state machine -/

/-- The `COMPARE_OBJECT` chain with its final `else goto LoadingFailed`. -/
def createObject (st : Loader) (line : Str) : Outcome :=
  match objectHeaders.find? (fun h => startsWith h.1 line) with
  | none => Outcome.returned false st.world
  | some (key, kind) =>
    let rest := line.drop key.length
    match (if rest = [] then Quoted.ok [] else checkForQuotes rest) with
    | Quoted.failed => Outcome.returned false st.world
    | Quoted.threw => Outcome.crashed
    | Quoted.ok name =>
      match st.parentPtr with
      | [] => Outcome.crashed
      | top :: _ =>
        let added := st.world.add top kind name
        Outcome.running
          { st with
            world := added.1
            extraPtr := Ptr.object added.2
            objectID := ObjectID.succ kind
            progress := 0 :: st.progress }

/-- What is done for an action on the widget `extraPtr` points to. -/
def perform (env : Env) (st : Loader) : Action → Outcome
  | Action.fail => Outcome.returned false st.world
  | Action.throw => Outcome.crashed
  | Action.nothing => Outcome.running st
  | Action.call method args =>
    Outcome.running
      { st with world := { st.world with
          calls := st.world.calls ++ [{ target := st.extraPtr, method := method, args := args }] } }
  | Action.callChecked method args =>
    let c : Call := { target := st.extraPtr, method := method, args := args }
    let w : World := { st.world with calls := st.world.calls ++ [c] }
    if env.returns st.world.calls c then Outcome.running { st with world := w }
    else Outcome.returned false w

/-- A `case t + 1` of the `switch` for a widget type `t`: the
`START_LOADING_OBJECT` block, then the property tests, then (for panels and
child windows) the creation of a nested widget whose parent is `extraPtr`. -/
def widgetSection (env : Env) (st : Loader) (t : ObjectTypes) (line : Str) : Outcome :=
  match st.progress with
  | [] => Outcome.crashed
  | top :: rest =>
    if top = 0 then
      if line = "\x7b".toList then Outcome.running { st with progress := 1 :: rest }
      else Outcome.returned false st.world
    else if line = "\x7d".toList then
      match st.parentID, st.parentPtr with
      | id :: ids, _ :: ptrs =>
        Outcome.running { st with objectID := id, parentID := ids, parentPtr := ptrs, progress := rest }
      | _, _ => Outcome.crashed
    else
      match (properties t).find? (fun p => startsWith p.1 line) with
      | some (key, action) => perform env st (action env (line.drop key.length))
      | none =>
        if t = ObjectTypes.panel ∨ t = ObjectTypes.childWindow then
          createObject
            { st with
              parentID := ObjectID.succ t :: st.parentID
              parentPtr := st.extraPtr :: st.parentPtr } line
        else Outcome.returned false st.world

/-- The `switch (objectID)` applied to a non-empty line after substitution. -/
def dispatch (env : Env) (st : Loader) (line : Str) : Outcome :=
  match st.objectID with
  | ObjectID.zero =>
    if st.progress = [] then
      if startsWith "window:" line then
        Outcome.running { st with objectID := ObjectID.zero, progress := 1 :: st.progress }
      else if startsWith "define:" line then
        let rest := line.drop 7
        match findChar '=' rest with
        | some equalsSignPos =>
          Outcome.running
            { st with
              defineTokens := st.defineTokens ++ [rest.take equalsSignPos]
              defineValues := st.defineValues ++ [rest.drop (equalsSignPos + 1)] }
        | none => Outcome.returned false st.world
      else Outcome.returned false st.world
    else
      if line = "\x7b".toList then
        Outcome.running
          { st with objectID := ObjectID.succ ObjectTypes.window, progress := st.progress.tail }
      else Outcome.returned false st.world
  | ObjectID.succ ObjectTypes.window =>
    if line = "\x7d".toList then Outcome.returned true st.world
    else
      createObject
        { st with
          parentID := ObjectID.succ ObjectTypes.window :: st.parentID
          parentPtr := Ptr.this :: st.parentPtr } line
  | ObjectID.succ t => widgetSection env st t line

/-- What the code before the `switch` makes of a line of the file. -/
inductive Lexed where
  | failed
  | skipped (multilineComment : Bool)
  | line (text : Str) (multilineComment : Bool)
  deriving DecidableEq, Repr

/-- The part of the loop body before the `switch`: the lexer, the test
`if (!line.empty())` and the substitution of the defines. The text of
`Lexed.line` is the line handed to the `switch`. -/
def readLine (st : Loader) (raw : Str) : Lexed :=
  match lexLine st.multilineComment raw with
  | none => Lexed.failed
  | some (line, mlc) =>
    if line = [] then Lexed.skipped mlc
    else Lexed.line (applyDefines st.defineTokens st.defineValues line) mlc

/-- The body of the `while` loop for one line of the file. -/
def step (env : Env) (st : Loader) (raw : Str) : Outcome :=
  match readLine st raw with
  | Lexed.failed => Outcome.returned false st.world
  | Lexed.skipped mlc => Outcome.running { st with multilineComment := mlc }
  | Lexed.line text mlc => dispatch env { st with multilineComment := mlc } text

/-- The `while (!m_File.eof())` loop over the lines still to be read; when
the lines run out, control falls through to the label `LoadingSucceeded`. -/
def runLines (env : Env) : Loader → List Str → Outcome
  | st, [] => Outcome.returned true st.world
  | st, raw :: rest =>
    match step env st raw with
    | Outcome.running st1 => runLines env st1 rest
    | o => o

/-- The loop stopped before the lines ran out, in the state reached so far. -/
def runPrefix (env : Env) : Loader → List Str → Outcome
  | st, [] => Outcome.running st
  | st, raw :: rest =>
    match step env st raw with
    | Outcome.running st1 => runPrefix env st1 rest
    | o => o

/-- `Group::loadObjectsFromFile` on a file that could be opened and holds the
given lines, called on the `Group` of the world `w`. -/
def loadObjectsFromFile (env : Env) (w : World) (lines : List Str) : Outcome :=
  runLines env { world := w } lines

/-- The scene given as text, one `String` per line. -/
def scene (lines : List String) : List Str :=
  lines.map String.toList

/-- An environment in which every helper accepts and every tested call succeeds. -/
def Env.permissive : Env where
  extractVector2f := fun _ => true
  extractVector2u := fun _ => true
  extractVector4u := fun _ => true
  returns := fun _ _ => true

/-- A `Group` without widgets and without focus. -/
def Group.empty : Group :=
  { m_EventManager := { m_Objects := [], m_FocusedObject := 0 }, m_ObjName := [] }

/-- The world of a load into an empty `Group`. -/
def World.empty : World :=
  { self := Group.empty }

/-! ## Sample inputs -/

/-- A `Group` with three widgets, the second one focused. -/
def sampleGroup : Group :=
  { m_EventManager := { m_Objects := [10, 20, 30], m_FocusedObject := 2 }
    m_ObjName := ["a".toList, "b".toList, "a".toList] }

/-- A `Group` with two widgets, the second one focused. -/
def twoWidgets : Group :=
  { m_EventManager := { m_Objects := [10, 20], m_FocusedObject := 2 }
    m_ObjName := ["a".toList, "b".toList] }

/-- A `Group` with one widget and no focus. -/
def oneWidgetNoFocus : Group :=
  { m_EventManager := { m_Objects := [10], m_FocusedObject := 0 }
    m_ObjName := ["a".toList] }

/-- The form a line without quotes and comments is brought to by the lexer:
spaces, tabs and carriage returns removed, `A`-`Z` replaced by `a`-`z`. -/
def normalise (l : Str) : Str :=
  (removeChar '\r' (removeChar '\t' (removeChar ' ' l))).map lowerChar

/-- The widgets among `new` that were created with the loaded `Group` as parent. -/
def addedToThis (new : List Created) : List Created :=
  new.filter (fun c => c.parent == Ptr.this)

/-- The world `w1` is the world `w` after further `add` calls and widget calls:
the widgets created are appended to the record, and those created with
`this` as parent are appended, with their names, to the sequences of the
loaded `Group`; nothing else of the `Group` changes. -/
def World.extendedTo (w w1 : World) : Prop :=
  ∃ new : List Created,
    w1.created = w.created ++ new ∧
    w1.self.m_EventManager.m_Objects =
      w.self.m_EventManager.m_Objects ++ (addedToThis new).map Created.ptr ∧
    w1.self.m_ObjName = w.self.m_ObjName ++ (addedToThis new).map Created.name ∧
    w1.self.m_EventManager.m_FocusedObject = w.self.m_EventManager.m_FocusedObject

/-- The world of an outcome, when there is one, extends `w`. -/
def Outcome.extends (w : World) : Outcome → Prop
  | Outcome.running st => w.extendedTo st.world
  | Outcome.returned _ w1 => w.extendedTo w1
  | Outcome.crashed => True

/-- The example scene of the spec, with the opening braces on the header lines. -/
def specExampleScene : List Str :=
  scene ["window: \x7b", "    label: \"l1\" \x7b", "        text=\"Hello\"",
    "        textsize=12", "    \x7d", "\x7d"]

/-- A scene with a panel that holds two labels. -/
def panelWithTwoLabels : List Str :=
  scene ["window:", "\x7b", "panel: \"p\"", "\x7b", "label: \"a\"", "\x7b", "\x7d",
    "label: \"b\"", "\x7b", "\x7d", "\x7d", "\x7d"]

/-- A scene that opens a label and then has a line that is no property. -/
def labelThenBadLine : List Str :=
  scene ["window:", "\x7b", "label: \"l1\"", "\x7b", "bogus"]

/-- A scene that ends inside an open label block. -/
def labelLeftOpen : List Str :=
  scene ["window:", "\x7b", "label: \"l1\"", "\x7b"]

/-- The state of the loader after the lines of `labelLeftOpen`, read into an
empty `Group`. -/
def insideLabel : Loader :=
  { parentPtr := [Ptr.this]
    parentID := [ObjectID.succ ObjectTypes.window]
    progress := [1]
    objectID := ObjectID.succ ObjectTypes.label
    extraPtr := Ptr.object 0
    world :=
      { self := { m_EventManager := { m_Objects := [0], m_FocusedObject := 0 }
                  m_ObjName := ["l1".toList] }
        created := [{ ptr := 0, parent := Ptr.this, kind := ObjectTypes.label, name := "l1".toList }]
        nextPtr := 1 } }

/-- The state of the loader after the line `define: W=50`, read first. -/
def afterDefineW : Loader :=
  { world := World.empty, defineTokens := ["w".toList], defineValues := ["50".toList] }

/-- The state of the loader after the line `define: BTN_W=100`, read first. -/
def afterDefineBtnW : Loader :=
  { world := World.empty, defineTokens := ["btn_w".toList], defineValues := ["100".toList] }

/-- A `Group` with three widgets, the last one focused. -/
def lastFocused : Group :=
  { m_EventManager := { m_Objects := [10, 20, 30], m_FocusedObject := 3 }
    m_ObjName := ["a".toList, "b".toList, "a".toList] }

/-! ## Copying a `Group` -/

/-- The loop `for (i = 0; i < source.m_Objects.size(); ++i)` of the copy
constructor and of the assignment operator, over the widgets still to be
copied and the names from the same index on: the widget is cloned (`clone`
gives the address of the copy), the clone and the name `source.m_ObjName[i]`
are pushed back, the clone gets the `Group` at address `this` as `m_Parent`
and is initialised. -/
def Group.copyObjects (clone : ObjPtr → ObjPtr) (this : Nat) :
    List ObjPtr → List Str → Group → Group
  | [], _, g => g
  | object :: objects, names, g =>
    Group.copyObjects clone this objects names.tail
      { g with
        m_EventManager :=
          { g.m_EventManager with m_Objects := g.m_EventManager.m_Objects ++ [clone object] }
        m_ObjName := g.m_ObjName ++ names.head?.toList
        trace := g.trace ++
          [Effect.clone object (clone object), Effect.setParent (clone object) this,
            Effect.initialise (clone object)] }

/-- The copy constructor `Group::Group(const Group& groupToCopy)` for the new
`Group` at address `this`: the members other than the font start empty (the
event manager without widgets and, as the spec has it, with the focus index 0
for "none"), then the widgets are copied. The font reference is not modelled. -/
def Group.copyConstructor (clone : ObjPtr → ObjPtr) (this : Nat) (groupToCopy : Group) : Group :=
  Group.copyObjects clone this groupToCopy.m_EventManager.m_Objects groupToCopy.m_ObjName
    { m_EventManager := { m_Objects := [], m_FocusedObject := 0 }, m_ObjName := [] }

/-- The assignment `Group::operator=` on the `Group` `g` at address `this`,
from the `Group` `right` at address `rightAddress` (when the addresses are
equal, `right` is `g` itself and nothing is done). -/
def Group.assign (clone : ObjPtr → ObjPtr) (this : Nat) (g : Group) (rightAddress : Nat)
    (right : Group) : Group :=
  if this ≠ rightAddress then
    Group.copyObjects clone this right.m_EventManager.m_Objects right.m_ObjName
      g.removeAllObjects
  else g

/-- What the copy loop records for one widget. -/
def copyEffects (clone : ObjPtr → ObjPtr) (this : Nat) (object : ObjPtr) : List Effect :=
  [Effect.clone object (clone object), Effect.setParent (clone object) this,
    Effect.initialise (clone object)]

/-! ## Widget objects and radio buttons -/

/-- The members of a widget object that `Group.cpp` reads or writes
(`m_Checked` is the member of `RadioButton`; it is not used for widgets of
other types). `m_Parent` is the address of the parent `Group`. -/
structure Object where
  m_ObjectType : ObjectTypes
  m_Checked : Bool
  m_Visible : Bool
  m_Parent : Nat
  deriving DecidableEq, Repr

/-- The widget objects, by address. -/
abbrev Heap := ObjPtr → Object

/-- The loop of `Group::uncheckRadioButtons` over the widgets still to visit. -/
def uncheckRadioButtonsLoop : List ObjPtr → Heap → Heap
  | [], heap => heap
  | p :: ps, heap =>
    uncheckRadioButtonsLoop ps
      (if (heap p).m_ObjectType = ObjectTypes.radioButton then
        Function.update heap p { heap p with m_Checked := false }
      else heap)

/-- `Group::uncheckRadioButtons`. -/
def Group.uncheckRadioButtons (g : Group) (heap : Heap) : Heap :=
  uncheckRadioButtonsLoop g.m_EventManager.m_Objects heap

/-- A tree of `Group`s: the widget objects by address and the `Group`s by
address (a nested container is one more `Group` of the list; the address of a
`Group` is its position, and `m_Parent` of a widget is such an address). -/
structure Tree where
  objects : Heap
  groups : List Group

/-- The `Group` at an address (an empty `Group` beyond the list). -/
def Tree.group (t : Tree) (a : Nat) : Group :=
  t.groups.getD a Group.empty

/-- Modelled from the spec: `RadioButton::check` is only declared in
`RadioButton.hpp` ("Checks the radio button. It will tell its parent to uncheck
all the other radio buttons."); the spec has "checking one button unchecks all
siblings in the same group (not globally)". The parent `Group` unchecks its
radio buttons, then this button is checked. -/
def RadioButton.check (t : Tree) (w : ObjPtr) : Tree :=
  { t with
    objects :=
      Function.update ((t.group (t.objects w).m_Parent).uncheckRadioButtons t.objects) w
        { (t.group (t.objects w).m_Parent).uncheckRadioButtons t.objects w with
          m_Checked := true } }

/-- Modelled from the spec: `RadioButton::uncheck` is only declared in
`RadioButton.hpp` ("Unchecks the radio button"): the checked flag of this
button is cleared. -/
def RadioButton.uncheck (t : Tree) (w : ObjPtr) : Tree :=
  { t with objects := Function.update t.objects w { t.objects w with m_Checked := false } }

/-- A call of `check()` or `uncheck()` on the radio button at an address. -/
inductive RadioCall where
  | check (w : ObjPtr)
  | uncheck (w : ObjPtr)
  deriving DecidableEq, Repr

/-- The tree after one call. -/
def Tree.call (t : Tree) : RadioCall → Tree
  | RadioCall.check w => RadioButton.check t w
  | RadioCall.uncheck w => RadioButton.uncheck t w

/-- The tree after a sequence of calls. -/
def Tree.calls (t : Tree) (cs : List RadioCall) : Tree :=
  cs.foldl Tree.call t

/-- The children of a `Group` that are radio buttons with the checked flag set. -/
def checkedRadioButtons (heap : Heap) (g : Group) : List ObjPtr :=
  g.m_EventManager.m_Objects.filter
    (fun p => decide ((heap p).m_ObjectType = ObjectTypes.radioButton) && (heap p).m_Checked)

/-- Every `Group` of the tree has at most one radio button checked among its
direct children. -/
def Tree.atMostOneChecked (t : Tree) : Prop :=
  ∀ a, a < t.groups.length → (checkedRadioButtons t.objects (t.group a)).length ≤ 1

instance (t : Tree) : Decidable t.atMostOneChecked := by
  unfold Tree.atMostOneChecked; infer_instance

/-- The children of every `Group` are pairwise distinct and have that `Group`
as parent. -/
def Tree.wellFormed (t : Tree) : Prop :=
  ∀ a, a < t.groups.length →
    (t.group a).m_EventManager.m_Objects.Nodup ∧
    ∀ p ∈ (t.group a).m_EventManager.m_Objects, (t.objects p).m_Parent = a

instance (t : Tree) : Decidable t.wellFormed := by
  unfold Tree.wellFormed; infer_instance

/-- Two `Group`s: the first holds the radio buttons 1 and 2 and the check box
3, the second the radio buttons 4 and 5; the buttons 2 and 4 are checked. -/
def twoRadioGroups : Tree :=
  { objects := fun p =>
      { m_ObjectType := if p = 3 then ObjectTypes.checkbox else ObjectTypes.radioButton
        m_Checked := p = 2 ∨ p = 3 ∨ p = 4
        m_Visible := true
        m_Parent := if p ≤ 3 then 0 else 1 }
    groups :=
      [ { m_EventManager := { m_Objects := [1, 2, 3], m_FocusedObject := 0 }
          m_ObjName := ["r1".toList, "r2".toList, "c".toList] },
        { m_EventManager := { m_Objects := [4, 5], m_FocusedObject := 0 }
          m_ObjName := ["r4".toList, "r5".toList] } ] }

/-- An environment in which every call whose result the loader tests reports
failure (every resource fails to load); the `extract...` helpers accept. -/
def Env.resourcesFail : Env where
  extractVector2f := fun _ => true
  extractVector2u := fun _ => true
  extractVector4u := fun _ => true
  returns := fun _ _ => false

/-- A scene with a button that is loaded from a pathname. -/
def buttonWithPathname : List Str :=
  scene ["window:", "\x7b", "button: \"b\"", "\x7b", "pathname=\"missing\"", "\x7d", "\x7d"]

/-- A scene with a list box whose scrollbar is loaded from a pathname. -/
def listboxWithScrollbar : List Str :=
  scene ["window:", "\x7b", "listbox: \"l\"", "\x7b", "scrollbarpathname=\"missing\"", "\x7d",
    "\x7d"]

/-- A scene with an animated button that is loaded from a pathname. -/
def animatedButtonWithPathname : List Str :=
  scene ["window:", "\x7b", "animatedbutton: \"b\"", "\x7b", "pathname=\"missing\"", "\x7d",
    "\x7d"]

/-! ## Notions used to state the properties of the lexer and of the sections -/

/-- Spaces and tabs removed (the two `std::remove` passes before the first quote). -/
def removeSpacesTabs (l : Str) : Str :=
  removeChar '\t' (removeChar ' ' l)

/-- Spaces, tabs and carriage returns removed (the three `std::remove` passes on
a line without quotes and on the text after the closing quote). -/
def removeBlanks (l : Str) : Str :=
  removeChar '\r' (removeChar '\t' (removeChar ' ' l))

/-- The escape encoding of one character, in the words of the spec: newline,
tab, backslash and double quote are written `\n`, `\t`, `\\` and `\"`. -/
def escapeChar (c : Char) : Str :=
  if c = '\n' then ['\\', 'n']
  else if c = '\t' then ['\\', 't']
  else if c = '\\' then ['\\', '\\']
  else if c = '"' then ['\\', '"']
  else [c]

/-- The escape encoding of a text. -/
def escapeEncode (s : Str) : Str :=
  (s.map escapeChar).flatten

/-- The line starts with one of the `key=` prefixes that the section of the
widget type tests. -/
def recognisedProperty (t : ObjectTypes) (line : Str) : Bool :=
  (properties t).any (fun p => startsWith p.1 line)

/-- The line starts with one of the 18 type keywords of the `COMPARE_OBJECT` chain. -/
def typeKeyword (line : Str) : Bool :=
  objectHeaders.any (fun h => startsWith h.1 line)

/-- The widget types whose sections cannot hold nested widgets. -/
def ObjectTypes.isLeaf (t : ObjectTypes) : Bool :=
  t != ObjectTypes.window && t != ObjectTypes.panel && t != ObjectTypes.childWindow

/-- The state of the loader in the top-level window section of a load into an
empty `Group`, after the lines `window:` and `{`. -/
def insideWindow : Loader :=
  { objectID := ObjectID.succ ObjectTypes.window, world := World.empty }

/-- A scene with a line `define:` between two top-level labels. -/
def defineBetweenEntries : List Str :=
  scene ["window:", "\x7b", "label: \"a\"", "\x7b", "\x7d", "define: x=5", "label: \"b\"",
    "\x7b", "\x7d", "\x7d"]

/-- The world after the first label of `defineBetweenEntries`. -/
def afterLabelA : World :=
  { self := { m_EventManager := { m_Objects := [0], m_FocusedObject := 0 }
              m_ObjName := ["a".toList] }
    created := [{ ptr := 0, parent := Ptr.this, kind := ObjectTypes.label, name := "a".toList }]
    nextPtr := 1 }

/-- A scene with a label whose first property line holds a block comment that
is closed on the same line. -/
def commentClosedOnSameLine : List Str :=
  scene ["window:", "\x7b", "label: \"l1\"", "\x7b", "width=5 /* c */", "height=7", "\x7d",
    "\x7d"]

/-- A scene with boolean properties of a label, a check box and an animated
picture. -/
def booleanProperties : List Str :=
  scene ["window:", "\x7b",
    "label:", "\x7b", "autosize=true", "autosize=false", "autosize=1", "autosize=0", "\x7d",
    "checkbox:", "\x7b", "checked=true", "checked=false", "checked=7", "checked=0", "\x7d",
    "slider:", "\x7b", "verticalscroll=true", "verticalscroll=false", "verticalscroll=2", "\x7d",
    "animatedpicture:", "\x7b", "loop=true", "loop=false", "playing=true", "playing=false",
    "\x7d", "\x7d"]

/-- The line handed to the `switch` is unknown in the section the loader is
in: it is not `}`, and in the window section it starts with no type keyword;
in an opened widget section (`progress.top()` not 0) it starts with no `key=`
prefix of the section and, for panels and child windows, with no type keyword. -/
def unknownLine (st : Loader) (text : Str) : Bool :=
  text != "\x7d".toList &&
    match st.objectID with
    | ObjectID.zero => false
    | ObjectID.succ ObjectTypes.window => !typeKeyword text
    | ObjectID.succ t =>
      (match st.progress with
        | top :: _ => top != 0
        | [] => false) &&
      !recognisedProperty t text && (t.isLeaf || !typeKeyword text)

/-! ## Drawing, focus and the radio buttons of one `Group` -/

/-- The loop of `Group::drawObjectGroup` over the widgets still to visit.
`target` is the render target, recorded as the widgets drawn on it so far
(the calls `target->draw(*object, states)`), in the order of the calls. -/
def drawObjectGroupLoop (heap : Heap) : List ObjPtr → List ObjPtr → List ObjPtr
  | [], target => target
  | p :: ps, target =>
    drawObjectGroupLoop heap ps (if (heap p).m_Visible then target ++ [p] else target)

/-- `Group::drawObjectGroup`, a `const` member function: the `Group` after the
call (no member is assigned) and the render target after the call. -/
def Group.drawObjectGroup (g : Group) (heap : Heap) (target : List ObjPtr) :
    Group × List ObjPtr :=
  (g, drawObjectGroupLoop heap g.m_EventManager.m_Objects target)

/-- `Group::focus`: the object is handed to `EventManager::focusObject`, which
is defined outside `Group.cpp` and is taken as a parameter; the call is
recorded in the trace. -/
def Group.focus (focusObject : EventManager → ObjPtr → EventManager) (g : Group)
    (object : ObjPtr) : Group :=
  { g with
    m_EventManager := focusObject g.m_EventManager object
    trace := g.trace ++ [Effect.focusObject object] }

/-- `Group::unfocus`: its body is the call `m_EventManager.focusObject(object)`
as well. -/
def Group.unfocus (focusObject : EventManager → ObjPtr → EventManager) (g : Group)
    (object : ObjPtr) : Group :=
  { g with
    m_EventManager := focusObject g.m_EventManager object
    trace := g.trace ++ [Effect.focusObject object] }

/-- The call `uncheckRadioButtons()` on the `Group` at address `a` of a tree:
the only assignments are to `m_Checked` of widget objects. -/
def Tree.uncheckRadioButtons (t : Tree) (a : Nat) : Tree :=
  { t with objects := (t.group a).uncheckRadioButtons t.objects }

/-- A widget object as `uncheckRadioButtons` leaves it when it unchecks it. -/
def Object.unchecked (o : Object) : Object :=
  { o with m_Checked := false }

/-- Three widgets, the second one invisible. -/
def threeWidgetsHeap : Heap :=
  fun p =>
    { m_ObjectType := ObjectTypes.label
      m_Checked := false
      m_Visible := p != 20
      m_Parent := 0 }

/-! ## Notions used to state the properties of numbers, defines and plain lines -/

/-- The token stands in the line at position `i`. -/
def occursAt (token line : Str) (i : Nat) : Bool :=
  (line.drop i).take token.length == token

/-- The first position at which the token stands in the line, if any. -/
def firstOccurrence (token line : Str) : Option Nat :=
  (List.range (line.length + 1)).find? (occursAt token line)

/-- The line with the first occurrence (if any) of the token replaced by the
value. -/
def replaceFirst (token value line : Str) : Str :=
  match firstOccurrence token line with
  | some i => line.take i ++ value ++ line.drop (i + token.length)
  | none => line

/-- The defines `(token, value)` processed once each, in registration order,
each step replacing the first occurrence of its token in the current line. -/
def substituteDefines (defines : List (Str × Str)) (line : Str) : Str :=
  defines.foldl (fun current d => replaceFirst d.1 d.2 current) line

/-- A line without space, tab and carriage return, and with every letter
`A`-`Z` replaced by its lowercase letter; all other characters are kept. -/
def removeBlanksAndLower (l : Str) : Str :=
  (l.filter (fun c => c != ' ' && c != '\t' && c != '\r')).map
    (fun c => if 'A' ≤ c ∧ c ≤ 'Z' then Char.ofNat (c.toNat - 'A'.toNat + 'a'.toNat) else c)

/-- A loader state with the defines `a` to `b` and `b` to `c`, in this order. -/
def definesAB : Loader :=
  { world := World.empty
    defineTokens := ["a".toList, "b".toList]
    defineValues := ["b".toList, "c".toList] }

/-- A loader state with the defines `b` to `c` and `a` to `b`, in this order. -/
def definesBA : Loader :=
  { world := World.empty
    defineTokens := ["b".toList, "a".toList]
    defineValues := ["c".toList, "b".toList] }

/-! ## Notions used to state the properties of the sections -/

/-- The stacks of the loader fit the current section: before the window
section and in it the stacks of parents are empty (in the window section the
progress stack as well); in a widget section the three stacks have the same
height, which is not 0. -/
def Loader.stacksFit (st : Loader) : Prop :=
  match st.objectID with
  | ObjectID.zero =>
    st.parentPtr = [] ∧ st.parentID = [] ∧ (st.progress = [] ∨ st.progress = [1])
  | ObjectID.succ ObjectTypes.window =>
    st.parentPtr = [] ∧ st.parentID = [] ∧ st.progress = []
  | ObjectID.succ _ =>
    st.parentPtr.length = st.progress.length ∧ st.parentID.length = st.progress.length ∧
      st.progress.length ≠ 0

instance (st : Loader) : Decidable st.stacksFit := by
  unfold Loader.stacksFit; split <;> infer_instance

/-- The state of the loader after the header line `label: "l1"`, read in the
window section of a load into an empty `Group`. -/
def afterLabelHeader : Loader :=
  { parentPtr := [Ptr.this]
    parentID := [ObjectID.succ ObjectTypes.window]
    progress := [0]
    objectID := ObjectID.succ ObjectTypes.label
    extraPtr := Ptr.object 0
    world :=
      { self := { m_EventManager := { m_Objects := [0], m_FocusedObject := 0 }
                  m_ObjName := ["l1".toList] }
        created := [{ ptr := 0, parent := Ptr.this, kind := ObjectTypes.label, name := "l1".toList }]
        nextPtr := 1 } }

/-- The invariant of the loop of the loader: the stacks fit the current
section, and in a widget section the stack of parent ids has the id of the
window section at its bottom and ids of widget sections above it. -/
def Loader.stacksInvariant (st : Loader) : Prop :=
  (st.objectID = ObjectID.zero →
    st.parentPtr = [] ∧ st.parentID = [] ∧ (st.progress = [] ∨ st.progress = [1])) ∧
  (st.objectID = ObjectID.succ ObjectTypes.window →
    st.parentPtr = [] ∧ st.parentID = [] ∧ st.progress = []) ∧
  (st.objectID ≠ ObjectID.zero → st.objectID ≠ ObjectID.succ ObjectTypes.window →
    st.parentPtr.length = st.progress.length ∧ st.parentID.length = st.progress.length ∧
    st.parentID.getLast? = some (ObjectID.succ ObjectTypes.window) ∧
    ∀ id ∈ st.parentID.dropLast,
      id ≠ ObjectID.zero ∧ id ≠ ObjectID.succ ObjectTypes.window)

/-- The state after the call `extraPtr->method(args)`. -/
def Loader.withCall (st : Loader) (method : String) (args : List Arg) : Loader :=
  { st with
    world := { st.world with
      calls := st.world.calls ++ [{ target := st.extraPtr, method := method, args := args }] } }

theorem firstIndex_some {α : Type} (test : α → Bool) :
    ∀ (l : List α) (i : Nat), firstIndex test l = some i →
      ∃ x, l[i]? = some x ∧ test x = true := by
  intro l
  induction l with
  | nil => intro i h; simp [firstIndex] at h
  | cons a t ih =>
    intro i h
    unfold firstIndex at h
    by_cases ha : test a = true
    · simp [ha] at h
      subst h
      exact ⟨a, by simp, ha⟩
    · simp [ha] at h
      obtain ⟨j, hj, rfl⟩ := h
      obtain ⟨x, hx, htx⟩ := ih j hj
      exact ⟨x, by simpa using hx, htx⟩

theorem firstIndex_isSome_of_mem {α : Type} (test : α → Bool) :
    ∀ (l : List α) (x : α), x ∈ l → test x = true → ∃ i, firstIndex test l = some i := by
  intro l
  induction l with
  | nil => intro x hx; simp at hx
  | cons a t ih =>
    intro x hx htx
    unfold firstIndex
    by_cases ha : test a = true
    · exact ⟨0, by simp [ha]⟩
    · have hxt : x ∈ t := by
        rcases List.mem_cons.1 hx with h | h
        · subst h; exact absurd htx ha
        · exact h
      obtain ⟨i, hi⟩ := ih x hxt htx
      exact ⟨i + 1, by simp [ha, hi]⟩

theorem firstIndex_eq_of_nodup :
    ∀ (l : List ObjPtr) (i : Nat) (w : ObjPtr), l.Nodup → l[i]? = some w →
      firstIndex (fun o => o == w) l = some i := by
  intro l
  induction l with
  | nil => intro i w _ h; simp at h
  | cons a t ih =>
    intro i w hnd h
    unfold firstIndex
    cases i with
    | zero =>
      simp at h
      simp [h]
    | succ j =>
      have hj : t[j]? = some w := by simpa using h
      have hmem : w ∈ t := by
        obtain ⟨hlt, hget⟩ := List.getElem?_eq_some_iff.1 hj
        exact hget ▸ List.getElem_mem hlt
      have hne : a ≠ w := by
        intro hEq
        subst hEq
        exact (List.nodup_cons.1 hnd).1 hmem
      simp [hne, ih j w (List.nodup_cons.1 hnd).2 hj]

theorem getElem?_of_aligned {α β : Type} (l₁ : List α) (l₂ : List β) (i : Nat) (x : α)
    (hlen : l₁.length = l₂.length) (h : l₁[i]? = some x) : ∃ y, l₂[i]? = some y := by
  have hi : i < l₁.length := (List.getElem?_eq_some_iff.1 h).1
  have hi2 : i < l₂.length := by omega
  exact ⟨l₂[i], List.getElem?_eq_getElem hi2⟩

theorem moveObjectToFront_lists (g : Group) (object : ObjPtr) (i : Nat) (n : Str)
    (hfi : firstIndex (fun o => o == object) g.m_EventManager.m_Objects = some i)
    (hn : g.m_ObjName[i]? = some n) :
    (g.moveObjectToFront object).m_EventManager.m_Objects =
        g.m_EventManager.m_Objects.eraseIdx i ++ [object] ∧
      (g.moveObjectToFront object).m_ObjName = g.m_ObjName.eraseIdx i ++ [n] := by
  obtain ⟨x, hx, htx⟩ := firstIndex_some _ _ _ hfi
  have hxo : x = object := by simpa using htx
  subst hxo
  have hi : i < g.m_EventManager.m_Objects.length := (List.getElem?_eq_some_iff.1 hx).1
  have hi2 : i < g.m_ObjName.length := (List.getElem?_eq_some_iff.1 hn).1
  unfold Group.moveObjectToFront
  simp only [hfi, hx, hn, Option.toList]
  exact ⟨List.eraseIdx_append_of_lt_length hi _, List.eraseIdx_append_of_lt_length hi2 _⟩

/-- C2 (the code at the failing input). `moveObjectToBack` of the first of
two widgets while the second one is focused: the focus index was valid (2 of 2
widgets) and becomes 3 with two widgets present; `remove(name)` of the last
widget while it is focused leaves the focus index 2 with one widget present. -/
theorem focus_index_out_of_range_after_operations :
    twoWidgets.focusValid ∧
    (twoWidgets.moveObjectToBack 10).m_EventManager.m_Objects = [10, 20] ∧
    (twoWidgets.moveObjectToBack 10).m_EventManager.m_FocusedObject = 3 ∧
    ¬ (twoWidgets.moveObjectToBack 10).focusValid ∧
    (twoWidgets.remove "b".toList).m_EventManager.m_Objects = [10] ∧
    (twoWidgets.remove "b".toList).m_EventManager.m_FocusedObject = 2 ∧
    ¬ (twoWidgets.remove "b".toList).focusValid := by
  decide

/-- C9. In a `Group` with pairwise distinct children and aligned sequences,
for the child `w` at index `i` with name `n`, `moveObjectToFront(w)` yields the
widget sequence with index `i` removed followed by `w`, and the name sequence
with index `i` removed followed by `n`. -/
theorem moveObjectToFront_moves_to_end (g : Group) (w : ObjPtr) (i : Nat) (n : Str)
    (hnodup : g.m_EventManager.m_Objects.Nodup)
    (hw : g.m_EventManager.m_Objects[i]? = some w) (hn : g.m_ObjName[i]? = some n) :
    (g.moveObjectToFront w).m_EventManager.m_Objects =
        g.m_EventManager.m_Objects.eraseIdx i ++ [w] ∧
      (g.moveObjectToFront w).m_ObjName = g.m_ObjName.eraseIdx i ++ [n] :=
  moveObjectToFront_lists g w i n (firstIndex_eq_of_nodup _ i w hnodup hw) hn

theorem moveObjectToFront_moves_to_end_witness :
    sampleGroup.m_EventManager.m_Objects.Nodup ∧
    sampleGroup.m_EventManager.m_Objects[1]? = some 20 ∧
    sampleGroup.m_ObjName[1]? = some "b".toList ∧
    (sampleGroup.moveObjectToFront 20).m_EventManager.m_Objects =
        sampleGroup.m_EventManager.m_Objects.eraseIdx 1 ++ [20] ∧
      (sampleGroup.moveObjectToFront 20).m_ObjName =
        sampleGroup.m_ObjName.eraseIdx 1 ++ ["b".toList] :=
  ⟨by decide, by decide, by decide,
    moveObjectToFront_moves_to_end sampleGroup 20 1 "b".toList (by decide) (by decide)
      (by decide)⟩

/-- C10 (the claim as stated fails). With no widget focused, `moveObjectToFront`
of the only child stores the focus index 1, which designates that child. -/
theorem moveObjectToFront_focuses_when_none_focused :
    oneWidgetNoFocus.focusValid ∧ 10 ∈ oneWidgetNoFocus.m_EventManager.m_Objects ∧
    oneWidgetNoFocus.focusedWidget = none ∧
    (oneWidgetNoFocus.moveObjectToFront 10).m_EventManager.m_FocusedObject = 1 ∧
    (oneWidgetNoFocus.moveObjectToFront 10).focusedWidget = some 10 := by
  decide

/-- C10 (amended). For a `Group` with a valid focus index and a child `w`:
when a widget was focused, after `moveObjectToFront(w)` the stored focus index
designates the same widget object as before; when no widget was focused, the
stored focus index becomes the number of widgets and designates `w`. -/
theorem moveObjectToFront_focus (g : Group) (w : ObjPtr) (hvalid : g.focusValid)
    (hw : w ∈ g.m_EventManager.m_Objects) :
    (g.m_EventManager.m_FocusedObject ≠ 0 →
      (g.moveObjectToFront w).focusedWidget = g.focusedWidget) ∧
    (g.m_EventManager.m_FocusedObject = 0 →
      (g.moveObjectToFront w).m_EventManager.m_FocusedObject =
          g.m_EventManager.m_Objects.length ∧
        (g.moveObjectToFront w).focusedWidget = some w) := by
  obtain ⟨i, hfi⟩ := firstIndex_isSome_of_mem (fun o => o == w) _ w hw (by simp)
  obtain ⟨x, hx, htx⟩ := firstIndex_some _ _ _ hfi
  have hxo : x = w := by simpa using htx
  subst hxo
  have hi : i < g.m_EventManager.m_Objects.length := (List.getElem?_eq_some_iff.1 hx).1
  unfold Group.focusValid at hvalid
  have hobjs : (g.moveObjectToFront x).m_EventManager.m_Objects =
      (g.m_EventManager.m_Objects ++ [x]).eraseIdx i := by
    simp [Group.moveObjectToFront, hfi, hx]
  have hfoc : (g.moveObjectToFront x).m_EventManager.m_FocusedObject =
      if g.m_EventManager.m_FocusedObject = 0 ∨ g.m_EventManager.m_FocusedObject = i + 1 then
        g.m_EventManager.m_Objects.length
      else if g.m_EventManager.m_FocusedObject > i + 1 then
        g.m_EventManager.m_FocusedObject - 1
      else g.m_EventManager.m_FocusedObject := by
    simp [Group.moveObjectToFront, hfi, hx]
  have hlast : ((g.m_EventManager.m_Objects ++ [x]).eraseIdx i)[
      g.m_EventManager.m_Objects.length - 1]? = some x := by
    rw [List.getElem?_eraseIdx, if_neg (by omega)]
    have : g.m_EventManager.m_Objects.length - 1 + 1 = g.m_EventManager.m_Objects.length := by
      omega
    rw [this]
    simp
  constructor
  · intro hne
    unfold Group.focusedWidget
    rw [hobjs, hfoc]
    by_cases h1 : g.m_EventManager.m_FocusedObject = i + 1
    · have hlen : g.m_EventManager.m_Objects.length ≠ 0 := by omega
      simp only [h1, or_true, if_true, hlen, if_false, hlast]
      simp [hx]
    · by_cases h2 : g.m_EventManager.m_FocusedObject > i + 1
      · have h3 : g.m_EventManager.m_FocusedObject - 1 ≠ 0 := by omega
        simp only [hne, h1, or_self, if_false, h2, if_true, h3]
        rw [List.getElem?_eraseIdx, if_neg (by omega)]
        have : g.m_EventManager.m_FocusedObject - 1 - 1 + 1 =
            g.m_EventManager.m_FocusedObject - 1 := by omega
        rw [this, List.getElem?_append_left (by omega)]
      · simp only [hne, h1, or_self, if_false, h2]
        rw [List.getElem?_eraseIdx, if_pos (by omega), List.getElem?_append_left (by omega)]
  · intro h0
    refine ⟨by simp [hfoc, h0], ?_⟩
    unfold Group.focusedWidget
    rw [hobjs, hfoc]
    have hlen : g.m_EventManager.m_Objects.length ≠ 0 := by omega
    simp only [h0, true_or, if_true, hlen, if_false, hlast]

theorem moveObjectToFront_focus_witness :
    sampleGroup.focusValid ∧ 10 ∈ sampleGroup.m_EventManager.m_Objects ∧
    ((sampleGroup.m_EventManager.m_FocusedObject ≠ 0 →
      (sampleGroup.moveObjectToFront 10).focusedWidget = sampleGroup.focusedWidget) ∧
    (sampleGroup.m_EventManager.m_FocusedObject = 0 →
      (sampleGroup.moveObjectToFront 10).m_EventManager.m_FocusedObject =
          sampleGroup.m_EventManager.m_Objects.length ∧
        (sampleGroup.moveObjectToFront 10).focusedWidget = some 10)) :=
  ⟨by decide, by decide, moveObjectToFront_focus sampleGroup 10 (by decide) (by decide)⟩

/-! ## Lemmas on the lexer -/

theorem findChar_eq_none (c : Char) : ∀ (l : Str), c ∉ l → findChar c l = none := by
  intro l
  induction l with
  | nil => intro _; rfl
  | cons a t ih =>
    intro h
    have ha : a ≠ c := fun e => h (by simp [e])
    have ht : c ∉ t := fun e => h (by simp [e])
    have := ih ht
    unfold findChar at this ⊢
    simp [firstIndex, ha, this]

theorem findChar_append_cons (c : Char) :
    ∀ (a b : Str), c ∉ a → findChar c (a ++ c :: b) = some a.length := by
  intro a
  induction a with
  | nil => intro b _; simp [findChar, firstIndex]
  | cons x t ih =>
    intro b h
    have hx : x ≠ c := fun e => h (by simp [e])
    have ht : c ∉ t := fun e => h (by simp [e])
    have := ih b ht
    unfold findChar at this ⊢
    simp [firstIndex, hx, this]

theorem findCharFrom_append (c : Char) (a b : Str) :
    findCharFrom c (a ++ b) a.length = (findChar c b).map (· + a.length) := by
  simp [findCharFrom]

theorem findCharFrom_append_cons (c x : Char) (a b : Str) :
    findCharFrom c (a ++ x :: b) (a.length + 1) = (findChar c b).map (· + (a.length + 1)) := by
  have h : a ++ x :: b = (a ++ [x]) ++ b := by simp
  rw [h]
  have hl : a.length + 1 = (a ++ [x]).length := by simp
  rw [hl]
  exact findCharFrom_append c (a ++ [x]) b

theorem findChar_some_get (c : Char) (l : Str) (i : Nat) (h : findChar c l = some i) :
    l[i]? = some c := by
  obtain ⟨x, hx, htx⟩ := firstIndex_some _ _ _ h
  have : x = c := by simpa using htx
  rw [hx, this]

theorem findCharFrom_some (c : Char) (l : Str) (p i : Nat) (h : findCharFrom c l p = some i) :
    p ≤ i ∧ l[i]? = some c := by
  unfold findCharFrom at h
  cases hf : findChar c (l.drop p) with
  | none => simp [hf] at h
  | some j =>
    simp [hf] at h
    subst h
    have := findChar_some_get c _ j hf
    rw [List.getElem?_drop] at this
    exact ⟨by omega, by rw [Nat.add_comm]; exact this⟩

theorem mem_removeChar {c x : Char} {l : Str} (h : x ∈ removeChar c l) : x ∈ l := by
  unfold removeChar at h
  exact (List.mem_filter.1 h).1

theorem toNat_ofNat_valid (n : Nat) (h : n.isValidChar) : (Char.ofNat n).toNat = n := by
  rw [Char.ofNat, dif_pos h]
  simp [Char.ofNatAux, Char.toNat, UInt32.toNat]

theorem lowerChar_eq_of_not_letter (c d : Char) (hd : ¬ (97 ≤ d.toNat ∧ d.toNat ≤ 122))
    (h : lowerChar c = d) : c = d := by
  unfold lowerChar at h
  split at h
  · rename_i hc
    exfalso
    apply hd
    rw [← h]
    have hv : (c.toNat + 32).isValidChar := by
      left
      omega
    have : (Char.ofNat (c.toNat + 32)).toNat = c.toNat + 32 := toNat_ofNat_valid _ hv
    omega
  · exact h

theorem mem_map_lowerChar {d : Char} {l : Str} (hd : ¬ (97 ≤ d.toNat ∧ d.toNat ≤ 122))
    (h : d ∈ l.map lowerChar) : d ∈ l := by
  obtain ⟨c, hc, hcd⟩ := List.mem_map.1 h
  rw [← lowerChar_eq_of_not_letter c d hd hcd]
  exact hc

theorem lowerChar_quote : lowerChar '"' = '"' := by decide

theorem not_letter_quote : ¬ (97 ≤ ('"' : Char).toNat ∧ ('"' : Char).toNat ≤ 122) := by decide

theorem not_letter_slash : ¬ (97 ≤ ('/' : Char).toNat ∧ ('/' : Char).toNat ≤ 122) := by decide

theorem not_letter_equals : ¬ (97 ≤ ('=' : Char).toNat ∧ ('=' : Char).toNat ≤ 122) := by decide

/-- A line with a single quote, not preceded by a slash, is rejected. -/
theorem lexNormal_one_quote (a b : Str) (hq : '"' ∉ a) (hs : '/' ∉ a) (hb : '"' ∉ b) :
    lexNormal (a ++ '"' :: b) = none := by
  have hq1 : '"' ∉ removeChar ' ' a := fun h => hq (mem_removeChar h)
  have hq2 : '"' ∉ removeChar '\t' (removeChar ' ' a) := fun h => hq1 (mem_removeChar h)
  have hs2 : '/' ∉ removeChar '\t' (removeChar ' ' a) :=
    fun h => hs (mem_removeChar (mem_removeChar h))
  have hq3 : '"' ∉ (removeChar '\t' (removeChar ' ' a)).map lowerChar :=
    fun h => hq2 (mem_map_lowerChar not_letter_quote h)
  unfold lexNormal
  simp only [findChar_append_cons '"' a b hq, List.take_left', List.drop_left',
    findChar_append_cons '"' _ b hq1, Option.getD_some, findChar_append_cons '"' _ b hq2,
    findChar_eq_none '/' _ hs2]
  have hlen : (removeChar '\t' (removeChar ' ' a)).length + 1 =
      ((removeChar '\t' (removeChar ' ' a)).map lowerChar).length + 1 := by simp
  rw [hlen, findCharFrom_append_cons, findChar_eq_none '"' b hb]
  rfl

/-- A line without quote and without slash: blanks removed, letters lowered. -/
theorem lexNormal_plain (l : Str) (hq : '"' ∉ l) (hs : '/' ∉ l) :
    lexNormal l =
      some (normalise l, false) := by
  have hs3 : '/' ∉ removeChar '\r' (removeChar '\t' (removeChar ' ' l)) :=
    fun h => hs (mem_removeChar (mem_removeChar (mem_removeChar h)))
  unfold lexNormal normalise
  simp only [findChar_eq_none '"' l hq, findChar_eq_none '/' _ hs3]

theorem mem_of_getElem?_some {α : Type} {l : List α} {i : Nat} {x : α} (h : l[i]? = some x) :
    x ∈ l := by
  obtain ⟨hlt, hget⟩ := List.getElem?_eq_some_iff.1 h
  exact hget ▸ List.getElem_mem hlt

theorem removeChar_cons_ne (c x : Char) (l : Str) (h : x ≠ c) :
    removeChar c (x :: l) = x :: removeChar c l := by
  simp [removeChar, h]

theorem removeChar_append (c : Char) (a b : Str) :
    removeChar c (a ++ b) = removeChar c a ++ removeChar c b := by
  simp [removeChar]

theorem unescape_done (fuel : Nat) (line : Str) (bp : Option Nat) (q : Nat)
    (h : ∀ b, bp = some b → q ≤ b) :
    unescape (fuel + 1) line bp q = some (some (line, q)) := by
  unfold unescape
  cases bp with
  | none => rfl
  | some b =>
    have := h b rfl
    simp only
    rw [if_neg (by omega)]

/-- A line with one quoted segment and no comment: the text before the quotes
loses spaces and tabs and is lowered, the segment is kept, the text after the
quotes loses spaces, tabs and carriage returns and is lowered. -/
theorem lexNormal_quoted (p s t : Str) (hp : '"' ∉ p) (hps : '/' ∉ p)
    (hs : '"' ∉ s) (hsb : '\\' ∉ s) (ht : '"' ∉ t) (hts : '/' ∉ t) :
    lexNormal (p ++ '"' :: s ++ '"' :: t) =
      some ((removeChar '\t' (removeChar ' ' p)).map lowerChar ++ '"' :: s ++ '"' ::
        (removeChar '\r' (removeChar '\t' (removeChar ' ' t))).map lowerChar, false) := by
  have hq1 : '"' ∉ removeChar ' ' p := fun h => hp (mem_removeChar h)
  have hq2 : '"' ∉ removeChar '\t' (removeChar ' ' p) := fun h => hq1 (mem_removeChar h)
  have hs2 : '/' ∉ removeChar '\t' (removeChar ' ' p) :=
    fun h => hps (mem_removeChar (mem_removeChar h))
  have ht3 : '"' ∉ removeChar '\r' (removeChar '\t' (removeChar ' ' t)) :=
    fun h => ht (mem_removeChar (mem_removeChar (mem_removeChar h)))
  have hts3 : '/' ∉ removeChar '\r' (removeChar '\t' (removeChar ' ' t)) :=
    fun h => hts (mem_removeChar (mem_removeChar (mem_removeChar h)))
  generalize hP : removeChar '\t' (removeChar ' ' p) = P at hq2 hs2
  generalize hT : removeChar '\r' (removeChar '\t' (removeChar ' ' t)) = T at ht3 hts3
  have hstrip : removeChar '\r' (removeChar '\t' (removeChar ' ' ('"' :: t))) = '"' :: T := by
    rw [removeChar_cons_ne _ _ _ (by decide), removeChar_cons_ne _ _ _ (by decide),
      removeChar_cons_ne _ _ _ (by decide), hT]
  have hassoc : p ++ '"' :: s ++ '"' :: t = p ++ '"' :: (s ++ '"' :: t) := by simp
  unfold lexNormal
  rw [hassoc]
  simp only [findChar_append_cons '"' p _ hp, List.take_left', List.drop_left',
    findChar_append_cons '"' _ _ hq1, Option.getD_some, hP, findChar_append_cons '"' _ _ hq2,
    findChar_eq_none '/' _ hs2]
  have hlen : P.length + 1 = (P.map lowerChar).length + 1 := by simp
  rw [hlen, findCharFrom_append_cons, findChar_append_cons '"' s t hs]
  simp only [Option.map_some', List.length_map]
  -- the part after the second quote
  have hline : P.map lowerChar ++ '"' :: (s ++ '"' :: t) =
      (P.map lowerChar ++ '"' :: s) ++ '"' :: t := by simp
  have hq2len : s.length + (P.length + 1) = (P.map lowerChar ++ '"' :: s).length := by
    simp; omega
  unfold lexAfterSecondQuote
  rw [hline, hq2len]
  simp only [List.take_left', List.drop_left', hstrip]
  have hcut : findCharFrom '/' (P.map lowerChar ++ '"' :: s ++ '"' :: T)
      ((P.map lowerChar ++ '"' :: s).length + 1) = none := by
    rw [findCharFrom_append_cons, findChar_eq_none '/' T hts3]; rfl
  rw [hcut]
  simp only
  have hq : findCharFrom '"' (P.map lowerChar ++ '"' :: s ++ '"' :: T) (P.length + 1) =
      some ((P.map lowerChar ++ '"' :: s).length) := by
    have h1 : P.map lowerChar ++ '"' :: s ++ '"' :: T =
        P.map lowerChar ++ '"' :: (s ++ '"' :: T) := by simp
    rw [h1, hlen, findCharFrom_append_cons, findChar_append_cons '"' s T hs]
    simp; omega
  rw [hq]
  simp only
  have hbs : ∀ b, findCharFrom '\\' (P.map lowerChar ++ '"' :: s ++ '"' :: T) P.length = some b →
      (P.map lowerChar ++ '"' :: s).length ≤ b := by
    intro b hb
    obtain ⟨hle, hget⟩ := findCharFrom_some _ _ _ _ hb
    by_contra hlt
    have hlt2 : b < (P.map lowerChar ++ '"' :: s).length := by omega
    rw [List.getElem?_append_left hlt2] at hget
    have hge : (P.map lowerChar).length ≤ b := by simpa using hle
    rw [List.getElem?_append_right hge] at hget
    have hmem : '\\' ∈ '"' :: s := mem_of_getElem?_some hget
    rcases List.mem_cons.1 hmem with h | h
    · exact absurd h (by decide)
    · exact hsb h
  rw [unescape_done _ _ _ _ hbs]
  simp only
  have hno : findCharFrom '"' (P.map lowerChar ++ '"' :: s ++ '"' :: T)
      ((P.map lowerChar ++ '"' :: s).length + 1) = none := by
    rw [findCharFrom_append_cons, findChar_eq_none '"' T ht3]; rfl
  rw [hno]
  simp only [ne_eq, not_true_eq_false, if_false]
  rw [List.take_left' rfl, List.drop_left' rfl]
  simp [lowerChar_quote]

theorem findCharFrom_bounds (c : Char) (line : Str) (b fuel : Nat)
    (hlen : line.length < fuel + (b + 1)) :
    ∀ b1, findCharFrom c line (b + 1) = some b1 →
      b1 < line.length ∧ line.length < fuel + b1 := by
  intro b1 h
  obtain ⟨hle, hget⟩ := findCharFrom_some c line (b + 1) b1 h
  have hlt : b1 < line.length := (List.getElem?_eq_some_iff.1 hget).1
  exact ⟨hlt, by omega⟩

theorem length_set_eraseIdx (line : Str) (b : Nat) (c : Char) (h : b + 1 < line.length) :
    ((line.set b c).eraseIdx (b + 1)).length = line.length - 1 := by
  rw [List.length_eraseIdx, List.length_set, if_pos h]

/-- The fuel given to `unescape` is never used up: with a fuel larger than the
number of characters from the backslash position to the end of the line, the
loop ends by itself (the outer result is not `none`). -/
theorem unescape_fuel_aux :
    ∀ (fuel : Nat) (line : Str) (bp : Option Nat) (q : Nat), 0 < fuel →
      (∀ b, bp = some b → b < line.length ∧ line.length < fuel + b) →
      unescape fuel line bp q ≠ none := by
  intro fuel
  induction fuel with
  | zero => intro line bp q h0; omega
  | succ n ih =>
    intro line bp q _ h
    unfold unescape
    cases bp with
    | none => simp
    | some b =>
      obtain ⟨hb, hlen⟩ := h b rfl
      simp only
      by_cases hq : b < q
      · rw [if_pos hq]
        have hget : ∀ c, line.get? (b + 1) = some c → b + 1 < line.length := by
          intro c hc
          rw [List.get?_eq_getElem?] at hc
          exact (List.getElem?_eq_some_iff.1 hc).1
        have herase : ∀ (l1 : Str), l1.length = line.length - 1 → b + 1 < line.length →
            ∀ q1, unescape n l1 (findCharFrom '\\' l1 (b + 1)) q1 ≠ none := by
          intro l1 hl1 hb1 q1
          exact ih l1 _ q1 (by omega) (findCharFrom_bounds '\\' l1 b n (by omega))
        by_cases h1 : line.get? (b + 1) = some 'n'
        · rw [if_pos h1]
          exact herase _ (length_set_eraseIdx line b _ (hget _ h1)) (hget _ h1) _
        · rw [if_neg h1]
          by_cases h2 : line.get? (b + 1) = some 't'
          · rw [if_pos h2]
            exact herase _ (length_set_eraseIdx line b _ (hget _ h2)) (hget _ h2) _
          · rw [if_neg h2]
            by_cases h3 : line.get? (b + 1) = some '\\'
            · rw [if_pos h3]
              exact herase _ (by rw [List.length_eraseIdx, if_pos (hget _ h3)]) (hget _ h3) _
            · rw [if_neg h3]
              by_cases h4 : line.get? (b + 1) = some '"'
              · rw [if_pos h4]
                cases findCharFrom '"' ((line.set b '"').eraseIdx (b + 1)) (b + 1) with
                | none => simp
                | some q1 =>
                  exact herase _ (length_set_eraseIdx line b _ (hget _ h4)) (hget _ h4) _
              · rw [if_neg h4]
                exact ih line _ q (by omega) (findCharFrom_bounds '\\' line b n (by omega))
      · rw [if_neg hq]
        simp

/-- The fuel `line.length + 1` that the lexer gives to `unescape` suffices. -/
theorem unescape_fuel (line : Str) (p q : Nat) :
    unescape (line.length + 1) line (findCharFrom '\\' line p) q ≠ none := by
  apply unescape_fuel_aux _ _ _ _ (by omega)
  intro b hb
  obtain ⟨_, hget⟩ := findCharFrom_some _ _ _ _ hb
  have hlt : b < line.length := (List.getElem?_eq_some_iff.1 hget).1
  exact ⟨hlt, by omega⟩

/-! ## Lemmas on the loader -/

theorem runLines_append (env : Env) :
    ∀ (pre : List Str) (st : Loader) (rest : List Str),
      runLines env st (pre ++ rest) =
        match runPrefix env st pre with
        | Outcome.running st1 => runLines env st1 rest
        | o => o := by
  intro pre
  induction pre with
  | nil => intro st rest; rfl
  | cons raw t ih =>
    intro st rest
    simp only [List.cons_append, runLines, runPrefix]
    cases hstep : step env st raw with
    | running st1 => exact ih st1 rest
    | returned b w1 => rfl
    | crashed => rfl

theorem World.extendedTo_refl (w : World) : w.extendedTo w :=
  ⟨[], by simp [addedToThis]⟩

theorem World.extendedTo_trans {w w1 w2 : World} (h1 : w.extendedTo w1) (h2 : w1.extendedTo w2) :
    w.extendedTo w2 := by
  obtain ⟨n1, hc1, ho1, hn1, hf1⟩ := h1
  obtain ⟨n2, hc2, ho2, hn2, hf2⟩ := h2
  refine ⟨n1 ++ n2, ?_, ?_, ?_, ?_⟩
  · rw [hc2, hc1, List.append_assoc]
  · rw [ho2, ho1]; simp [addedToThis]
  · rw [hn2, hn1]; simp [addedToThis]
  · rw [hf2, hf1]

theorem World.extendedTo_add (w : World) (parent : Ptr) (kind : ObjectTypes) (name : Str) :
    w.extendedTo (w.add parent kind name).1 := by
  refine ⟨[{ ptr := w.nextPtr, parent := parent, kind := kind, name := name }], rfl, ?_, ?_, ?_⟩
  · by_cases hp : parent = Ptr.this
    · simp [World.add, addedToThis, hp]
    · simp [World.add, addedToThis, hp]
  · by_cases hp : parent = Ptr.this
    · simp [World.add, addedToThis, hp]
    · simp [World.add, addedToThis, hp]
  · by_cases hp : parent = Ptr.this
    · simp [World.add, hp]
    · simp [World.add, hp]

theorem World.extendedTo_calls (w : World) (calls : List Call) :
    w.extendedTo { w with calls := calls } :=
  ⟨[], by simp [addedToThis]⟩

theorem perform_extends (env : Env) (st : Loader) (a : Action) :
    (perform env st a).extends st.world := by
  cases a with
  | fail => exact World.extendedTo_refl _
  | throw => trivial
  | nothing => exact World.extendedTo_refl _
  | call method args => exact World.extendedTo_calls _ _
  | callChecked method args =>
    unfold perform
    simp only
    split
    · exact World.extendedTo_calls _ _
    · exact World.extendedTo_calls _ _

theorem createObject_extends (st : Loader) (line : Str) :
    (createObject st line).extends st.world := by
  unfold createObject
  dsimp only
  repeat' split
  all_goals first
    | trivial
    | exact World.extendedTo_refl _
    | exact World.extendedTo_add _ _ _ _

theorem widgetSection_extends (env : Env) (st : Loader) (t : ObjectTypes) (line : Str) :
    (widgetSection env st t line).extends st.world := by
  unfold widgetSection
  repeat' split
  all_goals first
    | trivial
    | exact World.extendedTo_refl _
    | exact perform_extends env st _
    | exact createObject_extends _ line

theorem dispatch_extends (env : Env) (st : Loader) (line : Str) :
    (dispatch env st line).extends st.world := by
  unfold dispatch
  dsimp only
  repeat' split
  all_goals first
    | trivial
    | exact World.extendedTo_refl _
    | exact createObject_extends _ line
    | exact widgetSection_extends env st _ line

theorem step_extends (env : Env) (st : Loader) (raw : Str) :
    (step env st raw).extends st.world := by
  unfold step
  split
  · exact World.extendedTo_refl _
  · exact World.extendedTo_refl _
  · exact dispatch_extends env _ _

theorem runLines_extends (env : Env) :
    ∀ (lines : List Str) (st : Loader), (runLines env st lines).extends st.world := by
  intro lines
  induction lines with
  | nil => intro st; exact World.extendedTo_refl _
  | cons raw t ih =>
    intro st
    have hs := step_extends env st raw
    unfold runLines
    cases hstep : step env st raw with
    | running st1 =>
      rw [hstep] at hs
      have h2 := ih st1
      simp only
      cases hr : runLines env st1 t with
      | running st2 => rw [hr] at h2; exact World.extendedTo_trans hs h2
      | returned b w2 => rw [hr] at h2; exact World.extendedTo_trans hs h2
      | crashed => trivial
    | returned b w1 => rw [hstep] at hs; exact hs
    | crashed => trivial
theorem step_window_brace (env : Env) (w : World) :
    step env { world := w } "window: \x7b".toList =
      Outcome.running { world := w, progress := [1] } := by
  rfl

theorem step_label_brace (env : Env) (w : World) (n : Str) (hq : '"' ∉ n) (hb : '\\' ∉ n) :
    step env { world := w, progress := [1] }
        ("    label: ".toList ++ '"' :: n ++ '"' :: " \x7b".toList) =
      Outcome.returned false w := by
  have hlex := lexNormal_quoted "    label: ".toList n " \x7b".toList (by decide) (by decide)
    hq hb (by decide) (by decide)
  have hp : (removeChar '\t' (removeChar ' ' "    label: ".toList)).map lowerChar =
      "label:".toList := by decide
  have ht : (removeChar '\r' (removeChar '\t' (removeChar ' ' " \x7b".toList))).map lowerChar =
      "\x7b".toList := by decide
  rw [hp, ht] at hlex
  unfold step readLine lexLine
  simp only [Bool.false_eq_true, if_false, hlex]
  simp [applyDefines, dispatch]

theorem normalise_append (a b : Str) : normalise (a ++ b) = normalise a ++ normalise b := by
  simp [normalise, removeChar_append]

theorem normalise_cons_equals (l : Str) : normalise ('=' :: l) = '=' :: normalise l := by
  unfold normalise
  rw [removeChar_cons_ne _ _ _ (by decide), removeChar_cons_ne _ _ _ (by decide),
    removeChar_cons_ne _ _ _ (by decide)]
  rfl

theorem not_mem_normalise {d : Char} {l : Str} (hd : ¬ (97 ≤ d.toNat ∧ d.toNat ≤ 122))
    (h : d ∉ l) : d ∉ normalise l :=
  fun hm => h (mem_removeChar (mem_removeChar (mem_removeChar (mem_map_lowerChar hd hm))))

theorem applyDefines_none :
    ∀ (tokens values : List Str) (line : Str),
      (∀ t ∈ tokens, findStr t line = none) → applyDefines tokens values line = line := by
  intro tokens
  induction tokens with
  | nil => intro values line _; cases values <;> rfl
  | cons t ts ih =>
    intro values line h
    cases values with
    | nil => rfl
    | cons v vs =>
      unfold applyDefines
      rw [h t (by simp)]
      exact ih vs line (fun u hu => h u (by simp [hu]))

theorem applyDefines_append :
    ∀ (ts1 vs1 ts2 vs2 : List Str) (line : Str), ts1.length = vs1.length →
      applyDefines (ts1 ++ ts2) (vs1 ++ vs2) line =
        applyDefines ts2 vs2 (applyDefines ts1 vs1 line) := by
  intro ts1
  induction ts1 with
  | nil =>
    intro vs1 ts2 vs2 line hlen
    cases vs1 with
    | nil => cases ts2 <;> cases vs2 <;> rfl
    | cons v vs => simp at hlen
  | cons t ts ih =>
    intro vs1 ts2 vs2 line hlen
    cases vs1 with
    | nil => simp at hlen
    | cons v vs =>
      have hl : ts.length = vs.length := by simpa using hlen
      simp only [List.cons_append, applyDefines]
      cases findStr t line with
      | none => exact ih vs ts2 vs2 line hl
      | some p => exact ih vs ts2 vs2 _ hl

theorem step_define (env : Env) (w : World) (T V : Str)
    (hT : '"' ∉ T ∧ '/' ∉ T) (hV : '"' ∉ V ∧ '/' ∉ V) (heq : '=' ∉ T) :
    step env { world := w } ("define: ".toList ++ T ++ '=' :: V) =
      Outcome.running
        { world := w, defineTokens := [normalise T], defineValues := [normalise V] } := by
  have hq : '"' ∉ "define: ".toList ++ T ++ '=' :: V := by
    simp only [List.mem_append, List.mem_cons, not_or]
    exact ⟨⟨by decide, hT.1⟩, by decide, hV.1⟩
  have hs : '/' ∉ "define: ".toList ++ T ++ '=' :: V := by
    simp only [List.mem_append, List.mem_cons, not_or]
    exact ⟨⟨by decide, hT.2⟩, by decide, hV.2⟩
  have hnorm : normalise ("define: ".toList ++ T ++ '=' :: V) =
      "define:".toList ++ (normalise T ++ '=' :: normalise V) := by
    rw [normalise_append, normalise_append, normalise_cons_equals, List.append_assoc]
    rfl
  have hfind : findChar '=' (normalise T ++ '=' :: normalise V) = some (normalise T).length :=
    findChar_append_cons '=' _ _ (not_mem_normalise not_letter_equals heq)
  unfold step readLine lexLine
  simp only [Bool.false_eq_true, if_false, lexNormal_plain _ hq hs, hnorm]
  have hne : "define:".toList ++ (normalise T ++ '=' :: normalise V) ≠ [] := by simp
  rw [if_neg hne]
  simp only [applyDefines]
  unfold dispatch
  have hw : startsWith "window:" ("define:".toList ++ (normalise T ++ '=' :: normalise V)) =
      false := by
    have h7 : "window:".length = 7 := rfl
    simp [startsWith, h7]
  have hd : startsWith "define:" ("define:".toList ++ (normalise T ++ '=' :: normalise V)) =
      true := by
    have h7 : "define:".length = 7 := rfl
    simp [startsWith, h7]
  have hdrop : List.drop 7 ("define:".toList ++ (normalise T ++ '=' :: normalise V)) =
      normalise T ++ '=' :: normalise V := by
    simp
  simp only [hw, hd, hdrop, hfind, if_true, Bool.false_eq_true, if_false, List.take_left',
    List.nil_append]
  have h2 : List.drop ((normalise T).length + 1) (normalise T ++ '=' :: normalise V) =
      normalise V := by
    have : normalise T ++ '=' :: normalise V = (normalise T ++ ['=']) ++ normalise V := by simp
    rw [this]
    exact List.drop_left' (by simp)
  rw [h2]

theorem readLine_substitutes (st : Loader) (T V key : Str) (ts1 vs1 ts2 vs2 : List Str)
    (hT : '"' ∉ T ∧ '/' ∉ T) (hkey : '"' ∉ key ∧ '/' ∉ key)
    (hmc : st.multilineComment = false)
    (htokens : st.defineTokens = ts1 ++ normalise T :: ts2)
    (hvalues : st.defineValues = vs1 ++ V :: vs2)
    (hlen : ts1.length = vs1.length)
    (hbefore : ∀ t ∈ ts1, findStr t (normalise key ++ '=' :: normalise T) = none)
    (hafter : ∀ t ∈ ts2, findStr t (normalise key ++ '=' :: V) = none)
    (hfirst : findStr (normalise T) (normalise key ++ '=' :: normalise T) =
      some ((normalise key).length + 1)) :
    readLine st (key ++ '=' :: T) = Lexed.line (normalise key ++ '=' :: V) false := by
  have hq : '"' ∉ key ++ '=' :: T := by
    simp only [List.mem_append, List.mem_cons, not_or]
    exact ⟨hkey.1, by decide, hT.1⟩
  have hs : '/' ∉ key ++ '=' :: T := by
    simp only [List.mem_append, List.mem_cons, not_or]
    exact ⟨hkey.2, by decide, hT.2⟩
  have hnorm : normalise (key ++ '=' :: T) = normalise key ++ '=' :: normalise T := by
    rw [normalise_append, normalise_cons_equals]
  unfold readLine lexLine
  simp only [hmc, Bool.false_eq_true, if_false, lexNormal_plain _ hq hs, hnorm]
  have hne : normalise key ++ '=' :: normalise T ≠ [] := by simp
  rw [if_neg hne, htokens, hvalues, applyDefines_append _ _ _ _ _ hlen,
    applyDefines_none ts1 vs1 _ hbefore]
  simp only [applyDefines, hfirst]
  have htake : List.take ((normalise key).length + 1) (normalise key ++ '=' :: normalise T) =
      normalise key ++ ['='] := by
    have : normalise key ++ '=' :: normalise T = (normalise key ++ ['=']) ++ normalise T := by
      simp
    rw [this]
    exact List.take_left' (by simp)
  have hdrop : List.drop ((normalise key).length + 1 + (normalise T).length)
      (normalise key ++ '=' :: normalise T) = [] := by
    apply List.drop_eq_nil_of_le
    simp
    omega
  rw [htake, hdrop]
  have hline : normalise key ++ ['='] ++ V ++ [] = normalise key ++ '=' :: V := by simp
  rw [hline, applyDefines_none ts2 vs2 _ hafter]

/-! ## The scene loader -/

/-- C3 (the claim as stated fails). The example scene of the spec, with the
opening braces on the header lines, loaded into an empty `Group`: the call
returns false and the `Group` has no child. -/
theorem specExampleScene_is_rejected :
    loadObjectsFromFile Env.permissive World.empty specExampleScene =
      Outcome.returned false World.empty := by
  decide

/-- C3 (amended). A scene that starts with the lines `window: {` and
`label: "n" {` (the opening braces on the header lines), for every label name
`n` without quote and backslash and whatever lines follow (every text and
size), makes `loadObjectsFromFile` return false and leaves the `Group` as it
was: after the header `window:` only a line `{` is accepted. -/
theorem header_line_with_brace_is_rejected (env : Env) (w : World) (n : Str)
    (rest : List Str) (hq : '"' ∉ n) (hb : '\\' ∉ n) :
    loadObjectsFromFile env w
        ("window: \x7b".toList ::
          ("    label: ".toList ++ '"' :: n ++ '"' :: " \x7b".toList) :: rest) =
      Outcome.returned false w := by
  unfold loadObjectsFromFile
  simp only [runLines, step_window_brace, step_label_brace env w n hq hb]

theorem header_line_with_brace_is_rejected_witness :
    '"' ∉ "l1".toList ∧ '\\' ∉ "l1".toList ∧
    loadObjectsFromFile Env.permissive World.empty
        ("window: \x7b".toList ::
          ("    label: ".toList ++ '"' :: "l1".toList ++ '"' :: " \x7b".toList) ::
          scene ["        text=\"Hello\"", "        textsize=12", "    \x7d", "\x7d"]) =
      Outcome.returned false World.empty :=
  ⟨by decide, by decide,
    header_line_with_brace_is_rejected Env.permissive World.empty "l1".toList _
      (by decide) (by decide)⟩

/-- C4 (the code at the failing input). A panel `p` with two labels `a` and
`b` in its block: the load returns true, the panel (address 0) is added to the
loaded `Group`, the first label (address 1) is added to the panel, and the
second label is added to the first label, not to the panel. -/
theorem second_child_is_added_to_first_child :
    loadObjectsFromFile Env.permissive World.empty panelWithTwoLabels =
      Outcome.returned true
        { self := { m_EventManager := { m_Objects := [0], m_FocusedObject := 0 }
                    m_ObjName := ["p".toList] }
          created :=
            [{ ptr := 0, parent := Ptr.this, kind := ObjectTypes.panel, name := "p".toList },
             { ptr := 1, parent := Ptr.object 0, kind := ObjectTypes.label, name := "a".toList },
             { ptr := 2, parent := Ptr.object 1, kind := ObjectTypes.label, name := "b".toList }]
          calls := []
          nextPtr := 3 } := by
  decide

/-- C5 (the claim as stated fails). A scene that opens a label and then has a
line that is no property of a label: the call returns false, and the label
created before the bad line is a child of the `Group`, which was empty. -/
theorem failed_load_keeps_created_widget :
    loadObjectsFromFile Env.permissive World.empty labelThenBadLine =
      Outcome.returned false insideLabel.world ∧
    insideLabel.world.self.m_EventManager.m_Objects = [0] ∧
    insideLabel.world.self.m_ObjName = ["l1".toList] ∧
    insideLabel.world.self.m_EventManager.m_Objects ≠
      World.empty.self.m_EventManager.m_Objects ∧
    insideLabel.world.self.m_ObjName ≠ World.empty.self.m_ObjName := by
  decide

/-- C5 (amended). Whatever `loadObjectsFromFile` returns (in particular when
it returns false), nothing is removed or rolled back: the widget sequence of
the `Group` after the call is the sequence before the call followed by the
widgets that the lines read created with the `Group` as parent, in order of
creation, and the name sequence is extended by their names in the same way;
the focus index is unchanged. -/
theorem load_only_appends (env : Env) (w : World) (lines : List Str) (result : Bool)
    (w1 : World) (h : loadObjectsFromFile env w lines = Outcome.returned result w1) :
    ∃ new : List Created,
      w1.created = w.created ++ new ∧
      w1.self.m_EventManager.m_Objects =
        w.self.m_EventManager.m_Objects ++ (addedToThis new).map Created.ptr ∧
      w1.self.m_ObjName = w.self.m_ObjName ++ (addedToThis new).map Created.name ∧
      w1.self.m_EventManager.m_FocusedObject = w.self.m_EventManager.m_FocusedObject := by
  have hext := runLines_extends env lines { world := w }
  unfold loadObjectsFromFile at h
  rw [h] at hext
  exact hext

theorem load_only_appends_witness :
    loadObjectsFromFile Env.permissive World.empty labelThenBadLine =
        Outcome.returned false insideLabel.world ∧
    ∃ new : List Created,
      insideLabel.world.created = World.empty.created ++ new ∧
      insideLabel.world.self.m_EventManager.m_Objects =
        World.empty.self.m_EventManager.m_Objects ++ (addedToThis new).map Created.ptr ∧
      insideLabel.world.self.m_ObjName =
        World.empty.self.m_ObjName ++ (addedToThis new).map Created.name ∧
      insideLabel.world.self.m_EventManager.m_FocusedObject =
        World.empty.self.m_EventManager.m_FocusedObject :=
  ⟨by decide,
    load_only_appends Env.permissive World.empty labelThenBadLine false insideLabel.world
      (by decide)⟩

/-- C6 (the code at the failing input). A scene whose lines run out inside an
open label block (after `window:`, `{`, `label: "l1"`, `{`), and a scene that
ends right after `window:` and `{`: the call returns true in both cases. -/
theorem truncated_scene_returns_true :
    loadObjectsFromFile Env.permissive World.empty labelLeftOpen =
        Outcome.returned true insideLabel.world ∧
    loadObjectsFromFile Env.permissive World.empty (scene ["window:", "\x7b"]) =
        Outcome.returned true World.empty := by
  decide

/-- C7. A line that holds exactly one double quote, with no slash before it,
read outside a block comment, makes the loader return false: in every parser
state the loop body fails on it, and a load that reaches the line (the lines
before it leave the loop running, outside a block comment) returns false. -/
theorem unterminated_quote_is_rejected (env : Env) (a b : Str)
    (hq : '"' ∉ a) (hs : '/' ∉ a) (hb : '"' ∉ b) :
    (∀ st : Loader, st.multilineComment = false →
      step env st (a ++ '"' :: b) = Outcome.returned false st.world) ∧
    (∀ (w : World) (pre post : List Str) (st : Loader),
      runPrefix env { world := w } pre = Outcome.running st →
      st.multilineComment = false →
      loadObjectsFromFile env w (pre ++ (a ++ '"' :: b) :: post) =
        Outcome.returned false st.world) := by
  have hstep : ∀ st : Loader, st.multilineComment = false →
      step env st (a ++ '"' :: b) = Outcome.returned false st.world := by
    intro st hmc
    unfold step readLine lexLine
    simp only [hmc, Bool.false_eq_true, if_false, lexNormal_one_quote a b hq hs hb]
  refine ⟨hstep, ?_⟩
  intro w pre post st hreach hmc
  unfold loadObjectsFromFile
  rw [runLines_append, hreach]
  simp only [runLines, hstep st hmc]

theorem unterminated_quote_is_rejected_witness :
    '"' ∉ "text=".toList ∧ '/' ∉ "text=".toList ∧ '"' ∉ "Hello".toList ∧
    runPrefix Env.permissive { world := World.empty } labelLeftOpen =
      Outcome.running insideLabel ∧
    loadObjectsFromFile Env.permissive World.empty
        (labelLeftOpen ++ ("text=".toList ++ '"' :: "Hello".toList) :: scene ["\x7d", "\x7d"]) =
      Outcome.returned false insideLabel.world :=
  ⟨by decide, by decide, by decide, by decide,
    (unterminated_quote_is_rejected Env.permissive "text=".toList "Hello".toList
      (by decide) (by decide) (by decide)).2 World.empty labelLeftOpen _ insideLabel
      (by decide) (by decide)⟩

/-- C8 (the claim as stated fails). After `define: W=50` has been registered
(as token `w` with value `50`, the line being lowered by the lexer), the line
`width=W` is handed to the `switch` as `50idth=w`: the first occurrence of the
token in the lowered line is the `w` of `width`. -/
theorem define_example_of_spec_is_garbled :
    step Env.permissive { world := World.empty } "define: W=50".toList =
      Outcome.running afterDefineW ∧
    readLine afterDefineW "width=W".toList = Lexed.line "50idth=w".toList false ∧
    readLine afterDefineW "width=W".toList ≠ Lexed.line "width=50".toList false := by
  decide

/-! ## Container operations: moving to the back and removing -/

theorem firstIndex_eq_none {α : Type} (test : α → Bool) :
    ∀ (l : List α), (∀ x ∈ l, test x = false) → firstIndex test l = none := by
  intro l
  induction l with
  | nil => intro _; rfl
  | cons a t ih =>
    intro h
    unfold firstIndex
    rw [h a (by simp), ih (fun x hx => h x (by simp [hx]))]
    rfl

theorem firstIndex_eq_of_first {α : Type} (test : α → Bool) :
    ∀ (l : List α) (i : Nat) (x : α), l[i]? = some x → test x = true →
      (∀ j y, j < i → l[j]? = some y → test y = false) → firstIndex test l = some i := by
  intro l
  induction l with
  | nil => intro i x h; simp at h
  | cons a t ih =>
    intro i x h htx hbefore
    unfold firstIndex
    cases i with
    | zero =>
      simp at h
      subst h
      simp [htx]
    | succ j =>
      have ha : test a = false := hbefore 0 a (by omega) (by simp)
      have hj : t[j]? = some x := by simpa using h
      have := ih j x hj htx (fun k y hk hy => hbefore (k + 1) y (by omega) (by simpa using hy))
      simp [ha, this]

/-- C12 (the code at the failing input). Three widgets `[10, 20, 30]`, the
second one (20) focused; `moveObjectToBack(10)` moves the first widget, which
stands before the focused one: the sequence is again `[10, 20, 30]`, but the
stored focus index becomes 3 and designates 30 instead of 20. With the focus
on the last widget (index 3), `moveObjectToBack(20)` stores the index 4, which
designates no widget. -/
theorem moveObjectToBack_shifts_focus_of_later_widget :
    sampleGroup.focusValid ∧ sampleGroup.focusedWidget = some 20 ∧
    (sampleGroup.moveObjectToBack 10).m_EventManager.m_Objects = [10, 20, 30] ∧
    (sampleGroup.moveObjectToBack 10).m_EventManager.m_FocusedObject = 3 ∧
    (sampleGroup.moveObjectToBack 10).focusedWidget = some 30 ∧
    lastFocused.focusValid ∧ lastFocused.focusedWidget = some 30 ∧
    (lastFocused.moveObjectToBack 20).m_EventManager.m_Objects = [20, 10, 30] ∧
    (lastFocused.moveObjectToBack 20).m_EventManager.m_FocusedObject = 4 ∧
    (lastFocused.moveObjectToBack 20).focusedWidget = none := by
  decide

/-- C14 (the code at the failing input). Three widgets `[10, 20, 30]` named
`a`, `b`, `a`, the second one (20) focused: `remove("b")` removes the focused
widget and leaves the stored focus index 2, which now designates 30;
`remove(pointer)` of the same widget stores the focus index 0. -/
theorem remove_by_name_keeps_focus_index :
    sampleGroup.focusedWidget = some 20 ∧
    firstIndex (fun n => n == "b".toList) sampleGroup.m_ObjName = some 1 ∧
    (sampleGroup.remove "b".toList).m_EventManager.m_Objects = [10, 30] ∧
    (sampleGroup.remove "b".toList).m_EventManager.m_FocusedObject = 2 ∧
    (sampleGroup.remove "b".toList).focusedWidget = some 30 ∧
    (sampleGroup.removeObject 20).m_EventManager.m_Objects = [10, 30] ∧
    (sampleGroup.removeObject 20).m_EventManager.m_FocusedObject = 0 := by
  decide

/-- C15 (the code at the failing input). Three widgets `[10, 20, 30]` named
`a`, `b`, `a`, the second one (20) focused: removing the first widget, by
`remove("a")` or by `remove(pointer)`, leaves the stored focus index 2 (not
1), which now designates 30 instead of 20. -/
theorem remove_before_focus_keeps_focus_index :
    sampleGroup.m_EventManager.m_FocusedObject = 2 ∧ sampleGroup.focusedWidget = some 20 ∧
    (sampleGroup.remove "a".toList).m_EventManager.m_Objects = [20, 30] ∧
    (sampleGroup.remove "a".toList).m_EventManager.m_FocusedObject = 2 ∧
    (sampleGroup.remove "a".toList).focusedWidget = some 30 ∧
    (sampleGroup.removeObject 10).m_EventManager.m_Objects = [20, 30] ∧
    (sampleGroup.removeObject 10).m_EventManager.m_FocusedObject = 2 ∧
    (sampleGroup.removeObject 10).focusedWidget = some 30 := by
  decide

theorem unfocusObject_m_Objects (em : EventManager) (object : ObjPtr) :
    (em.unfocusObject object).m_Objects = em.m_Objects := by
  unfold EventManager.unfocusObject
  split <;> rfl

/-- C16. For a child `w` at index `i` (its first index in the widget
sequence), `remove(w)` records the unfocus call for `w` and then the
destruction of `w`, of `w` only, and deletes index `i` from the widget sequence
and from the name sequence; for a pointer that is not a child, the `Group`
(sequences, focus index and trace) is unchanged. -/
theorem removeObject_effect (g : Group) (w : ObjPtr) :
    (∀ i, g.m_EventManager.m_Objects[i]? = some w →
      (∀ j, j < i → g.m_EventManager.m_Objects[j]? ≠ some w) →
      (g.removeObject w).trace = g.trace ++ [Effect.unfocusObject w, Effect.delete w] ∧
      (g.removeObject w).m_EventManager.m_Objects = g.m_EventManager.m_Objects.eraseIdx i ∧
      (g.removeObject w).m_ObjName = g.m_ObjName.eraseIdx i) ∧
    (w ∉ g.m_EventManager.m_Objects → g.removeObject w = g) := by
  constructor
  · intro i hw hfirst
    have hfi : firstIndex (fun o => o == w) g.m_EventManager.m_Objects = some i := by
      apply firstIndex_eq_of_first _ _ i w hw (by simp)
      intro j y hj hy
      have hne : y ≠ w := fun e => hfirst j hj (e ▸ hy)
      simpa using hne
    unfold Group.removeObject
    simp [hfi, unfocusObject_m_Objects, hw]
  · intro hnot
    have hfi : firstIndex (fun o => o == w) g.m_EventManager.m_Objects = none := by
      apply firstIndex_eq_none
      intro x hx
      have hne : x ≠ w := fun e => hnot (e ▸ hx)
      simpa using hne
    unfold Group.removeObject
    simp [hfi]

theorem removeObject_effect_witness :
    sampleGroup.m_EventManager.m_Objects[1]? = some 20 ∧
    (∀ j, j < 1 → sampleGroup.m_EventManager.m_Objects[j]? ≠ some 20) ∧
    ((sampleGroup.removeObject 20).trace =
        sampleGroup.trace ++ [Effect.unfocusObject 20, Effect.delete 20] ∧
      (sampleGroup.removeObject 20).m_EventManager.m_Objects =
        sampleGroup.m_EventManager.m_Objects.eraseIdx 1 ∧
      (sampleGroup.removeObject 20).m_ObjName = sampleGroup.m_ObjName.eraseIdx 1) ∧
    40 ∉ sampleGroup.m_EventManager.m_Objects ∧ sampleGroup.removeObject 40 = sampleGroup :=
  ⟨by decide, by decide,
    (removeObject_effect sampleGroup 20).1 1 (by decide) (by decide),
    by decide, (removeObject_effect sampleGroup 40).2 (by decide)⟩

/-- C17. In a `Group` with aligned sequences, `remove(n)` destroys the widget
at the lowest index `i` whose name equals `n`, and only it, and deletes index
`i` from the widget sequence and from the name sequence (every other widget,
later widgets of the same name included, stays in place and in order); when no
widget has the name `n` the `Group` is unchanged. -/
theorem remove_by_name_effect (g : Group) (n : Str) (haligned : g.aligned) :
    (∀ i, g.m_ObjName[i]? = some n → (∀ j, j < i → g.m_ObjName[j]? ≠ some n) →
      ∃ w, g.m_EventManager.m_Objects[i]? = some w ∧
        (g.remove n).trace = g.trace ++ [Effect.delete w] ∧
        (g.remove n).m_EventManager.m_Objects = g.m_EventManager.m_Objects.eraseIdx i ∧
        (g.remove n).m_ObjName = g.m_ObjName.eraseIdx i) ∧
    (n ∉ g.m_ObjName → g.remove n = g) := by
  constructor
  · intro i hn hfirst
    have hfi : firstIndex (fun m => m == n) g.m_ObjName = some i := by
      apply firstIndex_eq_of_first _ _ i n hn (by simp)
      intro j y hj hy
      have hne : y ≠ n := fun e => hfirst j hj (e ▸ hy)
      simpa using hne
    obtain ⟨w, hw⟩ := getElem?_of_aligned g.m_ObjName g.m_EventManager.m_Objects i n
      haligned.symm hn
    refine ⟨w, hw, ?_⟩
    unfold Group.remove
    simp [hfi, hw]
  · intro hnot
    have hfi : firstIndex (fun m => m == n) g.m_ObjName = none := by
      apply firstIndex_eq_none
      intro x hx
      have hne : x ≠ n := fun e => hnot (e ▸ hx)
      simpa using hne
    unfold Group.remove
    simp [hfi]

theorem remove_by_name_effect_witness :
    sampleGroup.aligned ∧ sampleGroup.m_ObjName[0]? = some "a".toList ∧
    (∀ j, j < 0 → sampleGroup.m_ObjName[j]? ≠ some "a".toList) ∧
    (∃ w, sampleGroup.m_EventManager.m_Objects[0]? = some w ∧
      (sampleGroup.remove "a".toList).trace = sampleGroup.trace ++ [Effect.delete w] ∧
      (sampleGroup.remove "a".toList).m_EventManager.m_Objects =
        sampleGroup.m_EventManager.m_Objects.eraseIdx 0 ∧
      (sampleGroup.remove "a".toList).m_ObjName = sampleGroup.m_ObjName.eraseIdx 0) ∧
    "c".toList ∉ sampleGroup.m_ObjName ∧ sampleGroup.remove "c".toList = sampleGroup :=
  ⟨by decide, by decide, by decide,
    (remove_by_name_effect sampleGroup "a".toList (by decide)).1 0 (by decide) (by decide),
    by decide, (remove_by_name_effect sampleGroup "c".toList (by decide)).2 (by decide)⟩

/-! ## Copying -/

theorem copyObjects_spec (clone : ObjPtr → ObjPtr) (this : Nat) :
    ∀ (objects : List ObjPtr) (names : List Str) (g : Group),
      (Group.copyObjects clone this objects names g).m_EventManager.m_Objects =
          g.m_EventManager.m_Objects ++ objects.map clone ∧
        (Group.copyObjects clone this objects names g).m_ObjName =
          g.m_ObjName ++ names.take objects.length ∧
        (Group.copyObjects clone this objects names g).trace =
          g.trace ++ (objects.map (copyEffects clone this)).flatten ∧
        (Group.copyObjects clone this objects names g).m_EventManager.m_FocusedObject =
          g.m_EventManager.m_FocusedObject := by
  intro objects
  induction objects with
  | nil => intro names g; simp [Group.copyObjects]
  | cons o os ih =>
    intro names g
    unfold Group.copyObjects
    obtain ⟨h1, h2, h3, h4⟩ := ih names.tail
      { g with
        m_EventManager :=
          { g.m_EventManager with m_Objects := g.m_EventManager.m_Objects ++ [clone o] }
        m_ObjName := g.m_ObjName ++ names.head?.toList
        trace := g.trace ++
          [Effect.clone o (clone o), Effect.setParent (clone o) this,
            Effect.initialise (clone o)] }
    refine ⟨?_, ?_, ?_, ?_⟩
    · rw [h1]; simp
    · rw [h2]
      cases names with
      | nil => simp
      | cons n ns => simp
    · rw [h3]; simp [copyEffects]
    · rw [h4]

theorem setParent_mem_copyEffects (clone : ObjPtr → ObjPtr) (this : Nat) (objects : List ObjPtr)
    (o : ObjPtr) (ho : o ∈ objects) :
    Effect.setParent (clone o) this ∈ (objects.map (copyEffects clone this)).flatten := by
  rw [List.mem_flatten]
  exact ⟨copyEffects clone this o, List.mem_map.2 ⟨o, ho, rfl⟩, by simp [copyEffects]⟩

/-- C18. For a source `Group` with aligned sequences, the copy constructor
and the assignment to a `Group` at another address produce the widget sequence
of the clones of the source's children, index by index, with the source's name
sequence, and every clone gets the new `Group` (the one at `this`) as parent
and is initialised; the assignment first destroys all previous children of the
target (their `delete`s come first in the trace); the assignment of a `Group`
to itself leaves it unchanged. -/
theorem copy_clones_children (clone : ObjPtr → ObjPtr) (this : Nat) (source : Group)
    (haligned : source.aligned) :
    ((Group.copyConstructor clone this source).m_EventManager.m_Objects =
        source.m_EventManager.m_Objects.map clone ∧
      (Group.copyConstructor clone this source).m_ObjName = source.m_ObjName ∧
      (Group.copyConstructor clone this source).trace =
        (source.m_EventManager.m_Objects.map (copyEffects clone this)).flatten ∧
      ∀ o ∈ source.m_EventManager.m_Objects,
        Effect.setParent (clone o) this ∈ (Group.copyConstructor clone this source).trace) ∧
    (∀ (g : Group) (rightAddress : Nat), this ≠ rightAddress →
      (g.assign clone this rightAddress source).m_EventManager.m_Objects =
        source.m_EventManager.m_Objects.map clone ∧
      (g.assign clone this rightAddress source).m_ObjName = source.m_ObjName ∧
      (g.assign clone this rightAddress source).trace =
        g.trace ++ g.m_EventManager.m_Objects.map Effect.delete ++
          (source.m_EventManager.m_Objects.map (copyEffects clone this)).flatten ∧
      ∀ o ∈ source.m_EventManager.m_Objects,
        Effect.setParent (clone o) this ∈ (g.assign clone this rightAddress source).trace) ∧
    (∀ g : Group, g.assign clone this this g = g) := by
  unfold Group.aligned at haligned
  have htake : source.m_ObjName.take source.m_EventManager.m_Objects.length = source.m_ObjName := by
    rw [haligned]
    exact List.take_length _
  refine ⟨?_, ?_, ?_⟩
  · unfold Group.copyConstructor
    obtain ⟨h1, h2, h3, _⟩ := copyObjects_spec clone this source.m_EventManager.m_Objects
      source.m_ObjName { m_EventManager := { m_Objects := [], m_FocusedObject := 0 }, m_ObjName := [] }
    refine ⟨by rw [h1]; simp, by rw [h2, htake]; simp, by rw [h3]; simp, ?_⟩
    intro o ho
    rw [h3]
    exact List.mem_append_right _ (setParent_mem_copyEffects clone this _ o ho)
  · intro g rightAddress hne
    unfold Group.assign
    rw [if_pos hne]
    obtain ⟨h1, h2, h3, _⟩ := copyObjects_spec clone this source.m_EventManager.m_Objects
      source.m_ObjName g.removeAllObjects
    refine ⟨by rw [h1]; simp [Group.removeAllObjects],
      by rw [h2, htake]; simp [Group.removeAllObjects],
      by rw [h3]; simp [Group.removeAllObjects], ?_⟩
    intro o ho
    rw [h3]
    exact List.mem_append_right _ (setParent_mem_copyEffects clone this _ o ho)
  · intro g
    simp [Group.assign]

theorem copy_clones_children_witness :
    sampleGroup.aligned ∧
    ((Group.copyConstructor (fun p => p + 100) 7 sampleGroup).m_EventManager.m_Objects =
        sampleGroup.m_EventManager.m_Objects.map (fun p => p + 100) ∧
      (Group.copyConstructor (fun p => p + 100) 7 sampleGroup).m_ObjName =
        sampleGroup.m_ObjName ∧
      (Group.copyConstructor (fun p => p + 100) 7 sampleGroup).trace =
        (sampleGroup.m_EventManager.m_Objects.map (copyEffects (fun p => p + 100) 7)).flatten ∧
      ∀ o ∈ sampleGroup.m_EventManager.m_Objects,
        Effect.setParent (o + 100) 7 ∈
          (Group.copyConstructor (fun p => p + 100) 7 sampleGroup).trace) :=
  ⟨by decide, (copy_clones_children (fun p => p + 100) 7 sampleGroup (by decide)).1⟩

/-! ## Radio buttons -/

theorem uncheckRadioButtonsLoop_apply :
    ∀ (ps : List ObjPtr) (heap : Heap) (q : ObjPtr),
      uncheckRadioButtonsLoop ps heap q =
        if q ∈ ps ∧ (heap q).m_ObjectType = ObjectTypes.radioButton then
          { heap q with m_Checked := false }
        else heap q := by
  intro ps
  induction ps with
  | nil => intro heap q; simp [uncheckRadioButtonsLoop]
  | cons p ps ih =>
    intro heap q
    unfold uncheckRadioButtonsLoop
    rw [ih]
    by_cases hp : (heap p).m_ObjectType = ObjectTypes.radioButton
    · by_cases hqp : q = p
      · subst hqp
        simp [hp, Function.update]
      · simp [hp, Function.update, hqp]
    · by_cases hqp : q = p
      · subst hqp
        simp [hp]
      · simp [hp, hqp]

theorem filter_length_le_one_of_eq {pred : ObjPtr → Bool} (w : ObjPtr) :
    ∀ (l : List ObjPtr), l.Nodup → (∀ p ∈ l, pred p = true → p = w) →
      (l.filter pred).length ≤ 1 := by
  intro l
  induction l with
  | nil => intro _ _; simp
  | cons x xs ih =>
    intro hnd h
    have hxs := ih (List.nodup_cons.1 hnd).2 (fun p hp => h p (by simp [hp]))
    by_cases hx : pred x = true
    · have hxw : x = w := h x (by simp) hx
      have hnone : xs.filter pred = [] := by
        rw [List.filter_eq_nil_iff]
        intro p hp hpp
        have : p = w := h p (by simp [hp]) hpp
        exact (List.nodup_cons.1 hnd).1 (hxw ▸ this ▸ hp)
      simp [List.filter_cons, hx, hnone]
    · simp [List.filter_cons, hx]
      exact hxs

theorem filter_length_mono {pred1 pred2 : ObjPtr → Bool} :
    ∀ (l : List ObjPtr), (∀ p ∈ l, pred1 p = true → pred2 p = true) →
      (l.filter pred1).length ≤ (l.filter pred2).length := by
  intro l
  induction l with
  | nil => intro _; simp
  | cons x xs ih =>
    intro h
    have hxs := ih (fun p hp => h p (by simp [hp]))
    by_cases h1 : pred1 x = true
    · have h2 := h x (by simp) h1
      simp [List.filter_cons, h1, h2]
      exact hxs
    · by_cases h2 : pred2 x = true
      · simp [List.filter_cons, h1, h2]
        omega
      · simp [List.filter_cons, h1, h2]
        exact hxs

theorem Tree.group_empty_of_le (t : Tree) (a : Nat) (h : t.groups.length ≤ a) :
    t.group a = Group.empty := by
  unfold Tree.group
  simp [List.getD, List.getElem?_eq_none h]

/-- A child of a `Group` other than the parent of `w` is not touched by `check`. -/
theorem check_other_group (t : Tree) (hwf : t.wellFormed) (w : ObjPtr) (a : Nat) (p : ObjPtr)
    (ha : a < t.groups.length) (hne : a ≠ (t.objects w).m_Parent)
    (hp : p ∈ (t.group a).m_EventManager.m_Objects) :
    (RadioButton.check t w).objects p = t.objects p := by
  have hpa : (t.objects p).m_Parent = a := (hwf a ha).2 p hp
  have hpw : p ≠ w := by
    intro e
    rw [e] at hpa
    exact hne hpa.symm
  have hnot : p ∉ (t.group (t.objects w).m_Parent).m_EventManager.m_Objects := by
    intro hmem
    by_cases hlt : (t.objects w).m_Parent < t.groups.length
    · have := (hwf _ hlt).2 p hmem
      rw [hpa] at this
      exact hne this
    · rw [Tree.group_empty_of_le t _ (by omega)] at hmem
      simp [Group.empty] at hmem
  unfold RadioButton.check
  simp only [Function.update, hpw, dite_false]
  unfold Group.uncheckRadioButtons
  rw [uncheckRadioButtonsLoop_apply]
  simp [hnot]

theorem check_wellFormed (t : Tree) (hwf : t.wellFormed) (w : ObjPtr) :
    (RadioButton.check t w).wellFormed := by
  intro a ha
  have h := hwf a ha
  refine ⟨h.1, ?_⟩
  intro p hp
  have hparent : ∀ q, ((RadioButton.check t w).objects q).m_Parent = (t.objects q).m_Parent := by
    intro q
    unfold RadioButton.check Group.uncheckRadioButtons
    by_cases hq : q = w
    · subst hq
      simp only [Function.update, dite_true]
      rw [uncheckRadioButtonsLoop_apply]
      split <;> rfl
    · simp only [Function.update, hq, dite_false]
      rw [uncheckRadioButtonsLoop_apply]
      split <;> rfl
  rw [hparent]
  exact h.2 p hp

theorem check_atMostOneChecked (t : Tree) (hwf : t.wellFormed) (hinv : t.atMostOneChecked)
    (w : ObjPtr) : (RadioButton.check t w).atMostOneChecked := by
  intro a ha
  have hg : (RadioButton.check t w).group a = t.group a := rfl
  unfold checkedRadioButtons
  rw [hg]
  by_cases hne : a = (t.objects w).m_Parent
  · apply filter_length_le_one_of_eq w _ (hwf a ha).1
    intro p hp hpred
    by_contra hpw
    have hobj : (RadioButton.check t w).objects p =
        uncheckRadioButtonsLoop (t.group a).m_EventManager.m_Objects t.objects p := by
      unfold RadioButton.check Group.uncheckRadioButtons
      simp only [Function.update, hpw, dite_false, ← hne]
    rw [hobj, uncheckRadioButtonsLoop_apply] at hpred
    by_cases hr : (t.objects p).m_ObjectType = ObjectTypes.radioButton
    · simp [hp, hr] at hpred
    · simp [hp, hr] at hpred
  · have hsame : ∀ p ∈ (t.group a).m_EventManager.m_Objects,
        (RadioButton.check t w).objects p = t.objects p :=
      fun p hp => check_other_group t hwf w a p ha hne hp
    have := hinv a ha
    unfold checkedRadioButtons at this
    refine le_trans (filter_length_mono _ ?_) this
    intro p hp hpred
    rw [hsame p hp] at hpred
    exact hpred

theorem uncheck_wellFormed (t : Tree) (hwf : t.wellFormed) (w : ObjPtr) :
    (RadioButton.uncheck t w).wellFormed := by
  intro a ha
  have h := hwf a ha
  refine ⟨h.1, ?_⟩
  intro p hp
  have hparent : ((RadioButton.uncheck t w).objects p).m_Parent = (t.objects p).m_Parent := by
    unfold RadioButton.uncheck
    by_cases hq : p = w
    · subst hq
      simp [Function.update]
    · simp [Function.update, hq]
  rw [hparent]
  exact h.2 p hp

theorem uncheck_atMostOneChecked (t : Tree) (hinv : t.atMostOneChecked) (w : ObjPtr) :
    (RadioButton.uncheck t w).atMostOneChecked := by
  intro a ha
  have hg : (RadioButton.uncheck t w).group a = t.group a := rfl
  have := hinv a ha
  unfold checkedRadioButtons at this ⊢
  rw [hg]
  refine le_trans (filter_length_mono _ ?_) this
  intro p _ hpred
  unfold RadioButton.uncheck at hpred
  by_cases hq : p = w
  · subst hq
    simp [Function.update] at hpred
  · simpa [Function.update, hq] using hpred

theorem calls_invariant :
    ∀ (cs : List RadioCall) (t : Tree), t.wellFormed → t.atMostOneChecked →
      (t.calls cs).wellFormed ∧ (t.calls cs).atMostOneChecked := by
  intro cs
  induction cs with
  | nil => intro t hwf hinv; exact ⟨hwf, hinv⟩
  | cons c cs ih =>
    intro t hwf hinv
    have hstep : (t.call c).wellFormed ∧ (t.call c).atMostOneChecked := by
      cases c with
      | check w => exact ⟨check_wellFormed t hwf w, check_atMostOneChecked t hwf hinv w⟩
      | uncheck w => exact ⟨uncheck_wellFormed t hwf w, uncheck_atMostOneChecked t hinv w⟩
    exact ih (t.call c) hstep.1 hstep.2

/-- C19. With `RadioButton::check` as documented (the parent `Group` unchecks
its radio buttons, then the button is checked), in a tree of `Group`s whose
children are pairwise distinct and have the `Group` that lists them as parent,
and in which every `Group` has at most one radio button checked: after every
sequence of `check`/`uncheck` calls every `Group` has at most one directly
contained radio button checked, and a `check` on a button leaves every child of
every other `Group` (sibling or nested) as it was. -/
theorem radio_buttons_exclusive_per_group (t : Tree) (hwf : t.wellFormed)
    (hinv : t.atMostOneChecked) :
    (∀ cs : List RadioCall, (t.calls cs).atMostOneChecked) ∧
    (∀ (cs : List RadioCall) (w : ObjPtr) (a : Nat) (p : ObjPtr),
      a < (t.calls cs).groups.length → a ≠ ((t.calls cs).objects w).m_Parent →
      p ∈ ((t.calls cs).group a).m_EventManager.m_Objects →
      (RadioButton.check (t.calls cs) w).objects p = (t.calls cs).objects p) :=
  ⟨fun cs => (calls_invariant cs t hwf hinv).2,
    fun cs w a p ha hne hp =>
      check_other_group (t.calls cs) (calls_invariant cs t hwf hinv).1 w a p ha hne hp⟩

theorem radio_buttons_exclusive_per_group_witness :
    twoRadioGroups.wellFormed ∧ twoRadioGroups.atMostOneChecked ∧
    (twoRadioGroups.calls
      [RadioCall.check 1, RadioCall.check 5, RadioCall.uncheck 1]).atMostOneChecked ∧
    (RadioButton.check (twoRadioGroups.calls []) 1).objects 4 =
      (twoRadioGroups.calls []).objects 4 :=
  ⟨by decide, by decide,
    (radio_buttons_exclusive_per_group twoRadioGroups (by decide) (by decide)).1 _,
    (radio_buttons_exclusive_per_group twoRadioGroups (by decide) (by decide)).2 [] 1 1 4
      (by decide) (by decide) (by decide)⟩

/-! ## Resources that fail to load -/

/-- C20 (the code at the failing input). Whatever the environment (whatever
the calls made on widgets report): a button whose `load(pathname)` is called,
and a list box whose `setScrollbar(pathname)` is called, do not stop the load,
which returns true, because the result of these calls is not looked at; where
every tested call reports failure, the same `load` on an animated button makes
the load return false. -/
theorem failed_resource_does_not_abort_load (env : Env) :
    loadObjectsFromFile env World.empty buttonWithPathname =
      Outcome.returned true
        { self := { m_EventManager := { m_Objects := [0], m_FocusedObject := 0 }
                    m_ObjName := ["b".toList] }
          created := [{ ptr := 0, parent := Ptr.this, kind := ObjectTypes.button, name := "b".toList }]
          calls := [{ target := Ptr.object 0, method := "load", args := [Arg.str "missing".toList] }]
          nextPtr := 1 } ∧
    loadObjectsFromFile env World.empty listboxWithScrollbar =
      Outcome.returned true
        { self := { m_EventManager := { m_Objects := [0], m_FocusedObject := 0 }
                    m_ObjName := ["l".toList] }
          created := [{ ptr := 0, parent := Ptr.this, kind := ObjectTypes.listbox, name := "l".toList }]
          calls := [{ target := Ptr.object 0, method := "setScrollbar",
                      args := [Arg.str "missing".toList] }]
          nextPtr := 1 } ∧
    loadObjectsFromFile Env.resourcesFail World.empty animatedButtonWithPathname =
      Outcome.returned false
        { self := { m_EventManager := { m_Objects := [0], m_FocusedObject := 0 }
                    m_ObjName := ["b".toList] }
          created := [{ ptr := 0, parent := Ptr.this, kind := ObjectTypes.animatedButton,
                        name := "b".toList }]
          calls := [{ target := Ptr.object 0, method := "load", args := [Arg.str "missing".toList] }]
          nextPtr := 1 } := by
  refine ⟨?_, ?_, ?_⟩
  · rfl
  · rfl
  · decide

/-! ## Unknown lines and the end of the window block -/

theorem find?_eq_none_of_any_false {α : Type} (p : α → Bool) (l : List α)
    (h : l.any p = false) : l.find? p = none := by
  rw [List.find?_eq_none]
  intro x hx hp
  have := List.any_eq_true.2 ⟨x, hx, hp⟩
  rw [h] at this
  exact Bool.noConfusion this

theorem createObject_unknown (st : Loader) (text : Str) (h : typeKeyword text = false) :
    createObject st text = Outcome.returned false st.world := by
  unfold createObject
  rw [find?_eq_none_of_any_false _ _ h]

theorem widgetSection_unknown (env : Env) (st : Loader) (t : ObjectTypes) (text : Str)
    (top : Nat) (rest : List Nat) (hprogress : st.progress = top :: rest) (htop : top ≠ 0)
    (hclose : text ≠ "\x7d".toList) (hprop : recognisedProperty t text = false)
    (hkey : t.isLeaf = true ∨ typeKeyword text = false) :
    widgetSection env st t text = Outcome.returned false st.world := by
  unfold widgetSection
  rw [hprogress]
  simp only [htop, if_false, hclose]
  rw [find?_eq_none_of_any_false _ _ hprop]
  simp only
  rcases hkey with hleaf | hkey
  · have hne : ¬ (t = ObjectTypes.panel ∨ t = ObjectTypes.childWindow) := by
      intro h
      rcases h with h | h <;> subst h <;> simp [ObjectTypes.isLeaf] at hleaf
    rw [if_neg hne]
  · split
    · exact createObject_unknown _ text hkey
    · rfl

theorem dispatch_unknown (env : Env) (st : Loader) (text : Str)
    (h : unknownLine st text = true) :
    dispatch env st text = Outcome.returned false st.world := by
  unfold unknownLine at h
  simp only [Bool.and_eq_true, bne_iff_ne, ne_eq] at h
  obtain ⟨hclose, hrest⟩ := h
  unfold dispatch
  cases hid : st.objectID with
  | zero => rw [hid] at hrest; simp at hrest
  | succ t =>
    rw [hid] at hrest
    cases t
    case window =>
      simp only [hclose, if_false]
      simp only [Bool.not_eq_true'] at hrest
      exact createObject_unknown _ text hrest
    all_goals
      cases hp : st.progress with
      | nil => simp [hp] at hrest
      | cons top rest =>
        simp only [hp, Bool.and_eq_true, bne_iff_ne, ne_eq, Bool.not_eq_true',
          Bool.or_eq_true] at hrest
        exact widgetSection_unknown env st _ text top rest hp hrest.1.1 hclose hrest.1.2 hrest.2

theorem load_returns_at_line (env : Env) (w : World) (pre post : List Str) (raw : Str)
    (st : Loader) (result : Bool) (w1 : World)
    (hreach : runPrefix env { world := w } pre = Outcome.running st)
    (hstep : step env st raw = Outcome.returned result w1) :
    loadObjectsFromFile env w (pre ++ raw :: post) = Outcome.returned result w1 := by
  unfold loadObjectsFromFile
  rw [runLines_append, hreach]
  simp only [runLines, hstep]

theorem step_of_readLine (env : Env) (st : Loader) (raw text : Str) (mlc : Bool)
    (hread : readLine st raw = Lexed.line text mlc) :
    step env st raw = dispatch env { st with multilineComment := mlc } text := by
  unfold step
  rw [hread]

/-- C21. When the loader has reached a line (the lines before it leave the
loop running) that is handed to the `switch` as a text which is not `}` and
which, in an opened leaf widget section, starts with none of the section's
`key=` prefixes, or, in the window section or an opened panel or child window
section, starts neither with a `key=` prefix of the section nor with one of the
18 type keywords, `loadObjectsFromFile` returns false. -/
theorem unknown_line_aborts_load (env : Env) (w : World) (pre post : List Str) (raw : Str)
    (st : Loader) (text : Str) (mlc : Bool)
    (hreach : runPrefix env { world := w } pre = Outcome.running st)
    (hread : readLine st raw = Lexed.line text mlc)
    (hunknown : unknownLine st text = true) :
    loadObjectsFromFile env w (pre ++ raw :: post) = Outcome.returned false st.world := by
  apply load_returns_at_line env w pre post raw st false st.world hreach
  rw [step_of_readLine env st raw text mlc hread]
  exact dispatch_unknown env { st with multilineComment := mlc } text hunknown

theorem unknown_line_aborts_load_witness :
    runPrefix Env.permissive { world := World.empty } labelLeftOpen =
      Outcome.running insideLabel ∧
    readLine insideLabel "Font = 3".toList = Lexed.line "font=3".toList false ∧
    unknownLine insideLabel "font=3".toList = true ∧
    loadObjectsFromFile Env.permissive World.empty
        (labelLeftOpen ++ "Font = 3".toList :: scene ["\x7d", "\x7d"]) =
      Outcome.returned false insideLabel.world :=
  ⟨by decide, by decide, by decide,
    unknown_line_aborts_load Env.permissive World.empty labelLeftOpen _ "Font = 3".toList
      insideLabel "font=3".toList false (by decide) (by decide) (by decide)⟩

/-- C22. When the loader reads the line `}` in the top-level window section
(the lines before it leave the loop running in that section, and the line is
handed to the `switch` as `}`), `loadObjectsFromFile` returns true with the
widgets built so far, whatever lines follow. -/
theorem load_succeeds_at_closing_brace (env : Env) (w : World) (pre post : List Str)
    (raw : Str) (st : Loader) (mlc : Bool)
    (hreach : runPrefix env { world := w } pre = Outcome.running st)
    (hwindow : st.objectID = ObjectID.succ ObjectTypes.window)
    (hread : readLine st raw = Lexed.line "\x7d".toList mlc) :
    loadObjectsFromFile env w (pre ++ raw :: post) = Outcome.returned true st.world := by
  apply load_returns_at_line env w pre post raw st true st.world hreach
  rw [step_of_readLine env st raw _ mlc hread]
  unfold dispatch
  simp only [hwindow, if_true]

theorem load_succeeds_at_closing_brace_witness :
    runPrefix Env.permissive { world := World.empty }
        (scene ["window:", "\x7b", "label: \"a\"", "\x7b", "\x7d"]) =
      Outcome.running { insideWindow with world := afterLabelA, extraPtr := Ptr.object 0 } ∧
    readLine { insideWindow with world := afterLabelA, extraPtr := Ptr.object 0 } " \x7d ".toList =
      Lexed.line "\x7d".toList false ∧
    loadObjectsFromFile Env.permissive World.empty
        (scene ["window:", "\x7b", "label: \"a\"", "\x7b", "\x7d"] ++ " \x7d ".toList ::
          scene ["this is", "not a scene"]) =
      Outcome.returned true afterLabelA :=
  ⟨by decide, by decide,
    load_succeeds_at_closing_brace Env.permissive World.empty _ _ " \x7d ".toList
      { insideWindow with world := afterLabelA, extraPtr := Ptr.object 0 } false (by decide) rfl
      (by decide)⟩

/-! ## The lexer -/

/-- C23 (the code at the failing input). The line `WIDTH=5 // "note"`, read
outside a block comment, is not rejected and is normalised to `WIDTH=5`: the
quote is behind the line comment, the comment is cut, and the line is returned
without the lowercase loop (the part outside quotes holds uppercase letters).
The same happens for `Width = 5 /* "x"`. Without the quote in the comment the
line is lowered. -/
theorem line_with_quote_in_comment_keeps_uppercase :
    lexLine false ("WIDTH=5 // ".toList ++ '"' :: "note".toList ++ ['"']) =
      some ("WIDTH=5".toList, false) ∧
    lexLine false ("Width = 5 /* ".toList ++ '"' :: "x".toList ++ ['"']) =
      some ("Width=5".toList, true) ∧
    lexLine false "WIDTH=5 // note".toList = some ("width=5".toList, false) := by
  decide

/-- C24 (the claim as stated fails). For `P` = `text=`, `S` = `Hello` and `T` a
carriage return, the lexer gives `text="Hello"` (the carriage return after the
closing quote is removed), not lower(strip(P)) `"S"` lower(strip(T)) with a
strip that removes spaces and tabs only. -/
theorem carriage_return_after_quote_is_removed :
    ('"' ∉ "Hello".toList ∧ '\\' ∉ "Hello".toList) ∧
    ('"' ∉ "text=".toList ∧ '/' ∉ "text=".toList) ∧
    ('"' ∉ ['\r'] ∧ '/' ∉ ['\r']) ∧
    lexLine false ("text=".toList ++ '"' :: "Hello".toList ++ '"' :: ['\r']) =
      some ("text=".toList ++ '"' :: "Hello".toList ++ ['"'], false) ∧
    lexLine false ("text=".toList ++ '"' :: "Hello".toList ++ '"' :: ['\r']) ≠
      some ((removeSpacesTabs "text=".toList).map lowerChar ++ '"' :: "Hello".toList ++ '"' ::
        (removeSpacesTabs ['\r']).map lowerChar, false) := by
  decide

/-- C24 (amended). For a line `P "S" T` read outside a block comment, where
`S` holds no double quote and no backslash and `P` and `T` hold no double quote
and no slash, the normalised line is `P` without spaces and tabs, lowered,
followed by `"S"` unchanged, followed by `T` without spaces, tabs and carriage
returns, lowered; the block-comment state stays cleared. -/
theorem quoted_text_is_preserved (p s t : Str) (hp : '"' ∉ p ∧ '/' ∉ p)
    (hs : '"' ∉ s ∧ '\\' ∉ s) (ht : '"' ∉ t ∧ '/' ∉ t) :
    lexLine false (p ++ '"' :: s ++ '"' :: t) =
      some ((removeSpacesTabs p).map lowerChar ++ '"' :: s ++ '"' ::
        (removeBlanks t).map lowerChar, false) := by
  unfold lexLine removeSpacesTabs removeBlanks
  simp only [Bool.false_eq_true, if_false]
  exact lexNormal_quoted p s t hp.1 hp.2 hs.1 hs.2 ht.1 ht.2

theorem quoted_text_is_preserved_witness :
    ('"' ∉ "  Text = ".toList ∧ '/' ∉ "  Text = ".toList) ∧
    ('"' ∉ "He/l lo\tX".toList ∧ '\\' ∉ "He/l lo\tX".toList) ∧
    ('"' ∉ " \r".toList ∧ '/' ∉ " \r".toList) ∧
    lexLine false ("  Text = ".toList ++ '"' :: "He/l lo\tX".toList ++ '"' :: " \r".toList) =
      some ((removeSpacesTabs "  Text = ".toList).map lowerChar ++ '"' ::
        "He/l lo\tX".toList ++ '"' :: (removeBlanks " \r".toList).map lowerChar, false) :=
  ⟨by decide, by decide, by decide,
    quoted_text_is_preserved "  Text = ".toList "He/l lo\tX".toList " \r".toList
      (by decide) (by decide) (by decide)⟩

/-- C25 (the code at the failing input). For `s` = `a" b` (a double quote
followed by a space) the line `text="` + enc(`s`) + `"`, that is
`text="a\" b"`, is normalised to `text="a"b"`: the space behind the escaped
quote is removed, because the blanks are removed from the first quote
character after the opening quote on, before the escapes are decoded. For
`s` = `a"/b` the line `text="a\"/b"` is rejected (the slash counts as a stray
slash). -/
theorem escaped_quote_ends_verbatim_text :
    escapeEncode ['a', '"', ' ', 'b'] = ['a', '\\', '"', ' ', 'b'] ∧
    lexLine false ("text=".toList ++ '"' :: escapeEncode ['a', '"', ' ', 'b'] ++ ['"']) =
      some ("text=".toList ++ '"' :: ['a', '"', 'b'] ++ ['"'], false) ∧
    lexLine false ("text=".toList ++ '"' :: escapeEncode ['a', '"', ' ', 'b'] ++ ['"']) ≠
      some ("text=".toList ++ '"' :: ['a', '"', ' ', 'b'] ++ ['"'], false) ∧
    lexLine false ("text=".toList ++ '"' :: escapeEncode ['a', '"', '/', 'b'] ++ ['"']) =
      none := by
  decide

/-- C26 (the code at the failing input). Read while the block-comment state
is set, the lines `* done */` and `**/` contain `*/`, but the whole line is
dropped and the comment state stays set: only the first `*` of the line is
looked at. A line whose first `*` is followed by `/` clears the state and is
lexed from behind the `*/`. -/
theorem comment_end_after_lone_asterisk_is_missed :
    lexLine true "* done */".toList = some ([], true) ∧
    lexLine true "**/".toList = some ([], true) ∧
    lexLine true "* done */ Width = 5".toList = some ([], true) ∧
    lexLine true "done */ Width = 5".toList = some ("width=5".toList, false) := by
  decide

/-- C27 (the code at the failing input). The line `width=5 /* c */` is
normalised to `width=5`, the normalisation of the text before the comment, but
it leaves the block-comment state set: in the scene `commentClosedOnSameLine`
the following lines `height=7`, `}` and `}` are dropped as comment text, the
label only gets its width, and the load returns true at the end of the file. -/
theorem comment_closed_on_same_line_stays_open :
    lexLine false "width=5 /* c */".toList = some ("width=5".toList, true) ∧
    lexLine true "height=7".toList = some ([], true) ∧
    loadObjectsFromFile Env.permissive World.empty commentClosedOnSameLine =
      Outcome.returned true
        { insideLabel.world with
          calls := [{ target := Ptr.object 0, method := "setSize",
                      args := [Arg.float 5, Arg.get "getScaledSize().y"] }] } := by
  decide

theorem lexNormal_slash_end (l a : Str) (hq : '"' ∉ l)
    (hs : removeBlanks l = a ++ ['/']) (ha : '/' ∉ a) : lexNormal l = none := by
  unfold removeBlanks at hs
  unfold lexNormal
  simp only [findChar_eq_none '"' l hq, hs, findChar_append_cons '/' a [] ha]
  simp

theorem lexNormal_slash_next (l a : Str) (x : Char) (b : Str) (hq : '"' ∉ l)
    (hs : removeBlanks l = a ++ '/' :: x :: b) (ha : '/' ∉ a) :
    lexNormal l =
      if x = '/' then some (a.map lowerChar, false)
      else if x = '*' then some (a.map lowerChar, true)
      else none := by
  unfold removeBlanks at hs
  unfold lexNormal
  simp only [findChar_eq_none '"' l hq, hs, findChar_append_cons '/' a (x :: b) ha]
  have hlen : (a ++ '/' :: x :: b).length > a.length + 1 := by simp
  have hget : (a ++ '/' :: x :: b).get? (a.length + 1) = some x := by
    rw [List.get?_eq_getElem?, List.getElem?_append_right (by omega)]
    simp
  simp only [hlen, if_true, cutComment, hget, Option.some.injEq, List.take_left']
  by_cases h1 : x = '/'
  · simp [h1]
  · by_cases h2 : x = '*'
    · simp [h2]
    · simp [h1, h2]

/-- C28. For a line without quotes read outside a block comment, with `a` the
text before the first slash of the line after removal of spaces, tabs and
carriage returns: when that slash is the last character or is followed by a
character other than `/` and `*`, the lexer rejects the line, and a load that
reaches the line returns false; when it is followed by `/`, the line is cut at
that slash (the normalised line is `a`, lowered). -/
theorem stray_slash_is_rejected (l a rest : Str) (hq : '"' ∉ l)
    (hs : removeBlanks l = a ++ '/' :: rest) (ha : '/' ∉ a) :
    ((rest = [] ∨ ∃ x b, rest = x :: b ∧ x ≠ '/' ∧ x ≠ '*') →
      lexLine false l = none ∧
      ∀ (env : Env) (w : World) (pre post : List Str) (st : Loader),
        runPrefix env { world := w } pre = Outcome.running st →
        st.multilineComment = false →
        loadObjectsFromFile env w (pre ++ l :: post) = Outcome.returned false st.world) ∧
    (∀ b, rest = '/' :: b → lexLine false l = some (a.map lowerChar, false)) := by
  constructor
  · intro hrest
    have hnone : lexNormal l = none := by
      rcases hrest with h | ⟨x, b, h, h1, h2⟩
      · subst h
        exact lexNormal_slash_end l a hq hs ha
      · subst h
        rw [lexNormal_slash_next l a x b hq hs ha]
        simp [h1, h2]
    refine ⟨by simp [lexLine, hnone], ?_⟩
    intro env w pre post st hreach hmc
    apply load_returns_at_line env w pre post l st false st.world hreach
    unfold step readLine lexLine
    simp only [hmc, Bool.false_eq_true, if_false, hnone]
  · intro b hb
    subst hb
    simp [lexLine, lexNormal_slash_next l a '/' b hq hs ha]

theorem stray_slash_is_rejected_witness :
    '"' ∉ "Left = 1 / 2".toList ∧
    removeBlanks "Left = 1 / 2".toList = "Left=1".toList ++ '/' :: "2".toList ∧
    '/' ∉ "Left=1".toList ∧
    lexLine false "Left = 1 / 2".toList = none ∧
    loadObjectsFromFile Env.permissive World.empty
        (labelLeftOpen ++ "Left = 1 / 2".toList :: scene ["\x7d", "\x7d"]) =
      Outcome.returned false insideLabel.world :=
  ⟨by decide, by decide, by decide,
    ((stray_slash_is_rejected "Left = 1 / 2".toList "Left=1".toList "2".toList (by decide)
      (by decide) (by decide)).1 (Or.inr ⟨'2', [], rfl, by decide, by decide⟩)).1,
    ((stray_slash_is_rejected "Left = 1 / 2".toList "Left=1".toList "2".toList (by decide)
      (by decide) (by decide)).1 (Or.inr ⟨'2', [], rfl, by decide, by decide⟩)).2
      Env.permissive World.empty labelLeftOpen _ insideLabel (by decide) (by decide)⟩

/-! ## Defines inside the window body, boolean properties -/

theorem typeKeyword_define (rest : Str) : typeKeyword ("define:".toList ++ rest) = false := by
  rfl

theorem startsWith_define (text : Str) (h : startsWith "define:" text = true) :
    text = "define:".toList ++ text.drop 7 := by
  unfold startsWith at h
  have h7 : "define:".length = 7 := rfl
  rw [h7] at h
  have heq : text.take 7 = "define:".toList := by simpa using h
  rw [← heq, List.take_append_drop]

/-- C29 (the claim as stated fails). A line `define: x=5` between two
top-level labels of the window body: the load returns false at that line, with
the first label created and the second one not. -/
theorem define_between_entries_is_rejected :
    runPrefix Env.permissive { world := World.empty }
        (scene ["window:", "\x7b", "label: \"a\"", "\x7b", "\x7d"]) =
      Outcome.running { insideWindow with world := afterLabelA, extraPtr := Ptr.object 0 } ∧
    step Env.permissive { insideWindow with world := afterLabelA, extraPtr := Ptr.object 0 }
        "define: x=5".toList =
      Outcome.returned false afterLabelA ∧
    loadObjectsFromFile Env.permissive World.empty defineBetweenEntries =
      Outcome.returned false afterLabelA := by
  decide

/-- C30 (the code at the failing input). The scene `booleanProperties`: for a
label, `autosize=true` calls `setAutoSize(false)` (the value goes through
`atoi`, which gives 0 for `true`), as do `autosize=false` and `autosize=0`,
while `autosize=1` calls `setAutoSize(true)`; the keys `checked`,
`verticalscroll` and `loop` take `true`, `false` and numbers as the spec says;
`playing=true` calls `play()` and `playing=false` makes no call. -/
theorem autosize_true_sets_false :
    loadObjectsFromFile Env.permissive World.empty booleanProperties =
      Outcome.returned true
        { self := { m_EventManager := { m_Objects := [0, 1, 2, 3], m_FocusedObject := 0 }
                    m_ObjName := [[], [], [], []] }
          created :=
            [{ ptr := 0, parent := Ptr.this, kind := ObjectTypes.label, name := [] },
             { ptr := 1, parent := Ptr.this, kind := ObjectTypes.checkbox, name := [] },
             { ptr := 2, parent := Ptr.this, kind := ObjectTypes.slider, name := [] },
             { ptr := 3, parent := Ptr.this, kind := ObjectTypes.animatedPicture, name := [] }]
          calls :=
            [{ target := Ptr.object 0, method := "setAutoSize", args := [Arg.bool false] },
             { target := Ptr.object 0, method := "setAutoSize", args := [Arg.bool false] },
             { target := Ptr.object 0, method := "setAutoSize", args := [Arg.bool true] },
             { target := Ptr.object 0, method := "setAutoSize", args := [Arg.bool false] },
             { target := Ptr.object 1, method := "check", args := [] },
             { target := Ptr.object 1, method := "uncheck", args := [] },
             { target := Ptr.object 1, method := "check", args := [] },
             { target := Ptr.object 1, method := "uncheck", args := [] },
             { target := Ptr.object 2, method := "verticalScroll", args := [Arg.bool true] },
             { target := Ptr.object 2, method := "verticalScroll", args := [Arg.bool false] },
             { target := Ptr.object 2, method := "verticalScroll", args := [Arg.bool true] },
             { target := Ptr.object 3, method := "loop", args := [Arg.bool true] },
             { target := Ptr.object 3, method := "loop", args := [Arg.bool false] },
             { target := Ptr.object 3, method := "play", args := [] }]
          nextPtr := 4 } := by
  decide


/-! ## Decoding of escape sequences -/

theorem findCharFrom_append_here (x : Char) (pre rest : Str) :
    findCharFrom x (pre ++ x :: rest) pre.length = some pre.length := by
  rw [findCharFrom_append]
  simp [findChar, firstIndex]

theorem findCharFrom_append_skip (x c : Char) (pre rest : Str) (hne : c ≠ x) :
    findCharFrom x (pre ++ c :: rest) pre.length =
      findCharFrom x (pre ++ c :: rest) (pre.length + 1) := by
  rw [findCharFrom_append, findCharFrom_append_cons]
  unfold findChar
  simp only [firstIndex, beq_iff_eq, hne, if_false]
  cases firstIndex (fun y => y == x) rest with
  | none => rfl
  | some i => simp; omega

theorem get?_append_second (pre rest : Str) (a b : Char) :
    (pre ++ a :: b :: rest).get? (pre.length + 1) = some b := by
  rw [List.get?_eq_getElem?, List.getElem?_append_right (by omega)]
  simp

theorem set_eraseIdx_append (pre rest : Str) (a b y : Char) :
    ((pre ++ a :: b :: rest).set pre.length y).eraseIdx (pre.length + 1) = pre ++ y :: rest := by
  have h1 : (pre ++ a :: b :: rest).set pre.length y = pre ++ y :: b :: rest := by
    rw [List.set_append_right _ _ (Nat.le_refl _)]
    simp
  rw [h1]
  have h2 : pre ++ y :: b :: rest = (pre ++ [y]) ++ b :: rest := by simp
  rw [h2, List.eraseIdx_append_of_length_le (by simp)]
  simp

theorem eraseIdx_append_second (pre rest : Str) (a b : Char) :
    (pre ++ a :: b :: rest).eraseIdx (pre.length + 1) = pre ++ a :: rest := by
  have h2 : pre ++ a :: b :: rest = (pre ++ [a]) ++ b :: rest := by simp
  rw [h2, List.eraseIdx_append_of_length_le (by simp)]
  simp

theorem escapeEncode_cons (c : Char) (r : Str) :
    escapeEncode (c :: r) = escapeChar c ++ escapeEncode r := by
  simp [escapeEncode]

theorem not_mem_escapeEncode :
    ∀ (r : Str), '"' ∉ r → '"' ∉ escapeEncode r := by
  intro r
  induction r with
  | nil => intro _; simp [escapeEncode]
  | cons c r ih =>
    intro h
    have hc : c ≠ '"' := fun e => h (by simp [e])
    have hr : '"' ∉ r := fun e => h (by simp [e])
    rw [escapeEncode_cons]
    intro hmem
    rcases List.mem_append.1 hmem with h1 | h1
    · unfold escapeChar at h1
      simp only [hc, if_false] at h1
      by_cases e1 : c = '\n'
      · simp [e1] at h1
      · by_cases e2 : c = '\t'
        · simp [e2] at h1
        · by_cases e3 : c = '\\'
          · simp [e3] at h1
          · simp [e1, e2, e3] at h1
            exact hc h1.symm
    · exact ih hr h1

theorem unescape_step_n (f : Nat) (pre rest : Str) (q : Nat) (hq : pre.length < q) :
    unescape (f + 1) (pre ++ '\\' :: 'n' :: rest) (some pre.length) q =
      unescape f (pre ++ '\n' :: rest)
        (findCharFrom '\\' (pre ++ '\n' :: rest) (pre.length + 1)) (q - 1) := by
  rw [unescape]
  simp only [hq, if_true, get?_append_second, set_eraseIdx_append]

theorem unescape_step_t (f : Nat) (pre rest : Str) (q : Nat) (hq : pre.length < q) :
    unescape (f + 1) (pre ++ '\\' :: 't' :: rest) (some pre.length) q =
      unescape f (pre ++ '\t' :: rest)
        (findCharFrom '\\' (pre ++ '\t' :: rest) (pre.length + 1)) (q - 1) := by
  rw [unescape]
  simp only [hq, if_true, get?_append_second, set_eraseIdx_append]
  simp

theorem unescape_step_backslash (f : Nat) (pre rest : Str) (q : Nat) (hq : pre.length < q) :
    unescape (f + 1) (pre ++ '\\' :: '\\' :: rest) (some pre.length) q =
      unescape f (pre ++ '\\' :: rest)
        (findCharFrom '\\' (pre ++ '\\' :: rest) (pre.length + 1)) (q - 1) := by
  rw [unescape]
  simp only [hq, if_true, get?_append_second, eraseIdx_append_second]
  simp

theorem unescape_encoded :
    ∀ (r pre tl : Str) (fuel : Nat), '"' ∉ r → (escapeEncode r).length < fuel →
      unescape fuel (pre ++ (escapeEncode r ++ '"' :: tl))
          (findCharFrom '\\' (pre ++ (escapeEncode r ++ '"' :: tl)) pre.length)
          (pre.length + (escapeEncode r).length) =
        some (some (pre ++ (r ++ '"' :: tl), pre.length + r.length)) := by
  intro r
  induction r with
  | nil =>
    intro pre tl fuel _ hf
    cases fuel with
    | zero => simp at hf
    | succ f =>
      simp only [escapeEncode, List.map_nil, List.flatten_nil, List.nil_append, List.length_nil,
        Nat.add_zero]
      apply unescape_done
      intro b hb
      exact (findCharFrom_some _ _ _ _ hb).1
  | cons c r ih =>
    intro pre tl fuel h hf
    have hc : c ≠ '"' := fun e => h (by simp [e])
    have hr : '"' ∉ r := fun e => h (by simp [e])
    rw [escapeEncode_cons] at hf ⊢
    have key : ∀ (y : Char) (g : Nat), (escapeEncode r).length < g →
        unescape g (pre ++ y :: (escapeEncode r ++ '"' :: tl))
          (findCharFrom '\\' (pre ++ y :: (escapeEncode r ++ '"' :: tl)) (pre.length + 1))
          (pre.length + 1 + (escapeEncode r).length) =
        some (some (pre ++ y :: (r ++ '"' :: tl), pre.length + (r.length + 1))) := by
      intro y g hg
      have := ih (pre ++ [y]) tl g hr hg
      simp only [List.length_append, List.length_singleton, List.append_assoc,
        List.singleton_append] at this
      rw [this, Nat.add_assoc, Nat.add_comm 1 r.length]
    by_cases e1 : c = '\n'
    · subst e1
      have he : escapeChar '\n' = ['\\', 'n'] := rfl
      rw [he] at hf ⊢
      simp only [List.length_append, List.length_cons, List.length_nil] at hf
      cases fuel with
      | zero => omega
      | succ f =>
        simp only [List.cons_append, List.nil_append, List.length_cons, List.length_append,
          List.length_nil]
        rw [findCharFrom_append_here, unescape_step_n _ _ _ _ (by omega)]
        convert key '\n' f (by omega) using 2
        omega
    · by_cases e2 : c = '\t'
      · subst e2
        have he : escapeChar '\t' = ['\\', 't'] := rfl
        rw [he] at hf ⊢
        simp only [List.length_append, List.length_cons, List.length_nil] at hf
        cases fuel with
        | zero => omega
        | succ f =>
          simp only [List.cons_append, List.nil_append, List.length_cons, List.length_append,
            List.length_nil]
          rw [findCharFrom_append_here, unescape_step_t _ _ _ _ (by omega)]
          convert key '\t' f (by omega) using 2
          omega
      · by_cases e3 : c = '\\'
        · subst e3
          have he : escapeChar '\\' = ['\\', '\\'] := rfl
          rw [he] at hf ⊢
          simp only [List.length_append, List.length_cons, List.length_nil] at hf
          cases fuel with
          | zero => omega
          | succ f =>
            simp only [List.cons_append, List.nil_append, List.length_cons, List.length_append,
              List.length_nil]
            rw [findCharFrom_append_here, unescape_step_backslash _ _ _ _ (by omega)]
            convert key '\\' f (by omega) using 2
            omega
        · have he : escapeChar c = [c] := by simp [escapeChar, e1, e2, e3, hc]
          rw [he] at hf ⊢
          simp only [List.length_append, List.length_cons, List.length_nil] at hf
          simp only [List.cons_append, List.nil_append, List.length_cons, List.length_append,
            List.length_nil]
          rw [findCharFrom_append_skip _ _ _ _ e3]
          convert key c fuel (by omega) using 2
          omega

/-- For a text `r` without a double quote the lexer decodes the escape encoding
of `r` between two quotes back to `r`: newline, tab and backslash make the
round trip. -/
theorem lexNormal_encoded (p r t : Str) (hp : '"' ∉ p) (hps : '/' ∉ p)
    (hr : '"' ∉ r) (ht : '"' ∉ t) (hts : '/' ∉ t) :
    lexNormal (p ++ '"' :: escapeEncode r ++ '"' :: t) =
      some ((removeChar '\t' (removeChar ' ' p)).map lowerChar ++ '"' :: r ++ '"' ::
        (removeChar '\r' (removeChar '\t' (removeChar ' ' t))).map lowerChar, false) := by
  have hs : '"' ∉ escapeEncode r := not_mem_escapeEncode r hr
  generalize hE : escapeEncode r = s at hs
  have hq1 : '"' ∉ removeChar ' ' p := fun h => hp (mem_removeChar h)
  have hq2 : '"' ∉ removeChar '\t' (removeChar ' ' p) := fun h => hq1 (mem_removeChar h)
  have hs2 : '/' ∉ removeChar '\t' (removeChar ' ' p) :=
    fun h => hps (mem_removeChar (mem_removeChar h))
  have ht3 : '"' ∉ removeChar '\r' (removeChar '\t' (removeChar ' ' t)) :=
    fun h => ht (mem_removeChar (mem_removeChar (mem_removeChar h)))
  have hts3 : '/' ∉ removeChar '\r' (removeChar '\t' (removeChar ' ' t)) :=
    fun h => hts (mem_removeChar (mem_removeChar (mem_removeChar h)))
  generalize hP : removeChar '\t' (removeChar ' ' p) = P at hq2 hs2
  generalize hT : removeChar '\r' (removeChar '\t' (removeChar ' ' t)) = T at ht3 hts3
  have hstrip : removeChar '\r' (removeChar '\t' (removeChar ' ' ('"' :: t))) = '"' :: T := by
    rw [removeChar_cons_ne _ _ _ (by decide), removeChar_cons_ne _ _ _ (by decide),
      removeChar_cons_ne _ _ _ (by decide), hT]
  have hassoc : p ++ '"' :: s ++ '"' :: t = p ++ '"' :: (s ++ '"' :: t) := by simp
  unfold lexNormal
  rw [hassoc]
  simp only [findChar_append_cons '"' p _ hp, List.take_left', List.drop_left',
    findChar_append_cons '"' _ _ hq1, Option.getD_some, hP, findChar_append_cons '"' _ _ hq2,
    findChar_eq_none '/' _ hs2]
  have hlen : P.length + 1 = (P.map lowerChar).length + 1 := by simp
  rw [hlen, findCharFrom_append_cons, findChar_append_cons '"' s t hs]
  simp only [Option.map_some', List.length_map]
  -- the part after the second quote
  have hline : P.map lowerChar ++ '"' :: (s ++ '"' :: t) =
      (P.map lowerChar ++ '"' :: s) ++ '"' :: t := by simp
  have hq2len : s.length + (P.length + 1) = (P.map lowerChar ++ '"' :: s).length := by
    simp; omega
  unfold lexAfterSecondQuote
  rw [hline, hq2len]
  simp only [List.take_left', List.drop_left', hstrip]
  have hcut : findCharFrom '/' (P.map lowerChar ++ '"' :: s ++ '"' :: T)
      ((P.map lowerChar ++ '"' :: s).length + 1) = none := by
    rw [findCharFrom_append_cons, findChar_eq_none '/' T hts3]; rfl
  rw [hcut]
  simp only
  have hq : findCharFrom '"' (P.map lowerChar ++ '"' :: s ++ '"' :: T) (P.length + 1) =
      some ((P.map lowerChar ++ '"' :: s).length) := by
    have h1 : P.map lowerChar ++ '"' :: s ++ '"' :: T =
        P.map lowerChar ++ '"' :: (s ++ '"' :: T) := by simp
    rw [h1, hlen, findCharFrom_append_cons, findChar_append_cons '"' s T hs]
    simp; omega
  rw [hq]
  simp only
  -- the escape sequences are decoded
  have hun : unescape ((P.map lowerChar ++ '"' :: s ++ '"' :: T).length + 1)
      (P.map lowerChar ++ '"' :: s ++ '"' :: T)
      (findCharFrom '\\' (P.map lowerChar ++ '"' :: s ++ '"' :: T) P.length)
      ((P.map lowerChar ++ '"' :: s).length) =
      some (some (P.map lowerChar ++ '"' :: r ++ '"' :: T,
        (P.map lowerChar ++ '"' :: r).length)) := by
    have h1 : P.map lowerChar ++ '"' :: s ++ '"' :: T =
        P.map lowerChar ++ '"' :: (s ++ '"' :: T) := by simp
    have h2 : P.length = (P.map lowerChar).length := by simp
    have hskip : findCharFrom '\\' (P.map lowerChar ++ '"' :: (s ++ '"' :: T)) P.length =
        findCharFrom '\\' (P.map lowerChar ++ '"' :: (s ++ '"' :: T)) (P.length + 1) := by
      rw [h2]
      exact findCharFrom_append_skip '\\' '"' _ _ (by decide)
    have hlt : (escapeEncode r).length <
        (P.map lowerChar ++ '"' :: s ++ '"' :: T).length + 1 := by
      rw [hE]; simp; omega
    have := unescape_encoded r (P.map lowerChar ++ ['"']) T _ hr hlt
    rw [hE] at this
    simp only [List.length_append, List.length_singleton, List.append_assoc,
      List.singleton_append, List.length_map] at this
    rw [h1, hskip]
    convert this using 2
    all_goals simp
    all_goals omega
  rw [hun]
  simp only
  have hno : findCharFrom '"' (P.map lowerChar ++ '"' :: r ++ '"' :: T)
      ((P.map lowerChar ++ '"' :: r).length + 1) = none := by
    rw [findCharFrom_append_cons, findChar_eq_none '"' T ht3]; rfl
  rw [hno]
  simp only [ne_eq, not_true_eq_false, if_false]
  rw [List.take_left' rfl, List.drop_left' rfl]
  simp [lowerChar_quote]


/-! ## Drawing, focus and the radio buttons of one `Group` -/

theorem drawObjectGroupLoop_eq (heap : Heap) :
    ∀ (ps target : List ObjPtr),
      drawObjectGroupLoop heap ps target =
        target ++ ps.filter (fun p => (heap p).m_Visible) := by
  intro ps
  induction ps with
  | nil => intro target; simp [drawObjectGroupLoop]
  | cons p ps ih =>
    intro target
    unfold drawObjectGroupLoop
    rw [ih]
    by_cases hp : (heap p).m_Visible = true
    · simp [hp]
    · simp [hp]

/-- C32. `drawObjectGroup` adds to the render target the draw calls for the
children whose visible flag is set, one for each of them, in the order of the
widget sequence (increasing index), and none for an invisible child; the
`Group` (widget sequence, name sequence, focus index) is as before. -/
theorem drawObjectGroup_draws_visible_in_order (g : Group) (heap : Heap)
    (target : List ObjPtr) :
    (g.drawObjectGroup heap target).2 =
      target ++ g.m_EventManager.m_Objects.filter (fun p => (heap p).m_Visible) ∧
    (g.drawObjectGroup heap target).1.m_EventManager.m_Objects = g.m_EventManager.m_Objects ∧
    (g.drawObjectGroup heap target).1.m_ObjName = g.m_ObjName ∧
    (g.drawObjectGroup heap target).1.m_EventManager.m_FocusedObject =
      g.m_EventManager.m_FocusedObject := by
  refine ⟨?_, rfl, rfl, rfl⟩
  unfold Group.drawObjectGroup
  exact drawObjectGroupLoop_eq heap _ _

/-- C36. `uncheckRadioButtons` on the `Group` at address `a` clears the checked
flag of the direct children of type `radioButton` and leaves every other widget
object as it was: direct children of another type, and widgets that are no
direct children; in a well-formed tree the children of every other `Group`
are among the latter. The `Group`s themselves (widget and name sequences,
focus index) are as before. -/
theorem uncheckRadioButtons_only_direct_radio_buttons (t : Tree) (a : Nat) :
    (t.uncheckRadioButtons a).groups = t.groups ∧
    (∀ p, (t.uncheckRadioButtons a).objects p =
      if p ∈ (t.group a).m_EventManager.m_Objects ∧
          (t.objects p).m_ObjectType = ObjectTypes.radioButton then
        (t.objects p).unchecked
      else t.objects p) ∧
    (t.wellFormed → a < t.groups.length → ∀ b, b < t.groups.length → b ≠ a →
      ∀ p ∈ (t.group b).m_EventManager.m_Objects,
        (t.uncheckRadioButtons a).objects p = t.objects p) := by
  have hall : ∀ p, (t.uncheckRadioButtons a).objects p =
      if p ∈ (t.group a).m_EventManager.m_Objects ∧
          (t.objects p).m_ObjectType = ObjectTypes.radioButton then
        (t.objects p).unchecked
      else t.objects p := by
    intro p
    unfold Tree.uncheckRadioButtons Group.uncheckRadioButtons Object.unchecked
    exact uncheckRadioButtonsLoop_apply _ _ _
  refine ⟨rfl, hall, ?_⟩
  intro hwf ha b hb hba p hp
  rw [hall p]
  have hnot : p ∉ (t.group a).m_EventManager.m_Objects := by
    intro hpa
    have h1 := (hwf a ha).2 p hpa
    have h2 := (hwf b hb).2 p hp
    exact hba (h2.symm.trans h1)
  simp [hnot]

theorem uncheckRadioButtons_only_direct_radio_buttons_witness :
    twoRadioGroups.wellFormed ∧
    (twoRadioGroups.uncheckRadioButtons 0).objects 4 = twoRadioGroups.objects 4 :=
  ⟨by decide,
    (uncheckRadioButtons_only_direct_radio_buttons twoRadioGroups 0).2.2 (by decide) (by decide)
      1 (by decide) (by decide) 4 (by decide)⟩

/-- C38. `Group::unfocus(object)` has the effect of `Group::focus(object)`:
each makes the one call `m_EventManager.focusObject(object)`, the event manager
after it is the one `focusObject` gives, and no call of `unfocusObject` is
made. -/
theorem unfocus_has_effect_of_focus (focusObject : EventManager → ObjPtr → EventManager)
    (g : Group) (object : ObjPtr) :
    g.unfocus focusObject object = g.focus focusObject object ∧
    (g.unfocus focusObject object).trace = g.trace ++ [Effect.focusObject object] ∧
    (g.focus focusObject object).trace = g.trace ++ [Effect.focusObject object] ∧
    (g.unfocus focusObject object).m_EventManager = focusObject g.m_EventManager object ∧
    (g.unfocus focusObject object).m_ObjName = g.m_ObjName :=
  ⟨rfl, rfl, rfl, rfl, rfl⟩

/-- Of three widgets with the second one invisible, the first and the third
are drawn, in this order. -/
theorem drawObjectGroup_example :
    (sampleGroup.drawObjectGroup threeWidgetsHeap []).2 = [10, 30] := by
  decide

/-! ## Lines without quotes -/

theorem char_le_iff_toNat (a b : Char) : a ≤ b ↔ a.toNat ≤ b.toNat := by
  rw [Char.le_def]
  rfl

theorem lowerChar_eq_spec (c : Char) :
    lowerChar c =
      if 'A' ≤ c ∧ c ≤ 'Z' then Char.ofNat (c.toNat - 'A'.toNat + 'a'.toNat) else c := by
  unfold lowerChar
  have hA : ('A' : Char).toNat = 65 := by decide
  have hZ : ('Z' : Char).toNat = 90 := by decide
  have ha : ('a' : Char).toNat = 97 := by decide
  have hiff : ('A' ≤ c ∧ c ≤ 'Z') ↔ (65 ≤ c.toNat ∧ c.toNat ≤ 90) := by
    rw [char_le_iff_toNat, char_le_iff_toNat, hA, hZ]
  by_cases h : 64 < c.toNat ∧ c.toNat < 91
  · have h2 : 65 ≤ c.toNat ∧ c.toNat ≤ 90 := by omega
    have h3 : c.toNat - 65 + 97 = c.toNat + 32 := by omega
    rw [if_pos h, if_pos (hiff.2 h2), hA, ha, h3]
  · have h2 : ¬ (65 ≤ c.toNat ∧ c.toNat ≤ 90) := by omega
    rw [if_neg h, if_neg (fun h4 => h2 (hiff.1 h4))]

theorem normalise_eq_removeBlanksAndLower (l : Str) : normalise l = removeBlanksAndLower l := by
  unfold normalise removeBlanksAndLower removeChar
  rw [List.filter_filter, List.filter_filter]
  have hg : lowerChar =
      (fun c : Char =>
        if 'A' ≤ c ∧ c ≤ 'Z' then Char.ofNat (c.toNat - 'A'.toNat + 'a'.toNat) else c) := by
    funext c
    exact lowerChar_eq_spec c
  rw [hg]
  congr 1
  apply List.filter_congr
  intro c _
  generalize (c != ' ') = x
  generalize (c != '\t') = y
  generalize (c != '\r') = z
  cases x <;> cases y <;> cases z <;> rfl

theorem lowerChar_lowerChar (c : Char) : lowerChar (lowerChar c) = lowerChar c := by
  by_cases h : 64 < c.toNat ∧ c.toNat < 91
  · have h1 : lowerChar c = Char.ofNat (c.toNat + 32) := by
      unfold lowerChar; rw [if_pos h]
    have hv : (c.toNat + 32).isValidChar := by
      left
      omega
    have h2 : (Char.ofNat (c.toNat + 32)).toNat = c.toNat + 32 := toNat_ofNat_valid _ hv
    rw [h1]
    unfold lowerChar
    rw [if_neg (by rw [h2]; omega)]
  · have h1 : lowerChar c = c := by
      unfold lowerChar; rw [if_neg h]
    rw [h1, h1]

theorem normalise_normalise (l : Str) : normalise (normalise l) = normalise l := by
  have hblank : ∀ (d : Char), ¬ (97 ≤ d.toNat ∧ d.toNat ≤ 122) → (d = ' ' ∨ d = '\t' ∨ d = '\r') →
      d ∉ normalise l := by
    intro d hd hcase hm
    unfold normalise at hm
    have hm2 := mem_map_lowerChar hd hm
    unfold removeChar at hm2
    simp only [List.mem_filter, bne_iff_ne, ne_eq] at hm2
    rcases hcase with h | h | h
    · exact hm2.1.1.2 h
    · exact hm2.1.2 h
    · exact hm2.2 h
  have hkeep : removeChar '\r' (removeChar '\t' (removeChar ' ' (normalise l))) = normalise l := by
    unfold removeChar
    rw [List.filter_filter, List.filter_filter, List.filter_eq_self]
    intro c hc
    have h1 : c ≠ ' ' := fun e => hblank ' ' (by decide) (Or.inl rfl) (e ▸ hc)
    have h2 : c ≠ '\t' := fun e => hblank '\t' (by decide) (Or.inr (Or.inl rfl)) (e ▸ hc)
    have h3 : c ≠ '\r' := fun e => hblank '\r' (by decide) (Or.inr (Or.inr rfl)) (e ▸ hc)
    simp [h1, h2, h3]
  have hmap : (normalise l).map lowerChar = normalise l := by
    unfold normalise
    rw [List.map_map]
    apply List.map_congr_left
    intro c _
    exact lowerChar_lowerChar c
  have hdef : normalise (normalise l) =
      (removeChar '\r' (removeChar '\t' (removeChar ' ' (normalise l)))).map lowerChar := rfl
  rw [hdef, hkeep, hmap]

/-- C34. A line read outside a block comment, without double quote and
without slash, is normalised to the line with every space, tab and carriage
return removed and every letter `A`-`Z` replaced by its lowercase letter, all
other characters unchanged; the lexer maps this result to itself. -/
theorem plain_line_is_stripped_and_lowered (l : Str) (hq : '"' ∉ l) (hs : '/' ∉ l) :
    lexLine false l = some (removeBlanksAndLower l, false) ∧
    lexLine false (removeBlanksAndLower l) = some (removeBlanksAndLower l, false) := by
  rw [← normalise_eq_removeBlanksAndLower]
  have h1 : lexLine false l = some (normalise l, false) := by
    unfold lexLine
    simp only [Bool.false_eq_true, if_false]
    exact lexNormal_plain l hq hs
  refine ⟨h1, ?_⟩
  have h2 : lexLine false (normalise l) = some (normalise (normalise l), false) := by
    unfold lexLine
    simp only [Bool.false_eq_true, if_false]
    exact lexNormal_plain _ (not_mem_normalise not_letter_quote hq)
      (not_mem_normalise not_letter_slash hs)
  rw [h2, normalise_normalise]

theorem plain_line_is_stripped_and_lowered_witness :
    lexLine false " Text Size\t= 12\r".toList = some ("textsize=12".toList, false) ∧
    lexLine false "textsize=12".toList = some ("textsize=12".toList, false) := by
  have h := plain_line_is_stripped_and_lowered " Text Size\t= 12\r".toList (by decide) (by decide)
  have e : removeBlanksAndLower " Text Size\t= 12\r".toList = "textsize=12".toList := by decide
  rw [e] at h
  exact h

/-! ## The substitution of the defines -/

theorem occursAt_zero (token line : Str) :
    occursAt token line 0 = token.isPrefixOf line := by
  unfold occursAt
  rw [Bool.eq_iff_iff, beq_iff_eq, List.isPrefixOf_iff_prefix, List.prefix_iff_eq_take,
    List.drop_zero]
  exact eq_comm

theorem occursAt_succ (token : Str) (x : Char) (xs : Str) (i : Nat) :
    occursAt token (x :: xs) (i + 1) = occursAt token xs i := rfl

theorem firstOccurrence_nil (token : Str) :
    firstOccurrence token [] = if token = [] then some 0 else none := by
  unfold firstOccurrence
  have hr : List.range ([] : Str).length.succ = [0] := rfl
  rw [hr, List.find?_cons, occursAt_zero]
  cases token with
  | nil => rfl
  | cons t ts => rfl

theorem firstOccurrence_cons (token : Str) (x : Char) (xs : Str) :
    firstOccurrence token (x :: xs) =
      if token.isPrefixOf (x :: xs) then some 0
      else (firstOccurrence token xs).map (· + 1) := by
  unfold firstOccurrence
  rw [List.length_cons, List.range_succ_eq_map, List.find?_cons, occursAt_zero]
  cases hp : token.isPrefixOf (x :: xs) with
  | true => simp
  | false =>
    simp only [Bool.false_eq_true, if_false]
    rw [List.find?_map]
    have hfun : (occursAt token (x :: xs) ∘ Nat.succ) = occursAt token xs := by
      funext i
      exact occursAt_succ token x xs i
    rw [hfun]

theorem findStr_eq_firstOccurrence (token : Str) :
    ∀ (line : Str), findStr token line = firstOccurrence token line := by
  intro line
  induction line with
  | nil => rw [firstOccurrence_nil]; rfl
  | cons x xs ih =>
    rw [firstOccurrence_cons, ← ih]
    rfl

theorem applyDefines_eq_substituteDefines :
    ∀ (tokens values : List Str) (line : Str),
      applyDefines tokens values line = substituteDefines (tokens.zip values) line := by
  intro tokens
  induction tokens with
  | nil => intro values line; cases values <;> rfl
  | cons t ts ih =>
    intro values line
    cases values with
    | nil => rfl
    | cons v vs =>
      unfold applyDefines
      simp only [List.zip_cons_cons, substituteDefines, List.foldl_cons, replaceFirst]
      rw [findStr_eq_firstOccurrence]
      cases firstOccurrence t line with
      | none => exact ih vs line
      | some p => exact ih vs _

/-- The first occurrence replaced: when the token stands at the end of `a` in
`a ++ token ++ b` and at no position before, the result is `a ++ value ++ b`;
`b` is kept as it is, also where the token occurs in it again. -/
theorem replaceFirst_first (token value a b : Str)
    (hfirst : ∀ j, j < a.length → occursAt token (a ++ token ++ b) j = false) :
    replaceFirst token value (a ++ token ++ b) = a ++ value ++ b := by
  have hfo : firstOccurrence token (a ++ token ++ b) = some a.length := by
    unfold firstOccurrence
    rw [List.find?_range_eq_some]
    refine ⟨?_, ?_, ?_⟩
    · unfold occursAt
      simp
    · simp
      omega
    · intro j hj
      have h := hfirst j hj
      simp only [List.append_assoc] at h
      simp [h]
  unfold replaceFirst
  rw [hfo]
  simp

/-- A line in which the token does not occur is left as it is. -/
theorem replaceFirst_absent (token value line : Str)
    (habsent : ∀ j, j ≤ line.length → occursAt token line j = false) :
    replaceFirst token value line = line := by
  have hfo : firstOccurrence token line = none := by
    unfold firstOccurrence
    rw [List.find?_range_eq_none]
    intro i hi
    simp [habsent i (by omega)]
  unfold replaceFirst
  rw [hfo]

/-- C33. For every list of registered defines and every non-empty line the
lexer gives, the line handed to the state machine is the line in which the
defines have been processed once each, in registration order, each step
replacing the first occurrence (if any) of its token in the current line by
its value. -/
theorem defines_are_processed_once_in_order (st : Loader) (raw line : Str) (mlc : Bool)
    (hlex : lexLine st.multilineComment raw = some (line, mlc)) (hne : line ≠ []) :
    readLine st raw =
      Lexed.line (substituteDefines (st.defineTokens.zip st.defineValues) line) mlc := by
  unfold readLine
  rw [hlex]
  simp only [hne, if_false]
  rw [applyDefines_eq_substituteDefines]

theorem defines_are_processed_once_in_order_witness :
    readLine definesAB "aa".toList = Lexed.line "ca".toList false ∧
    readLine definesBA "aa".toList = Lexed.line "ba".toList false := by
  have h1 := defines_are_processed_once_in_order definesAB "aa".toList "aa".toList false
    (by decide) (by decide)
  have h2 := defines_are_processed_once_in_order definesBA "aa".toList "aa".toList false
    (by decide) (by decide)
  have e1 : substituteDefines (definesAB.defineTokens.zip definesAB.defineValues) "aa".toList =
      "ca".toList := by decide
  have e2 : substituteDefines (definesBA.defineTokens.zip definesBA.defineValues) "aa".toList =
      "ba".toList := by decide
  rw [e1] at h1
  rw [e2] at h2
  exact ⟨h1, h2⟩

/-! ## The stacks of the loader -/

theorem objectHeaders_not_window :
    ∀ h ∈ objectHeaders, h.2 ≠ ObjectTypes.window := by
  decide

/-- What a successful `COMPARE_OBJECT` chain leaves: a widget type that is not
the window, 0 pushed on the progress stack, the other stacks as they were
(and the stack of parent pointers was not empty). -/
theorem createObject_running (st st1 : Loader) (line : Str)
    (h : createObject st line = Outcome.running st1) :
    ∃ kind, kind ≠ ObjectTypes.window ∧ st1.objectID = ObjectID.succ kind ∧
      st1.progress = 0 :: st.progress ∧ st1.parentID = st.parentID ∧
      st1.parentPtr = st.parentPtr ∧ st.parentPtr ≠ [] ∧
      st1.multilineComment = st.multilineComment ∧
      st1.defineTokens = st.defineTokens ∧ st1.defineValues = st.defineValues := by
  unfold createObject at h
  split at h
  · simp at h
  · rename_i key kind hfind
    have hmem := List.mem_of_find?_eq_some hfind
    have hkind : kind ≠ ObjectTypes.window := objectHeaders_not_window _ hmem
    cases hpp : st.parentPtr with
    | nil =>
      rw [hpp] at h
      cases hq : (if line.drop key.length = [] then Quoted.ok []
          else checkForQuotes (line.drop key.length)) <;>
        (dsimp only at h; rw [hq] at h; simp at h)
    | cons top tl =>
      rw [hpp] at h
      cases hq : (if line.drop key.length = [] then Quoted.ok []
          else checkForQuotes (line.drop key.length)) with
      | failed => dsimp only at h; rw [hq] at h; simp at h
      | threw => dsimp only at h; rw [hq] at h; simp at h
      | ok name =>
        dsimp only at h
        rw [hq] at h
        simp only [Outcome.running.injEq] at h
        subst h
        exact ⟨kind, hkind, rfl, rfl, rfl, rfl, by simp, rfl, rfl, rfl⟩

theorem perform_running (env : Env) (st st1 : Loader) (a : Action)
    (h : perform env st a = Outcome.running st1) :
    st1.objectID = st.objectID ∧ st1.progress = st.progress ∧ st1.parentID = st.parentID ∧
      st1.parentPtr = st.parentPtr := by
  cases a with
  | fail => simp [perform] at h
  | throw => simp [perform] at h
  | nothing =>
    simp only [perform, Outcome.running.injEq] at h
    subst h
    exact ⟨rfl, rfl, rfl, rfl⟩
  | call method args =>
    simp only [perform, Outcome.running.injEq] at h
    subst h
    exact ⟨rfl, rfl, rfl, rfl⟩
  | callChecked method args =>
    simp only [perform] at h
    split at h
    · simp only [Outcome.running.injEq] at h
      subst h
      exact ⟨rfl, rfl, rfl, rfl⟩
    · simp at h

theorem stacksInvariant_congr (st st1 : Loader) (hid : st1.objectID = st.objectID)
    (hprog : st1.progress = st.progress) (hpid : st1.parentID = st.parentID)
    (hpp : st1.parentPtr = st.parentPtr) (hinv : st.stacksInvariant) : st1.stacksInvariant := by
  unfold Loader.stacksInvariant at hinv ⊢
  rw [hid, hprog, hpid, hpp]
  exact hinv

theorem stacksInvariant_widget (st : Loader) (t : ObjectTypes) (ht : t ≠ ObjectTypes.window)
    (hid : st.objectID = ObjectID.succ t)
    (h : st.parentPtr.length = st.progress.length ∧ st.parentID.length = st.progress.length ∧
      st.parentID.getLast? = some (ObjectID.succ ObjectTypes.window) ∧
      ∀ id ∈ st.parentID.dropLast,
        id ≠ ObjectID.zero ∧ id ≠ ObjectID.succ ObjectTypes.window) :
    st.stacksInvariant := by
  unfold Loader.stacksInvariant
  refine ⟨?_, ?_, fun _ _ => h⟩
  · intro h0
    rw [hid] at h0
    cases h0
  · intro h0
    rw [hid] at h0
    injection h0 with h1
    exact absurd h1 ht

theorem dispatch_widget (env : Env) (st : Loader) (t : ObjectTypes) (line : Str)
    (ht : t ≠ ObjectTypes.window) (hid : st.objectID = ObjectID.succ t) :
    dispatch env st line = widgetSection env st t line := by
  unfold dispatch
  rw [hid]
  cases t <;> first | exact absurd rfl ht | rfl

theorem widgetSection_stacksInvariant (env : Env) (st st1 : Loader) (t : ObjectTypes)
    (line : Str) (ht : t ≠ ObjectTypes.window) (hid : st.objectID = ObjectID.succ t)
    (hinv : st.stacksInvariant) (h : widgetSection env st t line = Outcome.running st1) :
    st1.stacksInvariant := by
  have hne0 : st.objectID ≠ ObjectID.zero := by rw [hid]; intro h0; cases h0
  have hnew : st.objectID ≠ ObjectID.succ ObjectTypes.window := by
    rw [hid]; intro h0; injection h0 with h1; exact ht h1
  obtain ⟨hl1, hl2, hlast, hall⟩ := hinv.2.2 hne0 hnew
  unfold widgetSection at h
  cases hprog : st.progress with
  | nil => rw [hprog] at h; simp at h
  | cons top rest =>
    rw [hprog] at h hl1 hl2
    simp only at h
    by_cases htop : top = 0
    · rw [if_pos htop] at h
      by_cases hline : line = "\x7b".toList
      · rw [if_pos hline] at h
        simp only [Outcome.running.injEq] at h
        subst h
        exact stacksInvariant_widget _ t ht hid ⟨by simpa using hl1, by simpa using hl2, hlast, hall⟩
      · rw [if_neg hline] at h
        simp at h
    · rw [if_neg htop] at h
      by_cases hline : line = "\x7d".toList
      · rw [if_pos hline] at h
        cases hpid : st.parentID with
        | nil => rw [hpid] at hl2; simp at hl2
        | cons id ids =>
          cases hpp : st.parentPtr with
          | nil => rw [hpp] at hl1; simp at hl1
          | cons ptr ptrs =>
            rw [hpid, hpp] at h
            simp only [Outcome.running.injEq] at h
            subst h
            rw [hpid] at hl2 hlast hall
            rw [hpp] at hl1
            simp only [List.length_cons, Nat.add_right_cancel_iff] at hl1 hl2
            cases ids with
            | nil =>
              simp only [List.getLast?_singleton, Option.some.injEq] at hlast
              have hrest : rest = [] := by
                apply List.eq_nil_of_length_eq_zero
                rw [← hl2]; rfl
              have hptrs : ptrs = [] := by
                apply List.eq_nil_of_length_eq_zero
                rw [hl1, hrest]; rfl
              unfold Loader.stacksInvariant
              simp only [hlast, hrest, hptrs]
              simp
            | cons id2 ids2 =>
              have hw : id ≠ ObjectID.zero ∧ id ≠ ObjectID.succ ObjectTypes.window :=
                hall id (by simp [List.dropLast])
              unfold Loader.stacksInvariant
              refine ⟨fun h0 => absurd h0 hw.1, fun h0 => absurd h0 hw.2, fun _ _ => ?_⟩
              refine ⟨hl1, hl2, ?_, ?_⟩
              · simpa [List.getLast?_cons_cons] using hlast
              · intro x hx
                exact hall x (by simp [List.dropLast]; right; exact hx)
      · rw [if_neg hline] at h
        cases hfind : (properties t).find? (fun p => startsWith p.1 line) with
        | some p =>
          rw [hfind] at h
          obtain ⟨key, action⟩ := p
          simp only at h
          obtain ⟨e1, e2, e3, e4⟩ := perform_running env st st1 _ h
          exact stacksInvariant_congr st st1 e1 e2 e3 e4 hinv
        | none =>
          rw [hfind] at h
          simp only at h
          by_cases hpanel : t = ObjectTypes.panel ∨ t = ObjectTypes.childWindow
          · rw [if_pos hpanel] at h
            obtain ⟨kind, hkind, e1, e2, e3, e4, _⟩ := createObject_running _ st1 line h
            apply stacksInvariant_widget st1 kind hkind e1
            rw [e2, e3, e4]
            simp only [List.length_cons, hprog]
            simp only [List.length_cons] at hl1 hl2
            have hpidne : st.parentID ≠ [] := by
              intro h0
              rw [h0] at hlast
              simp at hlast
            refine ⟨by omega, by omega, ?_, ?_⟩
            · cases hp : st.parentID with
              | nil => exact absurd hp hpidne
              | cons a as =>
                rw [hp] at hlast
                rw [List.getLast?_cons_cons]
                exact hlast
            · intro x hx
              cases hp : st.parentID with
              | nil => exact absurd hp hpidne
              | cons a as =>
                rw [hp] at hx hall
                simp only [List.dropLast, List.mem_cons] at hx
                rcases hx with hx | hx
                · subst hx
                  refine ⟨(by intro h0; cases h0), ?_⟩
                  intro h0
                  injection h0 with h1
                  exact ht h1
                · exact hall x hx
          · rw [if_neg hpanel] at h
            simp at h

theorem dispatch_stacksInvariant (env : Env) (st st1 : Loader) (line : Str)
    (hinv : st.stacksInvariant) (h : dispatch env st line = Outcome.running st1) :
    st1.stacksInvariant := by
  cases hid : st.objectID with
  | zero =>
    obtain ⟨hpp, hpid, hprog⟩ := hinv.1 hid
    unfold dispatch at h
    rw [hid] at h
    simp only at h
    by_cases hp : st.progress = []
    · rw [if_pos hp] at h
      by_cases hw : startsWith "window:" line = true
      · rw [if_pos hw] at h
        simp only [Outcome.running.injEq] at h
        subst h
        unfold Loader.stacksInvariant
        simp [hpp, hpid, hp]
      · rw [if_neg hw] at h
        by_cases hd : startsWith "define:" line = true
        · rw [if_pos hd] at h
          try dsimp only at h
          cases hf : findChar '=' (line.drop 7) with
          | none => rw [hf] at h; simp at h
          | some pos =>
            rw [hf] at h
            simp only [Outcome.running.injEq] at h
            subst h
            exact stacksInvariant_congr st _ hid.symm rfl rfl rfl hinv
        · rw [if_neg hd] at h
          simp at h
    · rw [if_neg hp] at h
      have hp1 : st.progress = [1] := by
        rcases hprog with h0 | h0
        · exact absurd h0 hp
        · exact h0
      by_cases hline : line = "\x7b".toList
      · rw [if_pos hline] at h
        simp only [Outcome.running.injEq] at h
        subst h
        unfold Loader.stacksInvariant
        simp [hpp, hpid, hp1]
      · rw [if_neg hline] at h
        simp at h
  | succ t =>
    by_cases ht : t = ObjectTypes.window
    · subst ht
      obtain ⟨hpp, hpid, hprog⟩ := hinv.2.1 hid
      unfold dispatch at h
      rw [hid] at h
      simp only at h
      by_cases hline : line = "\x7d".toList
      · rw [if_pos hline] at h
        simp at h
      · rw [if_neg hline] at h
        obtain ⟨kind, hkind, e1, e2, e3, e4, _⟩ := createObject_running _ st1 line h
        apply stacksInvariant_widget st1 kind hkind e1
        rw [e2, e3, e4]
        simp [hpp, hpid, hprog]
    · rw [dispatch_widget env st t line ht hid] at h
      exact widgetSection_stacksInvariant env st st1 t line ht hid hinv h

theorem step_stacksInvariant (env : Env) (st st1 : Loader) (raw : Str)
    (hinv : st.stacksInvariant) (h : step env st raw = Outcome.running st1) :
    st1.stacksInvariant := by
  unfold step at h
  cases hr : readLine st raw with
  | failed => rw [hr] at h; simp at h
  | skipped mlc =>
    rw [hr] at h
    simp only [Outcome.running.injEq] at h
    subst h
    exact stacksInvariant_congr st _ rfl rfl rfl rfl hinv
  | line text mlc =>
    rw [hr] at h
    simp only at h
    exact dispatch_stacksInvariant env { st with multilineComment := mlc } st1 text
      (stacksInvariant_congr st _ rfl rfl rfl rfl hinv) h

theorem runPrefix_stacksInvariant (env : Env) :
    ∀ (lines : List Str) (st st1 : Loader), st.stacksInvariant →
      runPrefix env st lines = Outcome.running st1 → st1.stacksInvariant := by
  intro lines
  induction lines with
  | nil =>
    intro st st1 hinv h
    simp only [runPrefix, Outcome.running.injEq] at h
    subst h
    exact hinv
  | cons raw rest ih =>
    intro st st1 hinv h
    unfold runPrefix at h
    cases hs : step env st raw with
    | running st2 =>
      rw [hs] at h
      exact ih st2 st1 (step_stacksInvariant env st st2 raw hinv hs) h
    | returned r w => rw [hs] at h; simp at h
    | crashed => rw [hs] at h; simp at h

theorem stacksFit_of_stacksInvariant (st : Loader) (hinv : st.stacksInvariant) :
    st.stacksFit := by
  unfold Loader.stacksFit
  cases hid : st.objectID with
  | zero => exact hinv.1 hid
  | succ t =>
    by_cases ht : t = ObjectTypes.window
    · subst ht
      exact hinv.2.1 hid
    · have h := hinv.2.2 (by rw [hid]; intro h0; cases h0)
        (by rw [hid]; intro h0; injection h0 with h1; exact ht h1)
      have hne : st.progress.length ≠ 0 := by
        intro h0
        have h1 : st.parentID = [] := List.eq_nil_of_length_eq_zero (h.2.1.trans h0)
        have h2 := h.2.2.1
        rw [h1] at h2
        simp at h2
      cases t <;> first | exact absurd rfl ht | exact ⟨h.1, h.2.1, hne⟩

/-- C39. In every state of the loader reached from the initial state by a
sequence of lines, the stacks fit the current section: in the top-level window
section the stacks of parent pointers, of parent ids and of progress are
empty; in a widget section the three stacks have the same height, which is not
0, so that none of them is empty where `top()` and `pop()` are applied to it. -/
theorem reachable_states_have_fitting_stacks (env : Env) (w : World) (lines : List Str)
    (st : Loader) (h : runPrefix env { world := w } lines = Outcome.running st) :
    st.stacksFit ∧
    (st.objectID = ObjectID.succ ObjectTypes.window →
      st.parentPtr = [] ∧ st.parentID = [] ∧ st.progress = []) ∧
    (st.objectID ≠ ObjectID.zero → st.objectID ≠ ObjectID.succ ObjectTypes.window →
      st.parentPtr.length = st.progress.length ∧ st.parentID.length = st.progress.length ∧
      st.progress ≠ [] ∧ st.parentID ≠ [] ∧ st.parentPtr ≠ []) := by
  have h0 : ({ world := w } : Loader).stacksInvariant := by
    unfold Loader.stacksInvariant
    simp
  have hinv := runPrefix_stacksInvariant env lines _ st h0 h
  refine ⟨stacksFit_of_stacksInvariant st hinv, hinv.2.1, ?_⟩
  intro hz hw
  obtain ⟨h1, h2, h3, _⟩ := hinv.2.2 hz hw
  have hpid : st.parentID ≠ [] := by
    intro h0
    rw [h0] at h3
    simp at h3
  have hprog : st.progress ≠ [] := by
    intro h0
    rw [h0] at h2
    exact hpid (List.eq_nil_of_length_eq_zero h2)
  have hpp : st.parentPtr ≠ [] := by
    intro h0
    rw [h0] at h1
    exact hprog (List.eq_nil_of_length_eq_zero h1.symm)
  exact ⟨h1, h2, hprog, hpid, hpp⟩

theorem reachable_states_have_fitting_stacks_witness :
    runPrefix Env.permissive { world := World.empty } labelLeftOpen = Outcome.running insideLabel ∧
    insideLabel.stacksFit :=
  ⟨by decide,
    (reachable_states_have_fitting_stacks Env.permissive World.empty labelLeftOpen insideLabel
      (by decide)).1⟩

/-! ## The frame of a widget section -/

theorem perform_created (env : Env) (st st1 : Loader) (a : Action)
    (h : perform env st a = Outcome.running st1) :
    st1.world.created = st.world.created := by
  cases a with
  | fail => simp [perform] at h
  | throw => simp [perform] at h
  | nothing =>
    simp only [perform, Outcome.running.injEq] at h
    subst h
    rfl
  | call method args =>
    simp only [perform, Outcome.running.injEq] at h
    subst h
    rfl
  | callChecked method args =>
    simp only [perform] at h
    split at h
    · simp only [Outcome.running.injEq] at h
      subst h
      rfl
    · simp at h

/-- A line that makes the loader go on with one more widget created is a
header line: the section of a widget type is entered with 0 pushed on the
progress stack, and the section that was current is pushed on the stack of
parent ids (a parent pointer is pushed as well). -/
theorem dispatch_creates (env : Env) (st0 st1 : Loader) (header : Str)
    (hrun : dispatch env st0 header = Outcome.running st1)
    (hnew : st1.world.created ≠ st0.world.created) :
    ∃ kind p, kind ≠ ObjectTypes.window ∧ st1.objectID = ObjectID.succ kind ∧
      st1.progress = 0 :: st0.progress ∧ st1.parentID = st0.objectID :: st0.parentID ∧
      st1.parentPtr = p :: st0.parentPtr := by
  cases hid : st0.objectID with
  | zero =>
    exfalso
    apply hnew
    unfold dispatch at hrun
    rw [hid] at hrun
    simp only at hrun
    repeat' split at hrun
    all_goals first
      | (simp at hrun; done)
      | (simp only [Outcome.running.injEq] at hrun; subst hrun; rfl)
  | succ t =>
    by_cases ht : t = ObjectTypes.window
    · subst ht
      unfold dispatch at hrun
      rw [hid] at hrun
      simp only at hrun
      by_cases hline : header = "\x7d".toList
      · rw [if_pos hline] at hrun
        simp at hrun
      · rw [if_neg hline] at hrun
        obtain ⟨kind, hkind, e1, e2, e3, e4, _⟩ := createObject_running _ st1 header hrun
        exact ⟨kind, Ptr.this, hkind, e1, e2, e3, e4⟩
    · rw [dispatch_widget env st0 t header ht hid] at hrun
      unfold widgetSection at hrun
      cases hprog : st0.progress with
      | nil => rw [hprog] at hrun; simp at hrun
      | cons top rest =>
        rw [hprog] at hrun
        simp only at hrun
        by_cases htop : top = 0
        · rw [if_pos htop] at hrun
          exfalso
          apply hnew
          split at hrun
          · simp only [Outcome.running.injEq] at hrun; subst hrun; rfl
          · simp at hrun
        · rw [if_neg htop] at hrun
          by_cases hline : header = "\x7d".toList
          · rw [if_pos hline] at hrun
            exfalso
            apply hnew
            split at hrun
            · simp only [Outcome.running.injEq] at hrun; subst hrun; rfl
            · simp at hrun
          · rw [if_neg hline] at hrun
            cases hfind : (properties t).find? (fun p => startsWith p.1 header) with
            | some p =>
              rw [hfind] at hrun
              obtain ⟨key, action⟩ := p
              simp only at hrun
              exact absurd (perform_created env st0 st1 _ hrun) hnew
            | none =>
              rw [hfind] at hrun
              simp only at hrun
              by_cases hpanel : t = ObjectTypes.panel ∨ t = ObjectTypes.childWindow
              · rw [if_pos hpanel] at hrun
                obtain ⟨kind, hkind, e1, e2, e3, e4, _⟩ :=
                  createObject_running _ st1 header hrun
                exact ⟨kind, st0.extraPtr, hkind, e1, e2, e3, e4⟩
              · rw [if_neg hpanel] at hrun
                simp at hrun

/-- C35. After a header line has created a widget (`header`, read in the state
`st0`, leads to `st1`), every line other than `{` makes the load return false,
and `{` opens the section; in a state of the opened section (the section type
and the stacks are those after `{`) the line `}` closes the section: the
current section type is again the one of `st0`, and the three stacks are those
of `st0`. -/
theorem widget_section_frame (env : Env) (st0 st1 : Loader) (header : Str)
    (hrun : dispatch env st0 header = Outcome.running st1)
    (hnew : st1.world.created ≠ st0.world.created) :
    (∀ text, text ≠ "\x7b".toList → dispatch env st1 text = Outcome.returned false st1.world) ∧
    dispatch env st1 "\x7b".toList =
      Outcome.running { st1 with progress := 1 :: st0.progress } ∧
    (∀ st2 : Loader, st2.objectID = st1.objectID → st2.parentID = st1.parentID →
      st2.parentPtr = st1.parentPtr → st2.progress = 1 :: st0.progress →
      dispatch env st2 "\x7d".toList =
        Outcome.running
          { st2 with
            objectID := st0.objectID
            parentID := st0.parentID
            parentPtr := st0.parentPtr
            progress := st0.progress }) := by
  obtain ⟨kind, p, hkind, hid, hprog, hpid, hpp⟩ := dispatch_creates env st0 st1 header hrun hnew
  refine ⟨?_, ?_, ?_⟩
  · intro text htext
    rw [dispatch_widget env st1 kind text hkind hid]
    unfold widgetSection
    rw [hprog]
    simp only [if_true]
    rw [if_neg htext]
  · rw [dispatch_widget env st1 kind _ hkind hid]
    unfold widgetSection
    rw [hprog]
    simp
  · intro st2 h1 h2 h3 h4
    rw [dispatch_widget env st2 kind _ hkind (h1.trans hid)]
    unfold widgetSection
    rw [h4, h2, h3, hpid, hpp]
    simp

theorem widget_section_frame_witness :
    dispatch Env.permissive insideWindow "label:\"l1\"".toList = Outcome.running afterLabelHeader ∧
    dispatch Env.permissive afterLabelHeader "\x7d".toList =
      Outcome.returned false afterLabelHeader.world ∧
    dispatch Env.permissive afterLabelHeader "text=\"a\"".toList =
      Outcome.returned false afterLabelHeader.world ∧
    dispatch Env.permissive insideLabel "\x7d".toList =
      Outcome.running
        { insideLabel with
          objectID := insideWindow.objectID
          parentID := insideWindow.parentID
          parentPtr := insideWindow.parentPtr
          progress := insideWindow.progress } :=
  have h := widget_section_frame Env.permissive insideWindow afterLabelHeader
    "label:\"l1\"".toList (by decide) (by decide)
  ⟨by decide, h.1 _ (by decide), h.1 _ (by decide),
    h.2.2 insideLabel (by decide) (by decide) (by decide) (by decide)⟩


/-! ## Numbers -/

theorem step_define_registered (env : Env) (st : Loader) (T V : Str)
    (hT : '"' ∉ T ∧ '/' ∉ T) (hV : '"' ∉ V ∧ '/' ∉ V) (heq : '=' ∉ T)
    (hid : st.objectID = ObjectID.zero) (hprog : st.progress = [])
    (hmlc : st.multilineComment = false)
    (hnone : ∀ t ∈ st.defineTokens,
      findStr t ("define:".toList ++ (normalise T ++ '=' :: normalise V)) = none) :
    step env st ("define: ".toList ++ T ++ '=' :: V) =
      Outcome.running
        { st with
          defineTokens := st.defineTokens ++ [normalise T]
          defineValues := st.defineValues ++ [normalise V] } := by
  have hq : '"' ∉ "define: ".toList ++ T ++ '=' :: V := by
    simp only [List.mem_append, List.mem_cons, not_or]
    exact ⟨⟨by decide, hT.1⟩, by decide, hV.1⟩
  have hs : '/' ∉ "define: ".toList ++ T ++ '=' :: V := by
    simp only [List.mem_append, List.mem_cons, not_or]
    exact ⟨⟨by decide, hT.2⟩, by decide, hV.2⟩
  have hnorm : normalise ("define: ".toList ++ T ++ '=' :: V) =
      "define:".toList ++ (normalise T ++ '=' :: normalise V) := by
    rw [normalise_append, normalise_append, normalise_cons_equals, List.append_assoc]
    rfl
  have hfind : findChar '=' (normalise T ++ '=' :: normalise V) = some (normalise T).length :=
    findChar_append_cons '=' _ _ (not_mem_normalise not_letter_equals heq)
  have hne : "define:".toList ++ (normalise T ++ '=' :: normalise V) ≠ [] := by simp
  have hread : readLine st ("define: ".toList ++ T ++ '=' :: V) =
      Lexed.line ("define:".toList ++ (normalise T ++ '=' :: normalise V)) false := by
    unfold readLine lexLine
    simp only [hmlc, Bool.false_eq_true, if_false, lexNormal_plain _ hq hs, hnorm]
    rw [if_neg hne, applyDefines_none _ _ _ hnone]
  have hw : startsWith "window:" ("define:".toList ++ (normalise T ++ '=' :: normalise V)) =
      false := by
    have h7 : "window:".length = 7 := rfl
    simp [startsWith, h7]
  have hd : startsWith "define:" ("define:".toList ++ (normalise T ++ '=' :: normalise V)) =
      true := by
    have h7 : "define:".length = 7 := rfl
    simp [startsWith, h7]
  have hdrop : List.drop 7 ("define:".toList ++ (normalise T ++ '=' :: normalise V)) =
      normalise T ++ '=' :: normalise V := by
    simp
  have h2 : List.drop ((normalise T).length + 1) (normalise T ++ '=' :: normalise V) =
      normalise V := by
    have : normalise T ++ '=' :: normalise V = (normalise T ++ ['=']) ++ normalise V := by simp
    rw [this]
    exact List.drop_left' (by simp)
  have hst : ({ st with multilineComment := false } : Loader) = st := by
    cases st
    simp only at hmlc
    subst hmlc
    rfl
  rw [step_of_readLine env st _ _ _ hread, hst]
  unfold dispatch
  simp only [hid, hprog, hw, hd, hdrop, hfind, if_true, Bool.false_eq_true, if_false,
    List.take_left', h2]

/-- The define loop runs on `define:` lines as well: after `define: b=c` the
line `define: a=b` is turned into `define:a=c` and registers `a` with the
value `c`; after `define: d=x` it is turned into `xefine:a=b` and the load
returns false. -/
theorem define_line_is_substituted_itself :
    step Env.permissive
        { world := World.empty, defineTokens := ["b".toList], defineValues := ["c".toList] }
        "define: a=b".toList =
      Outcome.running
        { world := World.empty
          defineTokens := ["b".toList, "a".toList]
          defineValues := ["c".toList, "c".toList] } ∧
    readLine { world := World.empty, defineTokens := ["d".toList], defineValues := ["x".toList] }
        "define: a=b".toList = Lexed.line "xefine:a=b".toList false ∧
    step Env.permissive
        { world := World.empty, defineTokens := ["d".toList], defineValues := ["x".toList] }
        "define: a=b".toList =
      Outcome.returned false World.empty := by
  decide

/-- C8 (amended). For a token `T`, a value `V` and a key without quotes and
slashes, `T` without `=`: the line `define: T=V`, read before the line
`window:` and outside a block comment in a state in which none of the tokens
registered so far occurs in the normalised line `define:T=V`, registers the
normalised (blank-free, lowered) token with the normalised value, behind the
defines registered so far; and in every later state outside a block comment in
which this define is registered, the line `key=T` is handed to the `switch` as
`key=V` (normalised), provided that the first occurrence of the token in the
normalised line is the one after `=` and that no other registered token occurs
in the line (before the substitution for earlier defines, after it for later
ones). -/
theorem define_is_substituted (env : Env) (T V key : Str)
    (hT : '"' ∉ T ∧ '/' ∉ T) (hV : '"' ∉ V ∧ '/' ∉ V) (hkey : '"' ∉ key ∧ '/' ∉ key)
    (heq : '=' ∉ T)
    (hfirst : findStr (normalise T) (normalise key ++ '=' :: normalise T) =
      some ((normalise key).length + 1)) :
    (∀ st0 : Loader,
      st0.objectID = ObjectID.zero → st0.progress = [] → st0.multilineComment = false →
      (∀ t ∈ st0.defineTokens,
        findStr t ("define:".toList ++ (normalise T ++ '=' :: normalise V)) = none) →
      step env st0 ("define: ".toList ++ T ++ '=' :: V) =
        Outcome.running
          { st0 with
            defineTokens := st0.defineTokens ++ [normalise T]
            defineValues := st0.defineValues ++ [normalise V] }) ∧
    ∀ (st : Loader) (ts1 vs1 ts2 vs2 : List Str),
      st.multilineComment = false →
      st.defineTokens = ts1 ++ normalise T :: ts2 →
      st.defineValues = vs1 ++ normalise V :: vs2 →
      ts1.length = vs1.length →
      (∀ t ∈ ts1, findStr t (normalise key ++ '=' :: normalise T) = none) →
      (∀ t ∈ ts2, findStr t (normalise key ++ '=' :: normalise V) = none) →
      readLine st (key ++ '=' :: T) =
        Lexed.line (normalise key ++ '=' :: normalise V) false :=
  ⟨fun st0 hid hprog hmlc hnone => step_define_registered env st0 T V hT hV heq hid hprog hmlc hnone,
    fun st ts1 vs1 ts2 vs2 hmc htokens hvalues hlen hbefore hafter =>
      readLine_substitutes st T (normalise V) key ts1 vs1 ts2 vs2 hT hkey hmc htokens hvalues
        hlen hbefore hafter hfirst⟩

theorem define_is_substituted_witness :
    ('"' ∉ "BTN_W".toList ∧ '/' ∉ "BTN_W".toList) ∧
    ('"' ∉ "100".toList ∧ '/' ∉ "100".toList) ∧
    ('"' ∉ "width".toList ∧ '/' ∉ "width".toList) ∧
    '=' ∉ "BTN_W".toList ∧
    findStr (normalise "BTN_W".toList) (normalise "width".toList ++ '=' :: normalise "BTN_W".toList) =
      some ((normalise "width".toList).length + 1) ∧
    step Env.permissive { world := World.empty }
        ("define: ".toList ++ "BTN_W".toList ++ '=' :: "100".toList) =
      Outcome.running afterDefineBtnW ∧
    step Env.permissive
        { world := World.empty, defineTokens := ["x".toList], defineValues := ["5".toList] }
        ("define: ".toList ++ "BTN_W".toList ++ '=' :: "100".toList) =
      Outcome.running
        { world := World.empty
          defineTokens := ["x".toList, "btn_w".toList]
          defineValues := ["5".toList, "100".toList] } ∧
    readLine afterDefineBtnW ("width".toList ++ '=' :: "BTN_W".toList) =
      Lexed.line "width=100".toList false :=
  ⟨by decide, by decide, by decide, by decide, by decide,
    (define_is_substituted Env.permissive "BTN_W".toList "100".toList
      "width".toList (by decide) (by decide) (by decide) (by decide) (by decide)).1
      { world := World.empty } rfl rfl rfl (by decide),
    (define_is_substituted Env.permissive "BTN_W".toList "100".toList
      "width".toList (by decide) (by decide) (by decide) (by decide) (by decide)).1
      { world := World.empty, defineTokens := ["x".toList], defineValues := ["5".toList] }
      rfl rfl rfl (by decide),
    (define_is_substituted Env.permissive "BTN_W".toList "100".toList
      "width".toList (by decide) (by decide) (by decide) (by decide) (by decide)).2
      afterDefineBtnW [] [] [] [] (by decide) (by decide) (by decide) (by decide)
      (by decide) (by decide)⟩

/-! ## The conversions of numbers at some values -/

/-- The model of `atoi` beyond the range of `int`, and of the conversions to
`unsigned int` and to `float`. -/
theorem number_conversion_examples :
    atoi "12abc".toList = 12 ∧
    atoi "2147483648".toList = -2147483648 ∧
    atoi "99999999999".toList = 1215752191 ∧
    atoi "99999999999999999999".toList = -1 ∧
    atoi "-5".toList % 4294967296 = 4294967291 ∧
    floatOfInt 16777216 = 16777216 ∧
    floatOfInt 16777217 = 16777216 ∧
    floatOfInt 16777219 = 16777220 ∧
    floatOfInt 2147483647 = 2147483648 ∧
    floatOfInt (-16777217) = -16777216 ∧
    step Env.permissive
        { insideLabel with objectID := ObjectID.succ ObjectTypes.listbox }
        "itemheight=-5".toList =
      Outcome.running
        (Loader.withCall { insideLabel with objectID := ObjectID.succ ObjectTypes.listbox }
          "setItemHeight" [Arg.int 4294967291]) := by
  decide


/-! ## The two vectors of the defines -/

theorem perform_defines (env : Env) (st st1 : Loader) (a : Action)
    (h : perform env st a = Outcome.running st1) :
    st1.defineTokens = st.defineTokens ∧ st1.defineValues = st.defineValues := by
  cases a with
  | fail => simp [perform] at h
  | throw => simp [perform] at h
  | nothing =>
    simp only [perform, Outcome.running.injEq] at h
    subst h
    exact ⟨rfl, rfl⟩
  | call method args =>
    simp only [perform, Outcome.running.injEq] at h
    subst h
    exact ⟨rfl, rfl⟩
  | callChecked method args =>
    simp only [perform] at h
    split at h
    · simp only [Outcome.running.injEq] at h
      subst h
      exact ⟨rfl, rfl⟩
    · simp at h

theorem dispatch_defines_aligned (env : Env) (st st1 : Loader) (line : Str)
    (h : dispatch env st line = Outcome.running st1)
    (hal : st.defineTokens.length = st.defineValues.length) :
    st1.defineTokens.length = st1.defineValues.length := by
  cases hid : st.objectID with
  | zero =>
    unfold dispatch at h
    rw [hid] at h
    simp only at h
    repeat' split at h
    all_goals first
      | (simp at h; done)
      | (simp only [Outcome.running.injEq] at h
         subst h
         simp [hal])
  | succ t =>
    by_cases ht : t = ObjectTypes.window
    · subst ht
      unfold dispatch at h
      rw [hid] at h
      simp only at h
      by_cases hline : line = "\x7d".toList
      · rw [if_pos hline] at h
        simp at h
      · rw [if_neg hline] at h
        obtain ⟨_, _, _, _, _, _, _, _, e1, e2⟩ := createObject_running _ st1 line h
        rw [e1, e2]
        exact hal
    · rw [dispatch_widget env st t line ht hid] at h
      unfold widgetSection at h
      cases hprog : st.progress with
      | nil => rw [hprog] at h; simp at h
      | cons top rest =>
        rw [hprog] at h
        simp only at h
        by_cases htop : top = 0
        · rw [if_pos htop] at h
          split at h
          · simp only [Outcome.running.injEq] at h
            subst h
            exact hal
          · simp at h
        · rw [if_neg htop] at h
          by_cases hline : line = "\x7d".toList
          · rw [if_pos hline] at h
            split at h
            · simp only [Outcome.running.injEq] at h
              subst h
              exact hal
            · simp at h
          · rw [if_neg hline] at h
            cases hfind : (properties t).find? (fun p => startsWith p.1 line) with
            | some p =>
              rw [hfind] at h
              obtain ⟨key, action⟩ := p
              simp only at h
              obtain ⟨e1, e2⟩ := perform_defines env st st1 _ h
              rw [e1, e2]
              exact hal
            | none =>
              rw [hfind] at h
              simp only at h
              by_cases hpanel : t = ObjectTypes.panel ∨ t = ObjectTypes.childWindow
              · rw [if_pos hpanel] at h
                obtain ⟨_, _, _, _, _, _, _, _, e1, e2⟩ := createObject_running _ st1 line h
                rw [e1, e2]
                exact hal
              · rw [if_neg hpanel] at h
                simp at h

theorem step_defines_aligned (env : Env) (st st1 : Loader) (raw : Str)
    (h : step env st raw = Outcome.running st1)
    (hal : st.defineTokens.length = st.defineValues.length) :
    st1.defineTokens.length = st1.defineValues.length := by
  unfold step at h
  cases hr : readLine st raw with
  | failed => rw [hr] at h; simp at h
  | skipped mlc =>
    rw [hr] at h
    simp only [Outcome.running.injEq] at h
    subst h
    exact hal
  | line text mlc =>
    rw [hr] at h
    simp only at h
    exact dispatch_defines_aligned env { st with multilineComment := mlc } st1 text h hal

/-- In every state a load reaches, the vectors of define tokens and of define
values have the same length. -/
theorem runPrefix_defines_aligned (env : Env) :
    ∀ (lines : List Str) (st st1 : Loader),
      st.defineTokens.length = st.defineValues.length →
      runPrefix env st lines = Outcome.running st1 →
      st1.defineTokens.length = st1.defineValues.length := by
  intro lines
  induction lines with
  | nil =>
    intro st st1 hal h
    simp only [runPrefix, Outcome.running.injEq] at h
    subst h
    exact hal
  | cons raw rest ih =>
    intro st st1 hal h
    unfold runPrefix at h
    cases hs : step env st raw with
    | running st2 =>
      rw [hs] at h
      exact ih st2 st1 (step_defines_aligned env st st2 raw hs hal) h
    | returned r w => rw [hs] at h; simp at h
    | crashed => rw [hs] at h; simp at h

/-! ## Defines before and inside the window section -/

theorem substituteDefines_append_singleton (ts vs : List Str) (tok val line : Str)
    (hlen : ts.length = vs.length) :
    substituteDefines ((ts ++ [tok]).zip (vs ++ [val])) line =
      replaceFirst tok val (substituteDefines (ts.zip vs) line) := by
  unfold substituteDefines
  rw [List.zip_append hlen, List.foldl_append]
  rfl

/-- C29 (amended). Let a line be handed to the `switch` as `text` (the line
after the lexer and after the substitution of the defines registered so far).
Before the line `window:` (while `objectID` is 0 and nothing but defines has
been read): if `text` starts with `define:` and holds a `=` behind it, the
text before the `=` is registered as token and the text behind it as value,
the loop goes on, and (in a state a load has reached) in every later non-empty
line the first occurrence of the token is replaced by the value after the
defines registered before have been processed; if `text` starts with neither `window:` nor `define:`, or starts
with `define:` and holds no `=`, the loop body, and a load that reaches the
line, return false. In the top-level window section (between top-level
entries) a `text` that starts with `define:` makes the loop body, and a load
that reaches the line, return false. -/
theorem define_only_before_window (env : Env) (st : Loader) (raw text : Str) (mlc : Bool)
    (hread : readLine st raw = Lexed.line text mlc) :
    (st.objectID = ObjectID.zero → st.progress = [] →
      (∀ e, startsWith "define:" text = true → findChar '=' (text.drop 7) = some e →
        step env st raw =
          Outcome.running
            { st with
              multilineComment := mlc
              defineTokens := st.defineTokens ++ [(text.drop 7).take e]
              defineValues := st.defineValues ++ [(text.drop 7).drop (e + 1)] } ∧
        (∀ (w : World) (pre : List Str) (raw2 line2 : Str) (mlc2 : Bool),
            runPrefix env { world := w } pre = Outcome.running st →
            lexLine mlc raw2 = some (line2, mlc2) → line2 ≠ [] →
            readLine
                { st with
                  multilineComment := mlc
                  defineTokens := st.defineTokens ++ [(text.drop 7).take e]
                  defineValues := st.defineValues ++ [(text.drop 7).drop (e + 1)] } raw2 =
              Lexed.line
                (replaceFirst ((text.drop 7).take e) ((text.drop 7).drop (e + 1))
                  (substituteDefines (st.defineTokens.zip st.defineValues) line2)) mlc2)) ∧
      (startsWith "window:" text = false →
        (startsWith "define:" text = false ∨ findChar '=' (text.drop 7) = none) →
        step env st raw = Outcome.returned false st.world ∧
        ∀ (w : World) (pre post : List Str),
          runPrefix env { world := w } pre = Outcome.running st →
          loadObjectsFromFile env w (pre ++ raw :: post) = Outcome.returned false st.world)) ∧
    (st.objectID = ObjectID.succ ObjectTypes.window → startsWith "define:" text = true →
      step env st raw = Outcome.returned false st.world ∧
      ∀ (w : World) (pre post : List Str),
        runPrefix env { world := w } pre = Outcome.running st →
        loadObjectsFromFile env w (pre ++ raw :: post) = Outcome.returned false st.world) := by
  refine ⟨fun hid hprogress => ⟨?_, ?_⟩, ?_⟩
  · intro e hdefine he
    have htext := startsWith_define text hdefine
    have hwindow : startsWith "window:" text = false := by
      rw [htext]
      rfl
    constructor
    · rw [step_of_readLine env st raw text mlc hread]
      unfold dispatch
      simp only [hid, hprogress, if_true, hwindow, Bool.false_eq_true, if_false, hdefine, he]
    · intro w pre raw2 line2 mlc2 hreach hlex hne
      have hlen := runPrefix_defines_aligned env pre { world := w } st rfl hreach
      unfold readLine
      simp only [hlex, hne, if_false]
      rw [applyDefines_eq_substituteDefines, substituteDefines_append_singleton _ _ _ _ _ hlen]
  · intro hwindow hbad
    have hstep : step env st raw = Outcome.returned false st.world := by
      rw [step_of_readLine env st raw text mlc hread]
      unfold dispatch
      rcases hbad with hnd | hnone
      · simp only [hid, hprogress, if_true, hwindow, Bool.false_eq_true, if_false, hnd]
      · by_cases hd : startsWith "define:" text = true
        · simp only [hid, hprogress, if_true, hwindow, Bool.false_eq_true, if_false, hd, hnone]
        · simp only [hid, hprogress, if_true, hwindow, Bool.false_eq_true, if_false, hd]
    exact ⟨hstep, fun w pre post hreach =>
      load_returns_at_line env w pre post raw st false st.world hreach hstep⟩
  · intro hid hdefine
    have htext := startsWith_define text hdefine
    have hstep : step env st raw = Outcome.returned false st.world := by
      rw [step_of_readLine env st raw text mlc hread]
      apply dispatch_unknown
      unfold unknownLine
      simp only [hid]
      rw [htext, typeKeyword_define]
      rfl
    exact ⟨hstep, fun w pre post hreach =>
      load_returns_at_line env w pre post raw st false st.world hreach hstep⟩

theorem define_only_before_window_witness :
    step Env.permissive { world := World.empty } "define: x=5".toList =
      Outcome.running
        { world := World.empty, defineTokens := ["x".toList], defineValues := ["5".toList] } ∧
    readLine { world := World.empty, defineTokens := ["x".toList], defineValues := ["5".toList] }
        "left = x".toList = Lexed.line "left=5".toList false ∧
    step Env.permissive
        { world := World.empty, defineTokens := ["d".toList], defineValues := ["x".toList] }
        "define: a=b".toList =
      Outcome.returned false World.empty ∧
    step Env.permissive { world := World.empty } "define: x".toList =
      Outcome.returned false World.empty ∧
    step Env.permissive insideWindow "define: x=5".toList =
      Outcome.returned false World.empty :=
  ⟨(((define_only_before_window Env.permissive { world := World.empty } "define: x=5".toList
      "define:x=5".toList false (by decide)).1 rfl rfl).1 1 (by decide) (by decide)).1,
    (((define_only_before_window Env.permissive { world := World.empty } "define: x=5".toList
      "define:x=5".toList false (by decide)).1 rfl rfl).1 1 (by decide) (by decide)).2
      World.empty [] "left = x".toList "left=x".toList false rfl (by decide) (by decide),
    (((define_only_before_window Env.permissive
      { world := World.empty, defineTokens := ["d".toList], defineValues := ["x".toList] }
      "define: a=b".toList "xefine:a=b".toList false (by decide)).1 rfl rfl).2 (by decide)
      (Or.inl (by decide))).1,
    (((define_only_before_window Env.permissive { world := World.empty } "define: x".toList
      "define:x".toList false (by decide)).1 rfl rfl).2 (by decide)
      (Or.inr (by decide))).1,
    ((define_only_before_window Env.permissive insideWindow "define: x=5".toList
      "define:x=5".toList false (by decide)).2 rfl (by decide)).1⟩

end TGUI
